import Mathlib

/-!
# Flang front end: parser and semantic analyzer

A shallow embedding of `src/src/Parser.cpp`, `src/src/Token.cpp` and
`src/src/SemanticAnalyzer.cpp`, followed by theorems about the embedded code.

Conventions of the embedding.

* A parse method `std::optional<Node> parseX()` becomes
  `parseX : Nat → Parser → Option (Option Node × Parser)`.  The inner `Option`
  is the C++ `std::optional` (`none` is `std::nullopt`); the outer `Option` is
  `none` exactly when the fuel (first argument, one unit per call or loop
  iteration) has run out.  A result that is `none` for every fuel is a run of
  the C++ code that never returns.
* `bool & error` parameters are passed in and returned.
* The diagnostic stream `out` is the list of the texts written, one entry per
  `reportError` call, oldest first.
-/

namespace Flang

/-! ## Tokens (`Token.cpp`) -/

/-- Token kinds, in the order of the `TokenTypeToString` table of `Token.cpp`. -/
inductive TokenType where
  | Unknown
  | EndOfFile
  | LeftCurly
  | RightCurly
  | NewLine
  | WhiteSpace
  | LeftParen
  | RightParen
  | LeftBracket
  | RightBracket
  | Function
  | Return
  | Break
  | For
  | If
  | Else
  | While
  | SemiColon
  | Var
  | Assign
  | Comma
  | BooleanLiteral
  | UndefinedLiteral
  | Period
  | Colon
  | Identifier
  | StringLiteral
  | IntegerLiteral
  | FloatLiteral
  deriving DecidableEq, Repr

/-- The table `TokenTypeToString` of `Token.cpp`. -/
def TokenTypeToString : TokenType → String
  | .Unknown => "Unknown"
  | .EndOfFile => "EndOfFile"
  | .LeftCurly => "LeftCurly"
  | .RightCurly => "RightCurly"
  | .NewLine => "NewLine"
  | .WhiteSpace => "WhiteSpace"
  | .LeftParen => "LeftParen"
  | .RightParen => "RightParen"
  | .LeftBracket => "LeftBracket"
  | .RightBracket => "RightBracket"
  | .Function => "Function"
  | .Return => "Return"
  | .Break => "Break"
  | .For => "For"
  | .If => "If"
  | .Else => "Else"
  | .While => "While"
  | .SemiColon => "SemiColon"
  | .Var => "Var"
  | .Assign => "Assign"
  | .Comma => "Comma"
  | .BooleanLiteral => "BooleanLiteral"
  | .UndefinedLiteral => "UndefinedLiteral"
  | .Period => "Period"
  | .Colon => "Colon"
  | .Identifier => "Identifier"
  | .StringLiteral => "StringLiteral"
  | .IntegerLiteral => "IntegerLiteral"
  | .FloatLiteral => "FloatLiteral"

/-- The fields of `Token` printed by `Token::toString` in `Token.cpp`; the three
positions are `std::size_t` values. -/
structure Token where
  value : String
  tokenType : TokenType
  sourceIndex : Nat
  sourceLine : Nat
  sourceColumn : Nat
  deriving DecidableEq, Repr

/-- Modelled from the spec: `Token::typeToString` (declared in `Token.hpp`, which
is not among the sources) names the token type; it reads the table of
`Token.cpp`. -/
def Token.typeToString (t : TokenType) : String := TokenTypeToString t

/-- Modelled from the spec: `Token::isNewLine` (declared in `Token.hpp`, which is
not among the sources).  The parser uses it only in `skipWhiteSpace`, which by
the spec "skips insignificant whitespace/newline tokens". -/
def Token.isNewLine (t : Token) : Bool :=
  t.tokenType == TokenType.NewLine || t.tokenType == TokenType.WhiteSpace

/-! ## Token source -/

/-- Modelled from the spec: the `Tokenizer` (not among the sources).  `reader` is
the source text, `tokens` the tape from the cursor on (its head is the current
token) and `started` is false while the cursor is still before the first
token. -/
structure Tokenizer where
  reader : String
  tokens : List Token
  started : Bool
  deriving DecidableEq, Repr

/-- The end-of-file token reported when the tape holds nothing more. -/
def endOfFileToken : Token :=
  { value := "", tokenType := TokenType.EndOfFile, sourceIndex := 0, sourceLine := 0,
    sourceColumn := 0 }

/-- Modelled from the spec: `Tokenizer::currentToken`, the token under the
cursor. -/
def Tokenizer.currentToken (t : Tokenizer) : Token := t.tokens.headD endOfFileToken

/-- Modelled from the spec: `Tokenizer::nextToken`.  The first call moves the
cursor onto the first token; later calls advance by one token, and "requesting a
token past end-of-file keeps returning that same end-of-file token". -/
def Tokenizer.nextToken (t : Tokenizer) : Tokenizer :=
  if !t.started then { t with started := true }
  else if t.currentToken.tokenType = TokenType.EndOfFile then t
  else { t with tokens := t.tokens.tail }

/-- Modelled from the spec: `Readable::getLineFromIndex`, the raw text of the
source line that starts at `index`. -/
def getLineFromIndex (reader : String) (index : Nat) : String :=
  String.mk ((reader.data.drop index).takeWhile (fun c => c != '\n'))

/-! ## Abstract syntax -/

mutual
/-- Statement nodes.  `Ast.hpp` is not among the sources: the fields are the ones
the parser passes to the constructors and the ones the analyzer reads
(`identifier`, `breakToken`, `returnToken`, ...).  A token pointer that a
constructor call leaves unset is `none`. -/
inductive Statement where
  | Declare (identifier : Token) (expression : Expression)
  | If (expression : Expression) (ifStatement : Statement) (elseStatement : Option Statement)
  | While (expression : Expression) (statement : Statement)
  | Break (breakToken : Option Token)
  | Return (expression : Option Expression) (returnToken : Option Token)
  | Assign (identifier : Token) (expression : Expression)
  | Block (statements : List Statement)
/-- Expression nodes. -/
inductive Expression where
  | Literal (token : Token)
  | Identifier (token : Token)
  | FunctionInvocation (identifier : Token) (expressions : List Expression)
  | BuiltInFunctionInvocation (identifier : Token) (expressions : List Expression)
  | FunctionDeclaration (parameters : List Token) (statement : Statement)
  | ObjectDeclaration (keyValues : List (Token × Expression))
end

/-- The root node: the statements of the script in source order. -/
structure Script where
  statements : List Statement

/-! ## Parser (`Parser.cpp`) -/

/-- The members of `Parser`: the token source and the diagnostic stream. -/
structure Parser where
  tokenizer : Tokenizer
  out : List String
  deriving DecidableEq, Repr

/-- The current token of the parser's tokenizer. -/
def Parser.currentToken (p : Parser) : Token := p.tokenizer.currentToken

/-- Advance the parser's tokenizer. -/
def Parser.nextToken (p : Parser) : Parser := { p with tokenizer := p.tokenizer.nextToken }

/-- The loop of `for (std::size_t i = 2; i < token->sourceColumn; i++)` in
`Parser::reportError`: `n` iterations are left and `i` is the loop variable. -/
def reportErrorArrowLoop : Nat → Nat → String → String
  | 0, _, arrow => arrow
  | n + 1, i, arrow =>
    reportErrorArrowLoop n (i + 1) (if i = 2 then arrow ++ " " else arrow ++ "~")

/-- The string `arrow` built by `Parser::reportError` for a token in column
`sourceColumn`. -/
def reportErrorArrow (sourceColumn : Nat) : String :=
  reportErrorArrowLoop (sourceColumn - 2) 2 ("" ++ "^")

/-- The text `Parser::reportError` writes to `out`. -/
def reportErrorText (reader : String) (token : Token) (errorMessage : String) : String :=
  if token.tokenType = TokenType.EndOfFile then
    "At end of file an error was discovered:" ++ "\n" ++ errorMessage ++ "\n"
  else
    let startofLine :=
      (token.sourceIndex + 2 ^ 64 - (token.sourceColumn + 2 ^ 64 - 1) % 2 ^ 64) % 2 ^ 64
    let line := getLineFromIndex reader startofLine
    let arrow := reportErrorArrow token.sourceColumn
    "On line " ++ toString token.sourceLine
      ++ " at column " ++ toString token.sourceColumn
      ++ " within source index at " ++ toString token.sourceIndex
      ++ " an error was discovered:" ++ "\n"
      ++ errorMessage ++ "\n"
      ++ line ++ "\n"
      ++ arrow ++ "\n" ++ "\n"

/-- The method `Parser::reportError`: one more text on the diagnostic stream. -/
def Parser.reportError (p : Parser) (token : Token) (errorMessage : String) : Parser :=
  { p with out := p.out ++ [reportErrorText p.tokenizer.reader token errorMessage] }

/-- The loop of `Parser::skipWhiteSpace`; every iteration consumes a token that is
not the end of file, so `n` iterations suffice when the tape holds `n` tokens. -/
def Parser.skipWhiteSpaceLoop : Nat → Parser → Parser
  | 0, p => p
  | n + 1, p =>
    if p.currentToken.tokenType ≠ TokenType.EndOfFile ∧ p.currentToken.isNewLine = true then
      Parser.skipWhiteSpaceLoop n p.nextToken
    else p

/-- The method `Parser::skipWhiteSpace`. -/
def Parser.skipWhiteSpace (p : Parser) : Parser :=
  Parser.skipWhiteSpaceLoop p.tokenizer.tokens.length p

/-- The loop of `Parser::expect`; the arguments after the fuel are the local
`foundWrongToken` and the caller's `error`. -/
def Parser.expectLoop (type : TokenType) (errorMessage : String) :
    Nat → Bool → Bool → Parser → Option (Token × Bool × Parser)
  | 0, _, _, _ => none
  | fuel + 1, foundWrongToken, error, p =>
    if p.currentToken.tokenType = TokenType.EndOfFile ∨ p.currentToken.tokenType ≠ type then
      let p1 :=
        if !foundWrongToken then
          p.reportError p.currentToken
            (errorMessage ++ ", but was type " ++ Token.typeToString p.currentToken.tokenType
              ++ "with value '" ++ p.currentToken.value ++ "'.")
        else p
      Parser.expectLoop type errorMessage fuel true true p1.nextToken
    else
      some (p.currentToken, error, p.nextToken)

/-- The method `Parser::expect`: the token found, the caller's `error` flag and
the parser afterwards. -/
def Parser.expect (fuel : Nat) (p : Parser) (type : TokenType) (error : Bool)
    (errorMessage : String) : Option (Token × Bool × Parser) :=
  Parser.expectLoop type errorMessage fuel false error p

/-- The method `Parser::parseBreakStatement`. -/
def Parser.parseBreakStatement (fuel : Nat) (p : Parser) : Option (Option Statement × Parser) := do
  let error := false
  let (_, error, p) ← Parser.expect fuel p TokenType.Break error "Expected a break"
  let p := p.skipWhiteSpace
  let (_, error, p) ← Parser.expect fuel p TokenType.SemiColon error
    "Expected a semicolon after break"
  if error then pure (none, p)
  else pure (some (Statement.Break none), p)

/-- The method `Parser::parseLiteralExpression`. -/
def Parser.parseLiteralExpression (p : Parser) : Option Expression × Parser :=
  match p.currentToken.tokenType with
  | TokenType.BooleanLiteral
  | TokenType.StringLiteral
  | TokenType.IntegerLiteral
  | TokenType.FloatLiteral
  | TokenType.UndefinedLiteral =>
    let token := p.currentToken
    let p := p.nextToken
    (some (Expression.Literal token), p)
  | _ => (none, p)

mutual

/-- The method `Parser::parseStatement`. -/
def Parser.parseStatement : Nat → Parser → Option (Option Statement × Parser)
  | 0, _ => none
  | fuel + 1, p =>
    let p := p.skipWhiteSpace
    match p.currentToken.tokenType with
    | TokenType.Var => do
      let (s, p) ← Parser.parseDeclareStatement fuel p
      let p := p.skipWhiteSpace
      pure (s, p)
    | TokenType.If => do
      let (s, p) ← Parser.parseIfStatement fuel p
      let p := p.skipWhiteSpace
      pure (s, p)
    | TokenType.While => do
      let (s, p) ← Parser.parseWhileStatement fuel p
      let p := p.skipWhiteSpace
      pure (s, p)
    | TokenType.Break => do
      let (s, p) ← Parser.parseBreakStatement fuel p
      let p := p.skipWhiteSpace
      pure (s, p)
    | TokenType.Return => do
      let (s, p) ← Parser.parseReturnStatement fuel p
      let p := p.skipWhiteSpace
      pure (s, p)
    | TokenType.LeftCurly => do
      let (s, p) ← Parser.parseBlockStatement fuel p
      let p := p.skipWhiteSpace
      pure (s, p)
    | _ => do
      let (s, p) ← Parser.parseAssignStatement fuel p
      let p := p.skipWhiteSpace
      pure (s, p)

/-- The method `Parser::parseIfStatement`. -/
def Parser.parseIfStatement : Nat → Parser → Option (Option Statement × Parser)
  | 0, _ => none
  | fuel + 1, p => do
    let error := false
    let (_, error, p) ← Parser.expect fuel p TokenType.If error "Expected an if"
    let p := p.skipWhiteSpace
    let (_, error, p) ← Parser.expect fuel p TokenType.LeftParen error
      "Expected a left paren after if"
    let (expression, p) ← Parser.parseExpression fuel p
    let (_, error, p) ← Parser.expect fuel p TokenType.RightParen error
      "Expected a right paren after expression of if"
    let (ifStatement, p) ← Parser.parseStatement fuel p
    if p.currentToken.tokenType = TokenType.Else then
      let (_, error, p) ← Parser.expect fuel p TokenType.Else error "Expected an else"
      let (elseStatement, p) ← Parser.parseStatement fuel p
      match error, expression, ifStatement, elseStatement with
      | false, some e, some s, some s2 => pure (some (Statement.If e s (some s2)), p)
      | _, _, _, _ => pure (none, p)
    else
      match error, expression, ifStatement with
      | false, some e, some s => pure (some (Statement.If e s none), p)
      | _, _, _ => pure (none, p)

/-- The method `Parser::parseDeclareStatement`. -/
def Parser.parseDeclareStatement : Nat → Parser → Option (Option Statement × Parser)
  | 0, _ => none
  | fuel + 1, p => do
    let error := false
    let (_, error, p) ← Parser.expect fuel p TokenType.Var error "Expected a var"
    let (_, error, p) ← Parser.expect fuel p TokenType.WhiteSpace error
      "Expected whitespace following var declaration"
    let p := p.skipWhiteSpace
    let (identifier, error, p) ← Parser.expect fuel p TokenType.Identifier error
      "Expected an identifier following var declaration"
    let p := p.skipWhiteSpace
    let (_, error, p) ← Parser.expect fuel p TokenType.Assign error
      "Expected an equals following var declaration"
    let (expression, p) ← Parser.parseExpression fuel p
    let (_, error, p) ← Parser.expect fuel p TokenType.SemiColon error
      "Expected a semicolon following expression of var declaration"
    match error, expression with
    | false, some e => pure (some (Statement.Declare identifier e), p)
    | _, _ => pure (none, p)

/-- The method `Parser::parseWhileStatement`. -/
def Parser.parseWhileStatement : Nat → Parser → Option (Option Statement × Parser)
  | 0, _ => none
  | fuel + 1, p => do
    let error := false
    let (_, error, p) ← Parser.expect fuel p TokenType.While error "Expected a while"
    let p := p.skipWhiteSpace
    let (_, error, p) ← Parser.expect fuel p TokenType.LeftParen error
      "Expected a left paren after while"
    let (expression, p) ← Parser.parseExpression fuel p
    let (_, error, p) ← Parser.expect fuel p TokenType.RightParen error
      "Expected a right paren after expression of while"
    let (statement, p) ← Parser.parseStatement fuel p
    match error, expression, statement with
    | false, some e, some s => pure (some (Statement.While e s), p)
    | _, _, _ => pure (none, p)

/-- The method `Parser::parseReturnStatement`.  The local `foundExpression` is
initialised to `false` and never assigned again. -/
def Parser.parseReturnStatement : Nat → Parser → Option (Option Statement × Parser)
  | 0, _ => none
  | fuel + 1, p => do
    let error := false
    let (_, error, p) ← Parser.expect fuel p TokenType.Return error "Expected a return"
    let p := p.skipWhiteSpace
    let foundExpression := false
    let (expression, p) ←
      if p.currentToken.tokenType ≠ TokenType.SemiColon then Parser.parseExpression fuel p
      else pure (none, p)
    let (_, error, p) ← Parser.expect fuel p TokenType.SemiColon error
      "Expected a semicolon to terminate return statement"
    let error := if foundExpression then error || expression.isNone else error
    if error then pure (none, p)
    else if foundExpression then
      match expression with
      | some e => pure (some (Statement.Return (some e) none), p)
      | none => pure (none, p)
    else pure (some (Statement.Return none none), p)

/-- The method `Parser::parseAssignStatement`. -/
def Parser.parseAssignStatement : Nat → Parser → Option (Option Statement × Parser)
  | 0, _ => none
  | fuel + 1, p => do
    let error := false
    let (identifier, error, p) ← Parser.expect fuel p TokenType.Identifier error
      "Expected a identifier"
    let p := p.skipWhiteSpace
    let (_, error, p) ← Parser.expect fuel p TokenType.Assign error
      "Expected an equals following var declaration"
    let (expression, p) ← Parser.parseExpression fuel p
    let (_, error, p) ← Parser.expect fuel p TokenType.SemiColon error
      "Expected a semicolon following expression of var declaration"
    match error, expression with
    | false, some e => pure (some (Statement.Assign identifier e), p)
    | _, _ => pure (none, p)

/-- The `while (true)` loop of `Parser::parseBlockStatement`, on the locals `error`
and `statements`.  The inner result is `none` when the loop leaves the method by
`return std::nullopt`, and the locals when it leaves by `break`. -/
def Parser.parseBlockStatementLoop :
    Nat → Bool → List Statement → Parser → Option (Option (Bool × List Statement) × Parser)
  | 0, _, _, _ => none
  | fuel + 1, error, statements, p => do
    let p := p.skipWhiteSpace
    if p.currentToken.tokenType = TokenType.EndOfFile then
      let (_, _, p) ← Parser.expect fuel p TokenType.RightCurly error
        "Expected a right curly bracket to close block"
      pure (none, p)
    else
      let (statement, p) ← Parser.parseStatement fuel p
      let (error, statements) :=
        match statement with
        | none => (true, statements)
        | some s => (error, statements ++ [s])
      if p.currentToken.tokenType = TokenType.RightCurly then
        let (_, error, p) ← Parser.expect fuel p TokenType.RightCurly error
          "Expected a right curly bracket to close block"
        pure (some (error, statements), p)
      else Parser.parseBlockStatementLoop fuel error statements p

/-- The method `Parser::parseBlockStatement`. -/
def Parser.parseBlockStatement : Nat → Parser → Option (Option Statement × Parser)
  | 0, _ => none
  | fuel + 1, p => do
    let error := false
    let (_, error, p) ← Parser.expect fuel p TokenType.LeftCurly error
      "Expected a left curly bracket"
    let (r, p) ← Parser.parseBlockStatementLoop fuel error [] p
    match r with
    | none => pure (none, p)
    | some (error, statements) =>
      if error then pure (none, p)
      else pure (some (Statement.Block statements), p)

/-- The method `Parser::parseExpression`. -/
def Parser.parseExpression : Nat → Parser → Option (Option Expression × Parser)
  | 0, _ => none
  | fuel + 1, p =>
    let p := p.skipWhiteSpace
    match p.currentToken.tokenType with
    | TokenType.LeftCurly => do
      let (e, p) ← Parser.parseObjectDeclarationExpression fuel p
      let p := p.skipWhiteSpace
      pure (e, p)
    | TokenType.Function => do
      let (e, p) ← Parser.parseFunctionDeclarationExpression fuel p
      let p := p.skipWhiteSpace
      pure (e, p)
    | TokenType.BooleanLiteral
    | TokenType.StringLiteral
    | TokenType.IntegerLiteral
    | TokenType.FloatLiteral
    | TokenType.UndefinedLiteral =>
      let (e, p) := p.parseLiteralExpression
      let p := p.skipWhiteSpace
      pure (e, p)
    | _ => do
      let (e, p) ← Parser.parseIdentifierOrFunctionInvocationExpression fuel p
      let p := p.skipWhiteSpace
      pure (e, p)

/-- The method `Parser::parseIdentifierOrFunctionInvocationExpression`. -/
def Parser.parseIdentifierOrFunctionInvocationExpression :
    Nat → Parser → Option (Option Expression × Parser)
  | 0, _ => none
  | fuel + 1, p => do
    let error := false
    let (token, error, p) ← Parser.expect fuel p TokenType.Identifier error
      "Expected an identifier"
    let p := p.skipWhiteSpace
    if error then pure (none, p)
    else if p.currentToken.tokenType = TokenType.LeftParen then
      Parser.parseFunctionInvocationExpression fuel p token
    else pure (some (Expression.Identifier token), p)

/-- The `while (true)` loop of `Parser::parseFunctionInvocationExpression`, on the
locals `error`, `seenAnArg`, `seenAComma` and `arguments`.  The inner result is
`none` when the loop leaves the method by `return std::nullopt`, and the locals
when it leaves by `break`. -/
def Parser.parseFunctionInvocationExpressionLoop :
    Nat → Bool → Bool → Bool → List Expression → Parser →
      Option (Option (Bool × List Expression) × Parser)
  | 0, _, _, _, _, _ => none
  | fuel + 1, error, seenAnArg, seenAComma, arguments, p => do
    let p := p.skipWhiteSpace
    if p.currentToken.tokenType = TokenType.EndOfFile then
      let (_, _, p) ← Parser.expect fuel p TokenType.RightParen error
        "Expected a right paren to close function invocation"
      pure (none, p)
    else if seenAComma = false ∧ p.currentToken.tokenType = TokenType.RightParen then
      let (_, error, p) ← Parser.expect fuel p TokenType.RightParen error
        "Expected a right paren to close function invocation"
      pure (some (error, arguments), p)
    else
      let (arg, p) ← Parser.parseExpression fuel p
      let (error, arguments, seenAComma) :=
        match arg with
        | none => (true, arguments, seenAComma)
        | some a => (error, arguments ++ [a], false)
      if seenAnArg then
        if p.currentToken.tokenType = TokenType.RightParen then
          let (_, error, p) ← Parser.expect fuel p TokenType.RightParen error
            "Expected a right paren to close function invocation"
          pure (some (error, arguments), p)
        else
          let (_, error, p) ← Parser.expect fuel p TokenType.Comma error
            "Expected a comma between function arguments"
          Parser.parseFunctionInvocationExpressionLoop fuel error true true arguments p
      else Parser.parseFunctionInvocationExpressionLoop fuel error true seenAComma arguments p

/-- The method `Parser::parseFunctionInvocationExpression`. -/
def Parser.parseFunctionInvocationExpression :
    Nat → Parser → Token → Option (Option Expression × Parser)
  | 0, _, _ => none
  | fuel + 1, p, identifer => do
    let error := false
    let p := p.skipWhiteSpace
    let (_, error, p) ← Parser.expect fuel p TokenType.LeftParen error
      "Expected left paren for function invocation"
    let (r, p) ← Parser.parseFunctionInvocationExpressionLoop fuel error false false [] p
    match r with
    | none => pure (none, p)
    | some (error, arguments) =>
      if error then pure (none, p)
      else pure (some (Expression.FunctionInvocation identifer arguments), p)

/-- The `while (true)` loop of `Parser::parseFunctionDeclarationExpression`, on the
locals `error`, `seenAnArg`, `seenAComma` and `parameters`. -/
def Parser.parseFunctionDeclarationExpressionLoop :
    Nat → Bool → Bool → Bool → List Token → Parser →
      Option (Option (Bool × List Token) × Parser)
  | 0, _, _, _, _, _ => none
  | fuel + 1, error, seenAnArg, seenAComma, parameters, p => do
    let p := p.skipWhiteSpace
    if p.currentToken.tokenType = TokenType.EndOfFile then
      let (_, _, p) ← Parser.expect fuel p TokenType.RightParen error
        "Expected a right paren to close parameter list of function definition"
      pure (none, p)
    else if seenAComma = false ∧ p.currentToken.tokenType = TokenType.RightParen then
      let (_, error, p) ← Parser.expect fuel p TokenType.RightParen error
        "Expected a right paren to close parameter list of function definition"
      pure (some (error, parameters), p)
    else
      let (token, error, p) ← Parser.expect fuel p TokenType.Identifier error
        "Expected identifier as parameter of function definition"
      let p := p.skipWhiteSpace
      let (error, parameters, seenAComma) :=
        if token.tokenType ≠ TokenType.Identifier then (true, parameters, seenAComma)
        else (error, parameters ++ [token], false)
      if seenAnArg then
        if p.currentToken.tokenType = TokenType.RightParen then
          let (_, error, p) ← Parser.expect fuel p TokenType.RightParen error
            "Expected a right paren to close parameter list of function definition"
          pure (some (error, parameters), p)
        else
          let (_, error, p) ← Parser.expect fuel p TokenType.Comma error
            "Expected a comma between function parameters in function definition"
          Parser.parseFunctionDeclarationExpressionLoop fuel error true true parameters p
      else Parser.parseFunctionDeclarationExpressionLoop fuel error true seenAComma parameters p

/-- The method `Parser::parseFunctionDeclarationExpression`. -/
def Parser.parseFunctionDeclarationExpression :
    Nat → Parser → Option (Option Expression × Parser)
  | 0, _ => none
  | fuel + 1, p => do
    let error := false
    let (_, error, p) ← Parser.expect fuel p TokenType.Function error
      "Expected function keyword for function definition"
    let p := p.skipWhiteSpace
    let (_, error, p) ← Parser.expect fuel p TokenType.LeftParen error
      "Expected left paren following function definition"
    let (r, p) ← Parser.parseFunctionDeclarationExpressionLoop fuel error false false [] p
    match r with
    | none => pure (none, p)
    | some (error, parameters) =>
      let (statement, p) ← Parser.parseStatement fuel p
      match error, statement with
      | false, some s => pure (some (Expression.FunctionDeclaration parameters s), p)
      | _, _ => pure (none, p)

/-- The `while (true)` loop of `Parser::parseObjectDeclarationExpression`, on the
locals `error`, `seenAKeyPair`, `seenAComma` and `keyValues`. -/
def Parser.parseObjectDeclarationExpressionLoop :
    Nat → Bool → Bool → Bool → List (Token × Expression) → Parser →
      Option (Option (Bool × List (Token × Expression)) × Parser)
  | 0, _, _, _, _, _ => none
  | fuel + 1, error, seenAKeyPair, seenAComma, keyValues, p => do
    let p := p.skipWhiteSpace
    if p.currentToken.tokenType = TokenType.EndOfFile then
      let (_, _, p) ← Parser.expect fuel p TokenType.RightCurly error
        "Expected a right curly bracket to end object declaration"
      pure (none, p)
    else if seenAComma = false ∧ p.currentToken.tokenType = TokenType.RightCurly then
      let (_, error, p) ← Parser.expect fuel p TokenType.RightCurly error
        "Expected a right curly bracket to end object declaration"
      pure (some (error, keyValues), p)
    else
      let (key, error, p) ← Parser.expect fuel p TokenType.Identifier error
        "Expected identifier as parameter of function definition"
      let error := if key.tokenType ≠ TokenType.Identifier then true else error
      let p := p.skipWhiteSpace
      let (_, error, p) ← Parser.expect fuel p TokenType.Colon error
        "Expected a colon between object key and value"
      let (value, p) ← Parser.parseExpression fuel p
      let error := if value.isNone then true else error
      let keyValues :=
        match error, value with
        | false, some v => keyValues ++ [(key, v)]
        | _, _ => keyValues
      if seenAKeyPair then
        if p.currentToken.tokenType = TokenType.RightBracket then
          let (_, error, p) ← Parser.expect fuel p TokenType.RightBracket error
            "Expected a right curly bracket to end object declaration"
          pure (some (error, keyValues), p)
        else
          let (_, error, p) ← Parser.expect fuel p TokenType.Comma error
            "Expected a comma between function parameters in function definition"
          Parser.parseObjectDeclarationExpressionLoop fuel error true true keyValues p
      else Parser.parseObjectDeclarationExpressionLoop fuel error true seenAComma keyValues p

/-- The method `Parser::parseObjectDeclarationExpression`. -/
def Parser.parseObjectDeclarationExpression :
    Nat → Parser → Option (Option Expression × Parser)
  | 0, _ => none
  | fuel + 1, p => do
    let error := false
    let (_, error, p) ← Parser.expect fuel p TokenType.LeftCurly error
      "Expected a left curly bracket to begin object declaration"
    let (r, p) ← Parser.parseObjectDeclarationExpressionLoop fuel error false false [] p
    match r with
    | none => pure (none, p)
    | some (error, keyValues) =>
      if error then pure (none, p)
      else pure (some (Expression.ObjectDeclaration keyValues), p)

end

/-- The `while (true)` loop of `Parser::parseScript`, on the locals `error` and
`statements`. -/
def Parser.parseScriptLoop : Nat → Bool → List Statement → Parser →
    Option (Bool × List Statement × Parser)
  | 0, _, _, _ => none
  | fuel + 1, error, statements, p => do
    let p := p.skipWhiteSpace
    let t := p.currentToken.tokenType
    if t = TokenType.EndOfFile then pure (error, statements, p)
    else
      let (statement, p) ← Parser.parseStatement fuel p
      match statement with
      | some s => Parser.parseScriptLoop fuel error (statements ++ [s]) p
      | none => Parser.parseScriptLoop fuel true statements p

/-- The method `Parser::parseScript`. -/
def Parser.parseScript (fuel : Nat) (p : Parser) : Option (Option Script × Parser) := do
  let p := p.nextToken
  let error := false
  let (error, statements, p) ← Parser.parseScriptLoop fuel error [] p
  if error then pure (none, p)
  else pure (some { statements := statements }, p)

/-! ## Scope chain (`SemanticAnalyzer.cpp`) -/

/-- The class `VariableDefinition`. -/
structure VariableDefinition where
  token : Token
  isFullyBound : Bool
  deriving DecidableEq, Repr

/-- The class `Scope`.  `outerScope` is `none` for the null pointer; `localScope`
holds the entries of the `std::unordered_map`, one per key. -/
inductive Scope where
  | mk (outerScope : Option Scope) (localScope : List (String × VariableDefinition))
      (outerScopeCrossesFunctionBarrier : Bool)
  deriving Repr

/-- The member `outerScope`. -/
def Scope.outerScope : Scope → Option Scope
  | Scope.mk outerScope _ _ => outerScope

/-- The member `localScope`. -/
def Scope.localScope : Scope → List (String × VariableDefinition)
  | Scope.mk _ localScope _ => localScope

/-- The member `outerScopeCrossesFunctionBarrier`. -/
def Scope.outerScopeCrossesFunctionBarrier : Scope → Bool
  | Scope.mk _ _ outerScopeCrossesFunctionBarrier => outerScopeCrossesFunctionBarrier

/-- The default constructor `Scope()`. -/
def Scope.new : Scope := Scope.mk none [] true

/-- The method `Scope::hasOuterScope`. -/
def Scope.hasOuterScope (s : Scope) : Bool := s.outerScope.isSome

/-- The method `Scope::define`. -/
def Scope.define (s : Scope) (variableName : String) (token : Token) (isFullyBound : Bool) :
    Scope :=
  match s.localScope.lookup variableName with
  | none =>
    Scope.mk s.outerScope
      ((variableName, { token := token, isFullyBound := isFullyBound }) :: s.localScope)
      s.outerScopeCrossesFunctionBarrier
  | some _ =>
    Scope.mk s.outerScope
      (s.localScope.map fun kv =>
        if kv.1 = variableName then (kv.1, { token := token, isFullyBound := true }) else kv)
      s.outerScopeCrossesFunctionBarrier

/-- The method `Scope::findLocally`. -/
def Scope.findLocally (s : Scope) (variableName : String) (considerPartiallyBound : Bool) :
    Option VariableDefinition :=
  match s.localScope.lookup variableName with
  | none => none
  | some vd =>
    if !vd.isFullyBound then
      if considerPartiallyBound then some vd else none
    else some vd

/-- The `while (true)` loop of `Scope::find`, on the locals `scopeToSearch` and
`considerPartiallyBound`. -/
def Scope.findLoop (variableName : String) (canCrossFunctionBarrier : Bool) :
    Scope → Bool → Option VariableDefinition
  | Scope.mk outerScope localScope outerScopeCrossesFunctionBarrier, considerPartiallyBound =>
    match (Scope.mk outerScope localScope outerScopeCrossesFunctionBarrier).findLocally
        variableName considerPartiallyBound with
    | some find => some find
    | none =>
      match outerScope with
      | some outer =>
        let considerPartiallyBound :=
          if outerScopeCrossesFunctionBarrier then true else considerPartiallyBound
        if !canCrossFunctionBarrier && outerScopeCrossesFunctionBarrier then none
        else Scope.findLoop variableName canCrossFunctionBarrier outer considerPartiallyBound
      | none => none

/-- The method `Scope::find`. -/
def Scope.find (s : Scope) (variableName : String) (canCrossFunctionBarrier : Bool) :
    Option VariableDefinition :=
  Scope.findLoop variableName canCrossFunctionBarrier s false

/-- The method `Scope::getOuterScope`. -/
def Scope.getOuterScope (s : Scope) : Option Scope := s.outerScope

/-! ## Semantic analyzer (`SemanticAnalyzer.cpp`) -/

/-- The identity of an AST node (a pointer in the source): the child indices on
the way from the script root to the node. -/
abbrev NodeId := List Nat

/-- The mutable members of `SemanticAnalyzerRun`.  `out` lists the calls of
`Error::reportErrorAtToken` (token and message), oldest first; `inLoopState` holds
the entries of the `std::unordered_map`, keyed by node identity. -/
structure SemanticAnalyzerRun where
  out : List (Option Token × String)
  error : Bool
  functionDept : Nat
  inLoop : Bool
  inLoopState : List (NodeId × Bool)
  currentScope : Scope

/-- The table `builtInFunctionArgumentCounts` set up by the constructor. -/
def builtInFunctionArgumentCounts : List (String × Nat) :=
  [("add", 2), ("subtract", 2), ("multiply", 2), ("divide", 2), ("equal", 2),
   ("notEqual", 2), ("not", 1), ("and", 2), ("or", 2), ("greater", 2), ("less", 2),
   ("greaterOrEqual", 2), ("lessOrEqual", 2), ("get", 2), ("set", 3), ("read", 0),
   ("print", 1), ("env", 1), ("type", 1), ("int", 1), ("float", 1), ("length", 1),
   ("charAt", 2), ("append", 2)]

/-- The constructor of `SemanticAnalyzerRun`. -/
def SemanticAnalyzerRun.new : SemanticAnalyzerRun :=
  { out := [], error := false, functionDept := 0, inLoop := false, inLoopState := [],
    currentScope := Scope.new }

namespace SemanticAnalyzerRun

/-- The method `hasErrors`. -/
def hasErrors (run : SemanticAnalyzerRun) : Bool := run.error

/-- The method `reportError`: sets `error` and hands token and message to
`Error::reportErrorAtToken`. -/
def reportError (run : SemanticAnalyzerRun) (token : Option Token) (errorMessage : String) :
    SemanticAnalyzerRun :=
  { run with error := true, out := run.out ++ [(token, errorMessage)] }

/-- The hook `onEnterDeclareStatementAstNode`. -/
def onEnterDeclareStatementAstNode (run : SemanticAnalyzerRun) (identifier : Token) :
    SemanticAnalyzerRun :=
  let originalDeclare := run.currentScope.findLocally identifier.value false
  if originalDeclare ≠ none then
    run.reportError (some identifier) "Duplicate identifier found within same scope."
  else
    { run with currentScope := run.currentScope.define identifier.value identifier false }

/-- The hook `onEnterAssignStatementAstNode`. -/
def onEnterAssignStatementAstNode (run : SemanticAnalyzerRun) (identifier : Token) :
    SemanticAnalyzerRun :=
  let originalDeclare := run.currentScope.find identifier.value false
  if originalDeclare = none then
    run.reportError (some identifier) "No local declaration found for identifier."
  else run

/-- The hook `onEnterBreakStatementAstNode`. -/
def onEnterBreakStatementAstNode (run : SemanticAnalyzerRun) (breakToken : Option Token) :
    SemanticAnalyzerRun :=
  if !run.inLoop then
    run.reportError breakToken "Break statements can only be used from within loops."
  else run

/-- The hook `onEnterReturnStatementAstNode`. -/
def onEnterReturnStatementAstNode (run : SemanticAnalyzerRun) (returnToken : Option Token) :
    SemanticAnalyzerRun :=
  if run.functionDept = 0 then
    run.reportError returnToken "Return statements can only be used from within functions."
  else run

/-- The `for` loop of `pushScope` over `itemsToDeclare`. -/
def pushScopeLoop : List Token → SemanticAnalyzerRun → SemanticAnalyzerRun
  | [], run => run
  | item :: items, run =>
    let find := run.currentScope.findLocally item.value false
    if find.isSome then
      pushScopeLoop items
        (run.reportError (some item) "Duplicate identifier found within the same scope.")
    else
      pushScopeLoop items
        { run with currentScope := run.currentScope.define item.value item true }

/-- The method `pushScope`. -/
def pushScope (run : SemanticAnalyzerRun) (newFn : Bool) (itemsToDeclare : List Token) :
    SemanticAnalyzerRun :=
  let newScope := Scope.mk (some run.currentScope) [] newFn
  pushScopeLoop itemsToDeclare { run with currentScope := newScope }

/-- The hook `onEnterBlockStatementAstNode`. -/
def onEnterBlockStatementAstNode (run : SemanticAnalyzerRun) : SemanticAnalyzerRun :=
  run.pushScope false []

/-- The hook `onEnterWhileStatementAstNode`. -/
def onEnterWhileStatementAstNode (run : SemanticAnalyzerRun) : SemanticAnalyzerRun :=
  { run with inLoop := true }

/-- The hook `onEnterIdentifierExpressionAstNode`. -/
def onEnterIdentifierExpressionAstNode (run : SemanticAnalyzerRun) (token : Token) :
    SemanticAnalyzerRun :=
  if (run.currentScope.find token.value true).isNone then
    run.reportError (some token) "Undefined reference in identifier evaluation."
  else run

/-- The hook `onEnterFunctionInvocationExpressionAstNode`. -/
def onEnterFunctionInvocationExpressionAstNode (run : SemanticAnalyzerRun)
    (identifier : Token) : SemanticAnalyzerRun :=
  if (run.currentScope.find identifier.value true).isNone then
    run.reportError (some identifier) "Undefined reference in function invocation."
  else run

/-- The hook `onEnterFunctionDeclarationExpressionAstNode`.  `functionDept` is a
`std::size_t`; `insert` leaves an entry that is already in the map as it is. -/
def onEnterFunctionDeclarationExpressionAstNode (run : SemanticAnalyzerRun) (node : NodeId)
    (parameters : List Token) : SemanticAnalyzerRun :=
  let run := { run with functionDept := (run.functionDept + 1) % 2 ^ 64 }
  let run :=
    match run.inLoopState.lookup node with
    | none => { run with inLoopState := (node, run.inLoop) :: run.inLoopState }
    | some _ => run
  let run := { run with inLoop := false }
  run.pushScope true parameters

/-- The hook `onEnterLiteralExpressionAstNode`.  `stollThrows` and `stodThrows` tell
whether `std::stoll` and `std::stod` of the C++ standard library throw on a text.
The `case` of an integer literal has no `break` and runs on into the `case` of a
float literal. -/
def onEnterLiteralExpressionAstNode (stollThrows stodThrows : String → Bool)
    (run : SemanticAnalyzerRun) (token : Token) : SemanticAnalyzerRun :=
  match token.tokenType with
  | TokenType.IntegerLiteral =>
    let run :=
      if stollThrows token.value then
        run.reportError (some token) "Invalid value for integer literal."
      else run
    if stodThrows token.value then
      run.reportError (some token) "Invalid value for float literal."
    else run
  | TokenType.FloatLiteral =>
    if stodThrows token.value then
      run.reportError (some token) "Invalid value for float literal."
    else run
  | _ => run

/-- The hook `onExitDeclareStatementAstNode`. -/
def onExitDeclareStatementAstNode (run : SemanticAnalyzerRun) (identifier : Token) :
    SemanticAnalyzerRun :=
  { run with currentScope := run.currentScope.define identifier.value identifier true }

/-- The method `popScope`; `none` when `Error::assertWithPanic` stops the process. -/
def popScope (run : SemanticAnalyzerRun) : Option SemanticAnalyzerRun :=
  match run.currentScope.getOuterScope with
  | none => none
  | some outer => some { run with currentScope := outer }

/-- The hook `onExitBlockStatementAstNode`. -/
def onExitBlockStatementAstNode (run : SemanticAnalyzerRun) : Option SemanticAnalyzerRun :=
  run.popScope

/-- The hook `onExitWhileStatementAstNode`. -/
def onExitWhileStatementAstNode (run : SemanticAnalyzerRun) : SemanticAnalyzerRun :=
  { run with inLoop := false }

/-- The hook `onEnterBuiltInFunctionInvocationExpressionAstNode`; `none` when
`Error::assertWithPanic` stops the process.  `std::to_string` is `toString`. -/
def onEnterBuiltInFunctionInvocationExpressionAstNode (run : SemanticAnalyzerRun)
    (identifier : Token) (expressions : List Expression) : Option SemanticAnalyzerRun :=
  match builtInFunctionArgumentCounts.lookup identifier.value with
  | none => none
  | some count =>
    if count ≠ expressions.length % 2 ^ 64 then
      some (run.reportError (some identifier)
        ("Argument size for built in function did not match expected count of "
          ++ toString count))
    else some run

/-- The hook `onExitFunctionDeclarationExpressionAstNode`; `none` when
`Error::assertWithPanic` stops the process. -/
def onExitFunctionDeclarationExpressionAstNode (run : SemanticAnalyzerRun) (node : NodeId) :
    Option SemanticAnalyzerRun :=
  if run.functionDept = 0 then none
  else
    let run := { run with functionDept := run.functionDept - 1 }
    match run.inLoopState.lookup node with
    | none => none
    | some inLoop =>
      let run := { run with inLoop := inLoop }
      run.popScope

end SemanticAnalyzerRun

/-! ### Tree walk -/

mutual

/-- Modelled from the spec: `AstWalker` (not among the sources) visits a
statement by calling the enter hook of its kind, visiting its children in source
order and calling the exit hook.  Hooks that `SemanticAnalyzerRun` does not
override do nothing.  `node` is the identity of the visited node. -/
def visitStatementAstNode (stollThrows stodThrows : String → Bool) (node : NodeId) :
    Statement → SemanticAnalyzerRun → Option SemanticAnalyzerRun
  | Statement.Declare identifier expression, run => do
    let run := run.onEnterDeclareStatementAstNode identifier
    let run ← visitExpressionAstNode stollThrows stodThrows (node ++ [0]) expression run
    pure (run.onExitDeclareStatementAstNode identifier)
  | Statement.If expression ifStatement elseStatement, run => do
    let run ← visitExpressionAstNode stollThrows stodThrows (node ++ [0]) expression run
    let run ← visitStatementAstNode stollThrows stodThrows (node ++ [1]) ifStatement run
    match elseStatement with
    | none => pure run
    | some s => visitStatementAstNode stollThrows stodThrows (node ++ [2]) s run
  | Statement.While expression statement, run => do
    let run := run.onEnterWhileStatementAstNode
    let run ← visitExpressionAstNode stollThrows stodThrows (node ++ [0]) expression run
    let run ← visitStatementAstNode stollThrows stodThrows (node ++ [1]) statement run
    pure run.onExitWhileStatementAstNode
  | Statement.Break breakToken, run => pure (run.onEnterBreakStatementAstNode breakToken)
  | Statement.Return expression returnToken, run => do
    let run := run.onEnterReturnStatementAstNode returnToken
    match expression with
    | none => pure run
    | some e => visitExpressionAstNode stollThrows stodThrows (node ++ [0]) e run
  | Statement.Assign identifier expression, run => do
    let run := run.onEnterAssignStatementAstNode identifier
    visitExpressionAstNode stollThrows stodThrows (node ++ [0]) expression run
  | Statement.Block statements, run => do
    let run := run.onEnterBlockStatementAstNode
    let run ← visitStatementAstNodes stollThrows stodThrows node 0 statements run
    run.onExitBlockStatementAstNode

/-- Modelled from the spec: the statements of a list are visited in source order;
the `i`-th child of `node` has identity `node ++ [i]`. -/
def visitStatementAstNodes (stollThrows stodThrows : String → Bool) (node : NodeId) :
    Nat → List Statement → SemanticAnalyzerRun → Option SemanticAnalyzerRun
  | _, [], run => pure run
  | i, s :: rest, run => do
    let run ← visitStatementAstNode stollThrows stodThrows (node ++ [i]) s run
    visitStatementAstNodes stollThrows stodThrows node (i + 1) rest run

/-- Modelled from the spec: `AstWalker` visits an expression by calling the enter
hook of its kind, visiting its children in source order and calling the exit
hook. -/
def visitExpressionAstNode (stollThrows stodThrows : String → Bool) (node : NodeId) :
    Expression → SemanticAnalyzerRun → Option SemanticAnalyzerRun
  | Expression.Literal token, run =>
    pure (run.onEnterLiteralExpressionAstNode stollThrows stodThrows token)
  | Expression.Identifier token, run => pure (run.onEnterIdentifierExpressionAstNode token)
  | Expression.FunctionInvocation identifier expressions, run => do
    let run := run.onEnterFunctionInvocationExpressionAstNode identifier
    visitExpressionAstNodes stollThrows stodThrows node 0 expressions run
  | Expression.BuiltInFunctionInvocation identifier expressions, run => do
    let run ← run.onEnterBuiltInFunctionInvocationExpressionAstNode identifier expressions
    visitExpressionAstNodes stollThrows stodThrows node 0 expressions run
  | Expression.FunctionDeclaration parameters statement, run => do
    let run := run.onEnterFunctionDeclarationExpressionAstNode node parameters
    let run ← visitStatementAstNode stollThrows stodThrows (node ++ [0]) statement run
    run.onExitFunctionDeclarationExpressionAstNode node
  | Expression.ObjectDeclaration keyValues, run =>
    visitKeyValues stollThrows stodThrows node 0 keyValues run

/-- Modelled from the spec: the expressions of a list are visited in source
order. -/
def visitExpressionAstNodes (stollThrows stodThrows : String → Bool) (node : NodeId) :
    Nat → List Expression → SemanticAnalyzerRun → Option SemanticAnalyzerRun
  | _, [], run => pure run
  | i, e :: rest, run => do
    let run ← visitExpressionAstNode stollThrows stodThrows (node ++ [i]) e run
    visitExpressionAstNodes stollThrows stodThrows node (i + 1) rest run

/-- Modelled from the spec: the values of an object declaration are visited in
source order. -/
def visitKeyValues (stollThrows stodThrows : String → Bool) (node : NodeId) :
    Nat → List (Token × Expression) → SemanticAnalyzerRun → Option SemanticAnalyzerRun
  | _, [], run => pure run
  | i, kv :: rest, run => do
    let run ← visitExpressionAstNode stollThrows stodThrows (node ++ [i]) kv.2 run
    visitKeyValues stollThrows stodThrows node (i + 1) rest run

end

/-- Modelled from the spec: `AstWalker::visitScriptAstNode` visits the statements
of the script in source order. -/
def visitScriptAstNode (stollThrows stodThrows : String → Bool) (script : Script)
    (run : SemanticAnalyzerRun) : Option SemanticAnalyzerRun :=
  visitStatementAstNodes stollThrows stodThrows [] 0 script.statements run

/-- The method `SemanticAnalyzer::isValid`; `none` when the run is stopped by
`Error::assertWithPanic`. -/
def SemanticAnalyzer.isValid (stollThrows stodThrows : String → Bool) (script : Script) :
    Option Bool := do
  let run ← visitScriptAstNode stollThrows stodThrows script SemanticAnalyzerRun.new
  pure (!run.hasErrors)

/-! ## Notions used to state the claims -/

/-- A text that is a non-empty string of decimal digits. -/
def isDecimalDigits (text : String) : Bool :=
  !text.data.isEmpty && text.data.all Char.isDigit

/-- The number that a string of decimal digits denotes. -/
def decimalValue (text : String) : Nat :=
  text.data.foldl (fun n c => 10 * n + (c.toNat - '0'.toNat)) 0

mutual

/-- Every `BuiltInFunctionInvocation` node of the statement names an entry of the
table `builtInFunctionArgumentCounts`. -/
def Statement.builtInsKnown : Statement → Bool
  | Statement.Declare _ expression => expression.builtInsKnown
  | Statement.If expression ifStatement elseStatement =>
    expression.builtInsKnown && ifStatement.builtInsKnown &&
      (match elseStatement with
        | none => true
        | some s => s.builtInsKnown)
  | Statement.While expression statement => expression.builtInsKnown && statement.builtInsKnown
  | Statement.Break _ => true
  | Statement.Return expression _ =>
    (match expression with
      | none => true
      | some e => e.builtInsKnown)
  | Statement.Assign _ expression => expression.builtInsKnown
  | Statement.Block statements => Statement.builtInsKnownList statements

/-- The same for every statement of a list. -/
def Statement.builtInsKnownList : List Statement → Bool
  | [] => true
  | s :: rest => s.builtInsKnown && Statement.builtInsKnownList rest

/-- Every `BuiltInFunctionInvocation` node of the expression names an entry of
the table `builtInFunctionArgumentCounts`. -/
def Expression.builtInsKnown : Expression → Bool
  | Expression.Literal _ => true
  | Expression.Identifier _ => true
  | Expression.FunctionInvocation _ expressions => Expression.builtInsKnownList expressions
  | Expression.BuiltInFunctionInvocation identifier expressions =>
    (builtInFunctionArgumentCounts.lookup identifier.value).isSome &&
      Expression.builtInsKnownList expressions
  | Expression.FunctionDeclaration _ statement => statement.builtInsKnown
  | Expression.ObjectDeclaration keyValues => Expression.builtInsKnownKeyValues keyValues

/-- The same for every expression of a list. -/
def Expression.builtInsKnownList : List Expression → Bool
  | [] => true
  | e :: rest => e.builtInsKnown && Expression.builtInsKnownList rest

/-- The same for every value of an object declaration. -/
def Expression.builtInsKnownKeyValues : List (Token × Expression) → Bool
  | [] => true
  | kv :: rest => kv.2.builtInsKnown && Expression.builtInsKnownKeyValues rest

end

mutual

/-- The greatest number of `FunctionDeclaration` nodes nested in one another in
the statement. -/
def Statement.functionNesting : Statement → Nat
  | Statement.Declare _ expression => expression.functionNesting
  | Statement.If expression ifStatement elseStatement =>
    max expression.functionNesting (max ifStatement.functionNesting
      (match elseStatement with
        | none => 0
        | some s => s.functionNesting))
  | Statement.While expression statement =>
    max expression.functionNesting statement.functionNesting
  | Statement.Break _ => 0
  | Statement.Return expression _ =>
    (match expression with
      | none => 0
      | some e => e.functionNesting)
  | Statement.Assign _ expression => expression.functionNesting
  | Statement.Block statements => Statement.functionNestingList statements

/-- The same over the statements of a list. -/
def Statement.functionNestingList : List Statement → Nat
  | [] => 0
  | s :: rest => max s.functionNesting (Statement.functionNestingList rest)

/-- The greatest number of `FunctionDeclaration` nodes nested in one another in
the expression. -/
def Expression.functionNesting : Expression → Nat
  | Expression.Literal _ => 0
  | Expression.Identifier _ => 0
  | Expression.FunctionInvocation _ expressions => Expression.functionNestingList expressions
  | Expression.BuiltInFunctionInvocation _ expressions =>
    Expression.functionNestingList expressions
  | Expression.FunctionDeclaration _ statement => statement.functionNesting + 1
  | Expression.ObjectDeclaration keyValues => Expression.functionNestingKeyValues keyValues

/-- The same over the expressions of a list. -/
def Expression.functionNestingList : List Expression → Nat
  | [] => 0
  | e :: rest => max e.functionNesting (Expression.functionNestingList rest)

/-- The same over the values of an object declaration. -/
def Expression.functionNestingKeyValues : List (Token × Expression) → Nat
  | [] => 0
  | kv :: rest => max kv.2.functionNesting (Expression.functionNestingKeyValues rest)

end

mutual

/-- The `returnToken`s, in source order, of the `Return` nodes of the statement
that have no enclosing `FunctionDeclaration`.  (A `Return` inside an expression
is inside a function literal.) -/
def Statement.returnsOutsideFunction : Statement → List (Option Token)
  | Statement.Declare _ _ => []
  | Statement.If _ ifStatement elseStatement =>
    ifStatement.returnsOutsideFunction ++
      (match elseStatement with
        | none => []
        | some s => s.returnsOutsideFunction)
  | Statement.While _ statement => statement.returnsOutsideFunction
  | Statement.Break _ => []
  | Statement.Return _ returnToken => [returnToken]
  | Statement.Assign _ _ => []
  | Statement.Block statements => Statement.returnsOutsideFunctionList statements

/-- The same over the statements of a list. -/
def Statement.returnsOutsideFunctionList : List Statement → List (Option Token)
  | [] => []
  | s :: rest => s.returnsOutsideFunction ++ Statement.returnsOutsideFunctionList rest

end

mutual

/-- The `breakToken`s, in source order, of the `Break` nodes of the statement that
have no enclosing `While` between themselves and their nearest enclosing
`FunctionDeclaration` (or the root); `insideWhile` tells whether the statement
itself is inside a `While` of its function. -/
def Statement.breaksOutsideLoop (insideWhile : Bool) : Statement → List (Option Token)
  | Statement.Declare _ expression => expression.breaksOutsideLoop
  | Statement.If expression ifStatement elseStatement =>
    expression.breaksOutsideLoop ++ ifStatement.breaksOutsideLoop insideWhile ++
      (match elseStatement with
        | none => []
        | some s => s.breaksOutsideLoop insideWhile)
  | Statement.While expression statement =>
    expression.breaksOutsideLoop ++ statement.breaksOutsideLoop true
  | Statement.Break breakToken => if insideWhile then [] else [breakToken]
  | Statement.Return expression _ =>
    (match expression with
      | none => []
      | some e => e.breaksOutsideLoop)
  | Statement.Assign _ expression => expression.breaksOutsideLoop
  | Statement.Block statements => Statement.breaksOutsideLoopList insideWhile statements

/-- The same over the statements of a list. -/
def Statement.breaksOutsideLoopList (insideWhile : Bool) :
    List Statement → List (Option Token)
  | [] => []
  | s :: rest =>
    s.breaksOutsideLoop insideWhile ++ Statement.breaksOutsideLoopList insideWhile rest

/-- The `breakToken`s, in source order, of the `Break` nodes inside the function
literals of the expression that have no enclosing `While` in their function. -/
def Expression.breaksOutsideLoop : Expression → List (Option Token)
  | Expression.Literal _ => []
  | Expression.Identifier _ => []
  | Expression.FunctionInvocation _ expressions => Expression.breaksOutsideLoopList expressions
  | Expression.BuiltInFunctionInvocation _ expressions =>
    Expression.breaksOutsideLoopList expressions
  | Expression.FunctionDeclaration _ statement => statement.breaksOutsideLoop false
  | Expression.ObjectDeclaration keyValues => Expression.breaksOutsideLoopKeyValues keyValues

/-- The same over the expressions of a list. -/
def Expression.breaksOutsideLoopList : List Expression → List (Option Token)
  | [] => []
  | e :: rest => e.breaksOutsideLoop ++ Expression.breaksOutsideLoopList rest

/-- The same over the values of an object declaration. -/
def Expression.breaksOutsideLoopKeyValues : List (Token × Expression) → List (Option Token)
  | [] => []
  | kv :: rest => kv.2.breaksOutsideLoop ++ Expression.breaksOutsideLoopKeyValues rest

end

/-- The tokens of the return-placement errors among the reports `out`. -/
def returnErrors (out : List (Option Token × String)) : List (Option Token) :=
  out.filterMap fun report =>
    if report.2 = "Return statements can only be used from within functions." then
      some report.1
    else none

/-- The tokens of the break-placement errors among the reports `out`. -/
def breakErrors (out : List (Option Token × String)) : List (Option Token) :=
  out.filterMap fun report =>
    if report.2 = "Break statements can only be used from within loops." then some report.1
    else none

/-- What a completed visit of the node `node` has done to the run: the function
depth and the link of the current scope are as before, the loop flag has not
become true, entries of `inLoopState` were only added (under keys that lie in the
subtree of `node`), and the reports `out` have grown by reports among which the
return-placement errors are `returns` when the visit started at function depth 0
(and none otherwise) and the break-placement errors include `breaks`.  When
`exact` is set, the current scope and the loop flag are exactly as before. -/
structure Visited (node : NodeId) (exact : Bool) (returns breaks : List (Option Token))
    (run run' : SemanticAnalyzerRun) : Prop where
  depth : run'.functionDept = run.functionDept
  outer : run'.currentScope.outerScope = run.currentScope.outerScope
  barrier : run'.currentScope.outerScopeCrossesFunctionBarrier
    = run.currentScope.outerScopeCrossesFunctionBarrier
  loop : run'.inLoop = true → run.inLoop = true
  same : exact = true → run'.currentScope = run.currentScope ∧ run'.inLoop = run.inLoop
  keys : ∀ k ∈ run'.inLoopState.map Prod.fst, k ∈ run.inLoopState.map Prod.fst ∨ node <+: k
  saved : ∀ k b, run.inLoopState.lookup k = some b → run'.inLoopState.lookup k = some b
  reports : ∃ added, run'.out = run.out ++ added ∧
    returnErrors added = (if run.functionDept = 0 then returns else []) ∧
    List.Sublist breaks (breakErrors added)

/-- The local tables met on the outward walk from a scope, innermost first, each
with the number of function-barrier links between the starting scope and it;
`crossed` is that number for the scope itself. -/
def Scope.outwardWalk : Scope → Nat → List (Nat × List (String × VariableDefinition))
  | Scope.mk none localScope _, crossed => [(crossed, localScope)]
  | Scope.mk (some outer) localScope outerScopeCrossesFunctionBarrier, crossed =>
    (crossed, localScope)
      :: outer.outwardWalk (if outerScopeCrossesFunctionBarrier then crossed + 1 else crossed)

/-- A binding is visible when it is fully bound or at least one function-barrier
link lies between the starting scope and the scope that holds it. -/
def VariableDefinition.visible (vd : VariableDefinition) (crossed : Nat) : Bool :=
  vd.isFullyBound || decide (0 < crossed)

/-- The binding of `name` in one local table of the walk, when it is visible. -/
def visibleBinding (name : String) (entry : Nat × List (String × VariableDefinition)) :
    Option VariableDefinition :=
  match entry.2.lookup name with
  | some vd => if vd.visible entry.1 then some vd else none
  | none => none

/-- The binding of the innermost scope on the outward walk from `s` that holds
`name` with a visible binding; `none` when no scope of the chain does. -/
def Scope.innermostVisible (s : Scope) (name : String) : Option VariableDefinition :=
  (s.outwardWalk 0).findSome? (visibleBinding name)

/-- The parameters of a list whose name already occurs before them; `seen` holds
the names that occur before the list. -/
def repeatedParameters (seen : List String) : List Token → List Token
  | [] => []
  | p :: ps =>
    if p.value ∈ seen then p :: repeatedParameters (seen ++ [p.value]) ps
    else repeatedParameters (seen ++ [p.value]) ps

/-- The local tables of the scopes of the current function, innermost first: the
scope itself and the scopes reached from it through plain block links, up to the
scope whose link to its outer scope crosses a function barrier (or the scope
with no outer scope). -/
def Scope.functionTables : Scope → List (List (String × VariableDefinition))
  | Scope.mk none localScope _ => [localScope]
  | Scope.mk (some outer) localScope outerScopeCrossesFunctionBarrier =>
    if outerScopeCrossesFunctionBarrier then [localScope]
    else localScope :: outer.functionTables

/-- The binding of `name` in a local table, when it is fully bound (the variable
is fully declared there). -/
def fullyBoundBinding (name : String) (table : List (String × VariableDefinition)) :
    Option VariableDefinition :=
  match table.lookup name with
  | some vd => if vd.isFullyBound then some vd else none
  | none => none

/-- The statement `s` inside `n` nested blocks: `s`, `{ s }`, `{ { s } }`, ... -/
def nestedBlocks : Nat → Statement → Statement
  | 0, s => s
  | n + 1, s => Statement.Block [nestedBlocks n s]

/-! # Theorems -/

set_option linter.unreachableTactic false
set_option linter.unusedTactic false

/-! ## Stepping lemmas for the parser -/

@[simp] theorem Parser.currentToken_mk (reader : String) (t : Token) (ts : List Token)
    (started : Bool) (out : List String) :
    Parser.currentToken
      { tokenizer := { reader := reader, tokens := t :: ts, started := started }, out := out }
      = t := rfl

theorem Parser.nextToken_mk (reader : String) (t : Token) (ts : List Token)
    (out : List String) (h : t.tokenType ≠ TokenType.EndOfFile) :
    Parser.nextToken
      { tokenizer := { reader := reader, tokens := t :: ts, started := true }, out := out }
      = { tokenizer := { reader := reader, tokens := ts, started := true }, out := out } := by
  simp [Parser.nextToken, Tokenizer.nextToken, Tokenizer.currentToken, h]

theorem Parser.skipWhiteSpace_of_not_isNewLine (p : Parser)
    (h : p.currentToken.isNewLine = false) : p.skipWhiteSpace = p := by
  unfold Parser.skipWhiteSpace
  cases hn : p.tokenizer.tokens.length with
  | zero => rfl
  | succ n => simp [Parser.skipWhiteSpaceLoop, h]

theorem Parser.expect_of_match (fuel : Nat) (p : Parser) (type : TokenType) (error : Bool)
    (errorMessage : String) (h : p.currentToken.tokenType = type)
    (hne : type ≠ TokenType.EndOfFile) :
    Parser.expect (fuel + 1) p type error errorMessage
      = some (p.currentToken, error, p.nextToken) := by
  simp [Parser.expect, Parser.expectLoop, h, hne]

theorem Parser.expect_mk (fuel : Nat) (reader : String) (t : Token) (ts : List Token)
    (out : List String) (type : TokenType) (error : Bool) (errorMessage : String)
    (h : t.tokenType = type) (hne : type ≠ TokenType.EndOfFile) :
    Parser.expect (fuel + 1)
        { tokenizer := { reader := reader, tokens := t :: ts, started := true }, out := out }
        type error errorMessage
      = some (t, error,
          { tokenizer := { reader := reader, tokens := ts, started := true }, out := out }) := by
  rw [Parser.expect_of_match _ _ _ _ _ (by simpa using h) hne,
    Parser.nextToken_mk _ _ _ _ (by rw [h]; exact hne)]
  rfl

theorem Parser.nextToken_start (reader : String) (ts : List Token) (out : List String) :
    Parser.nextToken ⟨⟨reader, ts, false⟩, out⟩ = ⟨⟨reader, ts, true⟩, out⟩ := rfl

theorem Parser.skipWhiteSpace_mk (reader : String) (t : Token) (ts : List Token)
    (started : Bool) (out : List String) (h : t.isNewLine = false) :
    Parser.skipWhiteSpace ⟨⟨reader, t :: ts, started⟩, out⟩ = ⟨⟨reader, t :: ts, started⟩, out⟩ :=
  Parser.skipWhiteSpace_of_not_isNewLine _ (by simpa using h)

theorem Parser.skipWhiteSpaceLoop_append (reader : String) (out : List String) (t : Token)
    (rest : List Token) (ht : t.isNewLine = false) :
    ∀ (ws : List Token) (n : Nat), (∀ w ∈ ws, w.isNewLine = true) → ws.length ≤ n →
      Parser.skipWhiteSpaceLoop n ⟨⟨reader, ws ++ t :: rest, true⟩, out⟩
        = ⟨⟨reader, t :: rest, true⟩, out⟩ := by
  intro ws
  induction ws with
  | nil =>
    intro n _ _
    cases n with
    | zero => rfl
    | succ n => simp [Parser.skipWhiteSpaceLoop, ht]
  | cons w ws ih =>
    intro n hws hn
    have hw : w.isNewLine = true := hws w (List.mem_cons_self _ _)
    have hwe : w.tokenType ≠ TokenType.EndOfFile := by
      intro h
      simp [Token.isNewLine, h] at hw
    cases n with
    | zero => simp at hn
    | succ n =>
      rw [List.cons_append, Parser.skipWhiteSpaceLoop, if_pos ⟨by simpa using hwe, by simpa using hw⟩,
        Parser.nextToken_mk _ _ _ _ hwe]
      exact ih n (fun x hx => hws x (List.mem_cons_of_mem _ hx)) (by simpa using hn)

theorem Parser.skipWhiteSpace_append (reader : String) (out : List String) (ws : List Token)
    (t : Token) (rest : List Token) (hws : ∀ w ∈ ws, w.isNewLine = true)
    (ht : t.isNewLine = false) :
    Parser.skipWhiteSpace ⟨⟨reader, ws ++ t :: rest, true⟩, out⟩
      = ⟨⟨reader, t :: rest, true⟩, out⟩ :=
  Parser.skipWhiteSpaceLoop_append reader out t rest ht ws _ hws (by simp)

theorem Parser.expect_recover (fuel : Nat) (reader : String) (t1 t2 : Token)
    (ts : List Token) (out : List String) (type : TokenType) (error : Bool)
    (errorMessage : String) (h1 : t1.tokenType ≠ type)
    (h1e : t1.tokenType ≠ TokenType.EndOfFile) (h2 : t2.tokenType = type)
    (hne : type ≠ TokenType.EndOfFile) :
    Parser.expect (fuel + 2) ⟨⟨reader, t1 :: t2 :: ts, true⟩, out⟩ type error errorMessage
      = some (t2, true,
          ⟨⟨reader, ts, true⟩,
           out ++ [reportErrorText reader t1
              (errorMessage ++ ", but was type " ++ Token.typeToString t1.tokenType
                ++ "with value '" ++ t1.value ++ "'.")]⟩) := by
  have h2e : t2.tokenType ≠ TokenType.EndOfFile := by rw [h2]; exact hne
  simp [Parser.expect, Parser.expectLoop, Parser.reportError, Parser.nextToken,
    Tokenizer.nextToken, Parser.currentToken, Tokenizer.currentToken, h1, h1e, h2, hne]

theorem Parser.expectLoop_eq_none (type : TokenType) (errorMessage : String) :
    ∀ (fuel : Nat) (foundWrongToken error : Bool) (p : Parser),
      (∀ t ∈ p.tokenizer.tokens, t.tokenType = TokenType.EndOfFile ∨ t.tokenType ≠ type) →
      Parser.expectLoop type errorMessage fuel foundWrongToken error p = none := by
  intro fuel
  induction fuel with
  | zero => intros; rfl
  | succ n ih =>
    intro foundWrongToken error p h
    have hcur : p.currentToken.tokenType = TokenType.EndOfFile ∨ p.currentToken.tokenType ≠ type := by
      unfold Parser.currentToken Tokenizer.currentToken
      cases hts : p.tokenizer.tokens with
      | nil => exact Or.inl rfl
      | cons t ts => exact h t (by simp [hts])
    rw [Parser.expectLoop, if_pos hcur]
    apply ih
    intro t ht
    apply h
    have hsub : ∀ q : Parser, t ∈ q.nextToken.tokenizer.tokens → t ∈ q.tokenizer.tokens := by
      intro q hq
      unfold Parser.nextToken Tokenizer.nextToken at hq
      split at hq
      · exact hq
      · split at hq
        · exact hq
        · exact List.mem_of_mem_tail hq
    split at ht
    · exact hsub _ ht
    · exact hsub _ ht

theorem Parser.expect_eq_none (fuel : Nat) (p : Parser) (type : TokenType) (error : Bool)
    (errorMessage : String)
    (h : ∀ t ∈ p.tokenizer.tokens, t.tokenType = TokenType.EndOfFile ∨ t.tokenType ≠ type) :
    Parser.expect fuel p type error errorMessage = none :=
  Parser.expectLoop_eq_none _ _ _ _ _ _ h

theorem Parser.parseExpression_literal (fuel : Nat) (reader : String) (out : List String)
    (l s : Token) (rest : List Token)
    (hl : l.tokenType = TokenType.BooleanLiteral ∨ l.tokenType = TokenType.StringLiteral ∨
      l.tokenType = TokenType.IntegerLiteral ∨ l.tokenType = TokenType.FloatLiteral ∨
      l.tokenType = TokenType.UndefinedLiteral)
    (hs : s.isNewLine = false) :
    Parser.parseExpression (fuel + 1)
        { tokenizer := { reader := reader, tokens := l :: s :: rest, started := true },
          out := out }
      = some (some (Expression.Literal l),
          { tokenizer := { reader := reader, tokens := s :: rest, started := true },
            out := out }) := by
  have hnl : l.isNewLine = false := by
    rcases hl with h | h | h | h | h <;> simp [Token.isNewLine, h]
  have hne : l.tokenType ≠ TokenType.EndOfFile := by
    rcases hl with h | h | h | h | h <;> simp [h]
  rw [Parser.parseExpression, Parser.skipWhiteSpace_of_not_isNewLine _ (by simpa using hnl)]
  rcases hl with h | h | h | h | h <;>
    simp only [Parser.currentToken_mk, h, Parser.parseLiteralExpression,
      Parser.nextToken_mk _ _ _ _ hne] <;>
    rw [Parser.skipWhiteSpace_of_not_isNewLine _ (by simpa using hs)] <;> rfl

theorem Parser.parseExpression_identifier (fuel : Nat) (reader : String) (out : List String)
    (i s : Token) (rest : List Token) (hi : i.tokenType = TokenType.Identifier)
    (hs : s.isNewLine = false) (hp : s.tokenType ≠ TokenType.LeftParen) :
    Parser.parseExpression (fuel + 3) ⟨⟨reader, i :: s :: rest, true⟩, out⟩
      = some (some (Expression.Identifier i), ⟨⟨reader, s :: rest, true⟩, out⟩) := by
  rw [Parser.parseExpression,
    Parser.skipWhiteSpace_of_not_isNewLine _ (by simp [Token.isNewLine, hi])]
  simp only [Parser.currentToken_mk, hi, Option.bind_eq_bind, Option.pure_def]
  rw [Parser.parseIdentifierOrFunctionInvocationExpression]
  simp only [Option.bind_eq_bind, Option.pure_def]
  rw [Parser.expect_mk _ _ _ _ _ _ _ _ hi (by decide)]
  simp only [Option.some_bind]
  rw [Parser.skipWhiteSpace_of_not_isNewLine _ (by simpa using hs)]
  simp [hp, Parser.skipWhiteSpace_of_not_isNewLine _
    (show (Parser.mk ⟨reader, s :: rest, true⟩ out).currentToken.isNewLine = false by
      simpa using hs)]

theorem Parser.parseDeclareStatement_literal (fuel : Nat) (reader : String) (out : List String)
    (v w i a l s : Token) (rest : List Token)
    (hv : v.tokenType = TokenType.Var) (hw : w.tokenType = TokenType.WhiteSpace)
    (hi : i.tokenType = TokenType.Identifier) (ha : a.tokenType = TokenType.Assign)
    (hl : l.tokenType = TokenType.BooleanLiteral ∨ l.tokenType = TokenType.StringLiteral ∨
      l.tokenType = TokenType.IntegerLiteral ∨ l.tokenType = TokenType.FloatLiteral ∨
      l.tokenType = TokenType.UndefinedLiteral)
    (hs : s.tokenType = TokenType.SemiColon) :
    Parser.parseDeclareStatement (fuel + 2)
        ⟨⟨reader, v :: w :: i :: a :: l :: s :: rest, true⟩, out⟩
      = some (some (Statement.Declare i (Expression.Literal l)), ⟨⟨reader, rest, true⟩, out⟩) := by
  rw [Parser.parseDeclareStatement]
  simp only [Option.bind_eq_bind, Option.pure_def]
  rw [Parser.expect_mk _ _ _ _ _ _ _ _ hv (by decide)]
  simp only [Option.some_bind]
  rw [Parser.expect_mk _ _ _ _ _ _ _ _ hw (by decide)]
  simp only [Option.some_bind]
  rw [Parser.skipWhiteSpace_of_not_isNewLine _ (by simp [Token.isNewLine, hi])]
  rw [Parser.expect_mk _ _ _ _ _ _ _ _ hi (by decide)]
  simp only [Option.some_bind]
  rw [Parser.skipWhiteSpace_of_not_isNewLine _ (by simp [Token.isNewLine, ha])]
  rw [Parser.expect_mk _ _ _ _ _ _ _ _ ha (by decide)]
  simp only [Option.some_bind]
  rw [Parser.parseExpression_literal _ _ _ _ _ _ hl (by simp [Token.isNewLine, hs])]
  simp only [Option.some_bind]
  rw [Parser.expect_mk _ _ _ _ _ _ _ _ hs (by decide)]
  simp only [Option.some_bind]

theorem Parser.parseStatement_declare_literal (fuel : Nat) (reader : String)
    (out : List String) (v w i a l s n : Token) (rest : List Token)
    (hv : v.tokenType = TokenType.Var) (hw : w.tokenType = TokenType.WhiteSpace)
    (hi : i.tokenType = TokenType.Identifier) (ha : a.tokenType = TokenType.Assign)
    (hl : l.tokenType = TokenType.BooleanLiteral ∨ l.tokenType = TokenType.StringLiteral ∨
      l.tokenType = TokenType.IntegerLiteral ∨ l.tokenType = TokenType.FloatLiteral ∨
      l.tokenType = TokenType.UndefinedLiteral)
    (hs : s.tokenType = TokenType.SemiColon) (hn : n.isNewLine = false) :
    Parser.parseStatement (fuel + 3)
        ⟨⟨reader, v :: w :: i :: a :: l :: s :: n :: rest, true⟩, out⟩
      = some (some (Statement.Declare i (Expression.Literal l)),
          ⟨⟨reader, n :: rest, true⟩, out⟩) := by
  rw [Parser.parseStatement,
    Parser.skipWhiteSpace_of_not_isNewLine _ (by simp [Token.isNewLine, hv])]
  simp only [Parser.currentToken_mk, hv, Option.bind_eq_bind, Option.pure_def]
  rw [Parser.parseDeclareStatement_literal _ _ _ _ _ _ _ _ _ _ hv hw hi ha hl hs]
  simp only [Option.some_bind]
  rw [Parser.skipWhiteSpace_of_not_isNewLine _ (by simpa using hn)]

/-! ## The claims -/

/-- C1: on the tokens of `f(a,b)` the invocation parser returns, for every fuel
of at least 8, no node (`std::nullopt`) and writes one diagnostic, reported at
the comma: the loop of `parseFunctionInvocationExpression` tests for a comma only
from its second iteration on, so the comma after the first argument is taken for
the start of an expression. -/
theorem C1_invocation_two_arguments : ∀ fuel : Nat,
    Parser.parseIdentifierOrFunctionInvocationExpression (fuel + 8)
        ⟨⟨"f(a,b)",
          [⟨"f", .Identifier, 0, 1, 1⟩, ⟨"(", .LeftParen, 1, 1, 2⟩,
           ⟨"a", .Identifier, 2, 1, 3⟩, ⟨",", .Comma, 3, 1, 4⟩,
           ⟨"b", .Identifier, 4, 1, 5⟩, ⟨")", .RightParen, 5, 1, 6⟩,
           ⟨"", .EndOfFile, 6, 1, 7⟩], true⟩, []⟩
      = some (none,
          ⟨⟨"f(a,b)", [⟨"", .EndOfFile, 6, 1, 7⟩], true⟩,
           [reportErrorText "f(a,b)" ⟨",", .Comma, 3, 1, 4⟩
              "Expected an identifier, but was type Commawith value ','."]⟩) := by
  intro fuel
  rw [Parser.parseIdentifierOrFunctionInvocationExpression]
  repeat (first
    | rw [Parser.skipWhiteSpace_mk _ _ _ _ _ (by decide)]
    | rw [Parser.expect_mk _ _ _ _ _ _ _ _ (by decide) (by decide)]
    | rw [Parser.expect_recover _ _ _ _ _ _ _ _ _ (by decide) (by decide) (by decide) (by decide)]
    | rw [Parser.nextToken_mk _ _ _ _ (by decide)]
    | rw [Parser.expect_eq_none _ _ _ _ _ (by decide)]
    | simp only [Parser.currentToken_mk, Parser.nextToken_start, Parser.parseLiteralExpression,
      Option.bind_eq_bind, Option.pure_def, Option.some_bind, Option.none_bind, reduceCtorEq,
      if_false, if_true, false_and, and_false, true_and, and_true, Bool.false_eq_true,
      not_false_eq_true, not_true_eq_false, ne_eq, List.nil_append, List.cons_append,
      Option.isNone_some, Option.isNone_none])
  rw [Parser.parseFunctionInvocationExpression]
  repeat (first
    | rw [Parser.skipWhiteSpace_mk _ _ _ _ _ (by decide)]
    | rw [Parser.expect_mk _ _ _ _ _ _ _ _ (by decide) (by decide)]
    | rw [Parser.expect_recover _ _ _ _ _ _ _ _ _ (by decide) (by decide) (by decide) (by decide)]
    | rw [Parser.nextToken_mk _ _ _ _ (by decide)]
    | rw [Parser.expect_eq_none _ _ _ _ _ (by decide)]
    | simp only [Parser.currentToken_mk, Parser.nextToken_start, Parser.parseLiteralExpression,
      Option.bind_eq_bind, Option.pure_def, Option.some_bind, Option.none_bind, reduceCtorEq,
      if_false, if_true, false_and, and_false, true_and, and_true, Bool.false_eq_true,
      not_false_eq_true, not_true_eq_false, ne_eq, List.nil_append, List.cons_append,
      Option.isNone_some, Option.isNone_none])
  rw [Parser.parseFunctionInvocationExpressionLoop]
  repeat (first
    | rw [Parser.skipWhiteSpace_mk _ _ _ _ _ (by decide)]
    | rw [Parser.expect_mk _ _ _ _ _ _ _ _ (by decide) (by decide)]
    | rw [Parser.expect_recover _ _ _ _ _ _ _ _ _ (by decide) (by decide) (by decide) (by decide)]
    | rw [Parser.nextToken_mk _ _ _ _ (by decide)]
    | rw [Parser.expect_eq_none _ _ _ _ _ (by decide)]
    | simp only [Parser.currentToken_mk, Parser.nextToken_start, Parser.parseLiteralExpression,
      Option.bind_eq_bind, Option.pure_def, Option.some_bind, Option.none_bind, reduceCtorEq,
      if_false, if_true, false_and, and_false, true_and, and_true, Bool.false_eq_true,
      not_false_eq_true, not_true_eq_false, ne_eq, List.nil_append, List.cons_append,
      Option.isNone_some, Option.isNone_none])
  rw [Parser.parseExpression]
  repeat (first
    | rw [Parser.skipWhiteSpace_mk _ _ _ _ _ (by decide)]
    | rw [Parser.expect_mk _ _ _ _ _ _ _ _ (by decide) (by decide)]
    | rw [Parser.expect_recover _ _ _ _ _ _ _ _ _ (by decide) (by decide) (by decide) (by decide)]
    | rw [Parser.nextToken_mk _ _ _ _ (by decide)]
    | rw [Parser.expect_eq_none _ _ _ _ _ (by decide)]
    | simp only [Parser.currentToken_mk, Parser.nextToken_start, Parser.parseLiteralExpression,
      Option.bind_eq_bind, Option.pure_def, Option.some_bind, Option.none_bind, reduceCtorEq,
      if_false, if_true, false_and, and_false, true_and, and_true, Bool.false_eq_true,
      not_false_eq_true, not_true_eq_false, ne_eq, List.nil_append, List.cons_append,
      Option.isNone_some, Option.isNone_none])
  rw [Parser.parseIdentifierOrFunctionInvocationExpression]
  repeat (first
    | rw [Parser.skipWhiteSpace_mk _ _ _ _ _ (by decide)]
    | rw [Parser.expect_mk _ _ _ _ _ _ _ _ (by decide) (by decide)]
    | rw [Parser.expect_recover _ _ _ _ _ _ _ _ _ (by decide) (by decide) (by decide) (by decide)]
    | rw [Parser.nextToken_mk _ _ _ _ (by decide)]
    | rw [Parser.expect_eq_none _ _ _ _ _ (by decide)]
    | simp only [Parser.currentToken_mk, Parser.nextToken_start, Parser.parseLiteralExpression,
      Option.bind_eq_bind, Option.pure_def, Option.some_bind, Option.none_bind, reduceCtorEq,
      if_false, if_true, false_and, and_false, true_and, and_true, Bool.false_eq_true,
      not_false_eq_true, not_true_eq_false, ne_eq, List.nil_append, List.cons_append,
      Option.isNone_some, Option.isNone_none])
  rw [Parser.parseFunctionInvocationExpressionLoop]
  repeat (first
    | rw [Parser.skipWhiteSpace_mk _ _ _ _ _ (by decide)]
    | rw [Parser.expect_mk _ _ _ _ _ _ _ _ (by decide) (by decide)]
    | rw [Parser.expect_recover _ _ _ _ _ _ _ _ _ (by decide) (by decide) (by decide) (by decide)]
    | rw [Parser.nextToken_mk _ _ _ _ (by decide)]
    | rw [Parser.expect_eq_none _ _ _ _ _ (by decide)]
    | simp only [Parser.currentToken_mk, Parser.nextToken_start, Parser.parseLiteralExpression,
      Option.bind_eq_bind, Option.pure_def, Option.some_bind, Option.none_bind, reduceCtorEq,
      if_false, if_true, false_and, and_false, true_and, and_true, Bool.false_eq_true,
      not_false_eq_true, not_true_eq_false, ne_eq, List.nil_append, List.cons_append,
      Option.isNone_some, Option.isNone_none])
  rw [Parser.parseExpression]
  repeat (first
    | rw [Parser.skipWhiteSpace_mk _ _ _ _ _ (by decide)]
    | rw [Parser.expect_mk _ _ _ _ _ _ _ _ (by decide) (by decide)]
    | rw [Parser.expect_recover _ _ _ _ _ _ _ _ _ (by decide) (by decide) (by decide) (by decide)]
    | rw [Parser.nextToken_mk _ _ _ _ (by decide)]
    | rw [Parser.expect_eq_none _ _ _ _ _ (by decide)]
    | simp only [Parser.currentToken_mk, Parser.nextToken_start, Parser.parseLiteralExpression,
      Option.bind_eq_bind, Option.pure_def, Option.some_bind, Option.none_bind, reduceCtorEq,
      if_false, if_true, false_and, and_false, true_and, and_true, Bool.false_eq_true,
      not_false_eq_true, not_true_eq_false, ne_eq, List.nil_append, List.cons_append,
      Option.isNone_some, Option.isNone_none])
  rw [Parser.parseIdentifierOrFunctionInvocationExpression]
  repeat (first
    | rw [Parser.skipWhiteSpace_mk _ _ _ _ _ (by decide)]
    | rw [Parser.expect_mk _ _ _ _ _ _ _ _ (by decide) (by decide)]
    | rw [Parser.expect_recover _ _ _ _ _ _ _ _ _ (by decide) (by decide) (by decide) (by decide)]
    | rw [Parser.nextToken_mk _ _ _ _ (by decide)]
    | rw [Parser.expect_eq_none _ _ _ _ _ (by decide)]
    | simp only [Parser.currentToken_mk, Parser.nextToken_start, Parser.parseLiteralExpression,
      Option.bind_eq_bind, Option.pure_def, Option.some_bind, Option.none_bind, reduceCtorEq,
      if_false, if_true, false_and, and_false, true_and, and_true, Bool.false_eq_true,
      not_false_eq_true, not_true_eq_false, ne_eq, List.nil_append, List.cons_append,
      Option.isNone_some, Option.isNone_none])
  rfl

/-- C2: on the tokens of `return=x;` `parseScript` returns, for every fuel of at
least 7, a script (with the single statement `Return`, without expression)
although `expect` has written a diagnostic, reported at `=`:
`parseReturnStatement` ignores the failed expression because its
`foundExpression` is never set. -/
theorem C2_script_returned_after_diagnostic : ∀ fuel : Nat,
    Parser.parseScript (fuel + 7)
        ⟨⟨"return=x;",
          [⟨"return", .Return, 0, 1, 1⟩, ⟨"=", .Assign, 6, 1, 7⟩,
           ⟨"x", .Identifier, 7, 1, 8⟩, ⟨";", .SemiColon, 8, 1, 9⟩,
           ⟨"", .EndOfFile, 9, 1, 10⟩], false⟩, []⟩
      = some (some ⟨[Statement.Return none none]⟩,
          ⟨⟨"return=x;", [⟨"", .EndOfFile, 9, 1, 10⟩], true⟩,
           [reportErrorText "return=x;" ⟨"=", .Assign, 6, 1, 7⟩
              "Expected an identifier, but was type Assignwith value '='."]⟩) := by
  intro fuel
  rw [Parser.parseScript]
  repeat (first
    | rw [Parser.skipWhiteSpace_mk _ _ _ _ _ (by decide)]
    | rw [Parser.expect_mk _ _ _ _ _ _ _ _ (by decide) (by decide)]
    | rw [Parser.expect_recover _ _ _ _ _ _ _ _ _ (by decide) (by decide) (by decide) (by decide)]
    | rw [Parser.nextToken_mk _ _ _ _ (by decide)]
    | rw [Parser.expect_eq_none _ _ _ _ _ (by decide)]
    | simp only [Parser.currentToken_mk, Parser.nextToken_start, Parser.parseLiteralExpression,
      Option.bind_eq_bind, Option.pure_def, Option.some_bind, Option.none_bind, reduceCtorEq,
      if_false, if_true, false_and, and_false, true_and, and_true, Bool.false_eq_true,
      not_false_eq_true, not_true_eq_false, ne_eq, List.nil_append, List.cons_append,
      Option.isNone_some, Option.isNone_none])
  rw [Parser.parseScriptLoop]
  repeat (first
    | rw [Parser.skipWhiteSpace_mk _ _ _ _ _ (by decide)]
    | rw [Parser.expect_mk _ _ _ _ _ _ _ _ (by decide) (by decide)]
    | rw [Parser.expect_recover _ _ _ _ _ _ _ _ _ (by decide) (by decide) (by decide) (by decide)]
    | rw [Parser.nextToken_mk _ _ _ _ (by decide)]
    | rw [Parser.expect_eq_none _ _ _ _ _ (by decide)]
    | simp only [Parser.currentToken_mk, Parser.nextToken_start, Parser.parseLiteralExpression,
      Option.bind_eq_bind, Option.pure_def, Option.some_bind, Option.none_bind, reduceCtorEq,
      if_false, if_true, false_and, and_false, true_and, and_true, Bool.false_eq_true,
      not_false_eq_true, not_true_eq_false, ne_eq, List.nil_append, List.cons_append,
      Option.isNone_some, Option.isNone_none])
  rw [Parser.parseStatement]
  repeat (first
    | rw [Parser.skipWhiteSpace_mk _ _ _ _ _ (by decide)]
    | rw [Parser.expect_mk _ _ _ _ _ _ _ _ (by decide) (by decide)]
    | rw [Parser.expect_recover _ _ _ _ _ _ _ _ _ (by decide) (by decide) (by decide) (by decide)]
    | rw [Parser.nextToken_mk _ _ _ _ (by decide)]
    | rw [Parser.expect_eq_none _ _ _ _ _ (by decide)]
    | simp only [Parser.currentToken_mk, Parser.nextToken_start, Parser.parseLiteralExpression,
      Option.bind_eq_bind, Option.pure_def, Option.some_bind, Option.none_bind, reduceCtorEq,
      if_false, if_true, false_and, and_false, true_and, and_true, Bool.false_eq_true,
      not_false_eq_true, not_true_eq_false, ne_eq, List.nil_append, List.cons_append,
      Option.isNone_some, Option.isNone_none])
  rw [Parser.parseReturnStatement]
  repeat (first
    | rw [Parser.skipWhiteSpace_mk _ _ _ _ _ (by decide)]
    | rw [Parser.expect_mk _ _ _ _ _ _ _ _ (by decide) (by decide)]
    | rw [Parser.expect_recover _ _ _ _ _ _ _ _ _ (by decide) (by decide) (by decide) (by decide)]
    | rw [Parser.nextToken_mk _ _ _ _ (by decide)]
    | rw [Parser.expect_eq_none _ _ _ _ _ (by decide)]
    | simp only [Parser.currentToken_mk, Parser.nextToken_start, Parser.parseLiteralExpression,
      Option.bind_eq_bind, Option.pure_def, Option.some_bind, Option.none_bind, reduceCtorEq,
      if_false, if_true, false_and, and_false, true_and, and_true, Bool.false_eq_true,
      not_false_eq_true, not_true_eq_false, ne_eq, List.nil_append, List.cons_append,
      Option.isNone_some, Option.isNone_none])
  rw [Parser.parseExpression]
  repeat (first
    | rw [Parser.skipWhiteSpace_mk _ _ _ _ _ (by decide)]
    | rw [Parser.expect_mk _ _ _ _ _ _ _ _ (by decide) (by decide)]
    | rw [Parser.expect_recover _ _ _ _ _ _ _ _ _ (by decide) (by decide) (by decide) (by decide)]
    | rw [Parser.nextToken_mk _ _ _ _ (by decide)]
    | rw [Parser.expect_eq_none _ _ _ _ _ (by decide)]
    | simp only [Parser.currentToken_mk, Parser.nextToken_start, Parser.parseLiteralExpression,
      Option.bind_eq_bind, Option.pure_def, Option.some_bind, Option.none_bind, reduceCtorEq,
      if_false, if_true, false_and, and_false, true_and, and_true, Bool.false_eq_true,
      not_false_eq_true, not_true_eq_false, ne_eq, List.nil_append, List.cons_append,
      Option.isNone_some, Option.isNone_none])
  rw [Parser.parseIdentifierOrFunctionInvocationExpression]
  repeat (first
    | rw [Parser.skipWhiteSpace_mk _ _ _ _ _ (by decide)]
    | rw [Parser.expect_mk _ _ _ _ _ _ _ _ (by decide) (by decide)]
    | rw [Parser.expect_recover _ _ _ _ _ _ _ _ _ (by decide) (by decide) (by decide) (by decide)]
    | rw [Parser.nextToken_mk _ _ _ _ (by decide)]
    | rw [Parser.expect_eq_none _ _ _ _ _ (by decide)]
    | simp only [Parser.currentToken_mk, Parser.nextToken_start, Parser.parseLiteralExpression,
      Option.bind_eq_bind, Option.pure_def, Option.some_bind, Option.none_bind, reduceCtorEq,
      if_false, if_true, false_and, and_false, true_and, and_true, Bool.false_eq_true,
      not_false_eq_true, not_true_eq_false, ne_eq, List.nil_append, List.cons_append,
      Option.isNone_some, Option.isNone_none])
  rw [Parser.parseScriptLoop]
  repeat (first
    | rw [Parser.skipWhiteSpace_mk _ _ _ _ _ (by decide)]
    | rw [Parser.expect_mk _ _ _ _ _ _ _ _ (by decide) (by decide)]
    | rw [Parser.expect_recover _ _ _ _ _ _ _ _ _ (by decide) (by decide) (by decide) (by decide)]
    | rw [Parser.nextToken_mk _ _ _ _ (by decide)]
    | rw [Parser.expect_eq_none _ _ _ _ _ (by decide)]
    | simp only [Parser.currentToken_mk, Parser.nextToken_start, Parser.parseLiteralExpression,
      Option.bind_eq_bind, Option.pure_def, Option.some_bind, Option.none_bind, reduceCtorEq,
      if_false, if_true, false_and, and_false, true_and, and_true, Bool.false_eq_true,
      not_false_eq_true, not_true_eq_false, ne_eq, List.nil_append, List.cons_append,
      Option.isNone_some, Option.isNone_none])
  rfl

/-- C3: for every literal or identifier token `e`, `parseReturnStatement` on the
tokens `return e ;` (with any whitespace tokens `ws` between `return` and `e`)
returns, for every fuel of at least 4, a `Return` node without expression, and
writes no diagnostic: the expression is parsed and then dropped, because
`foundExpression` is never set. -/
theorem C3_return_drops_expression (reader : String) (out : List String)
    (r e s : Token) (ws rest : List Token)
    (hr : r.tokenType = TokenType.Return) (hws : ∀ w ∈ ws, w.isNewLine = true)
    (he : e.tokenType = TokenType.BooleanLiteral ∨ e.tokenType = TokenType.StringLiteral ∨
      e.tokenType = TokenType.IntegerLiteral ∨ e.tokenType = TokenType.FloatLiteral ∨
      e.tokenType = TokenType.UndefinedLiteral ∨ e.tokenType = TokenType.Identifier)
    (hs : s.tokenType = TokenType.SemiColon) (fuel : Nat) (hfuel : 4 ≤ fuel) :
    Parser.parseReturnStatement fuel ⟨⟨reader, r :: (ws ++ e :: s :: rest), true⟩, out⟩
      = some (some (Statement.Return none none), ⟨⟨reader, rest, true⟩, out⟩) := by
  obtain ⟨m, rfl⟩ : ∃ m, fuel = m + 4 := ⟨fuel - 4, by omega⟩
  have hsn : s.isNewLine = false := by simp [Token.isNewLine, hs]
  have hen : e.isNewLine = false := by
    rcases he with h | h | h | h | h | h <;> simp [Token.isNewLine, h]
  have hes : e.tokenType ≠ TokenType.SemiColon := by
    rcases he with h | h | h | h | h | h <;> simp [h]
  have hexp : ∃ x, Parser.parseExpression (m + 3) ⟨⟨reader, e :: s :: rest, true⟩, out⟩
      = some (some x, ⟨⟨reader, s :: rest, true⟩, out⟩) := by
    rcases he with h | h | h | h | h | h
    · exact ⟨_, Parser.parseExpression_literal _ _ _ _ _ _ (Or.inl h) hsn⟩
    · exact ⟨_, Parser.parseExpression_literal _ _ _ _ _ _ (Or.inr (Or.inl h)) hsn⟩
    · exact ⟨_, Parser.parseExpression_literal _ _ _ _ _ _ (Or.inr (Or.inr (Or.inl h))) hsn⟩
    · exact ⟨_, Parser.parseExpression_literal _ _ _ _ _ _
        (Or.inr (Or.inr (Or.inr (Or.inl h)))) hsn⟩
    · exact ⟨_, Parser.parseExpression_literal _ _ _ _ _ _
        (Or.inr (Or.inr (Or.inr (Or.inr h)))) hsn⟩
    · exact ⟨_, Parser.parseExpression_identifier _ _ _ _ _ _ h hsn (by simp [hs])⟩
  obtain ⟨x, hx⟩ := hexp
  rw [Parser.parseReturnStatement]
  simp only [Option.bind_eq_bind, Option.pure_def]
  rw [Parser.expect_mk _ _ _ _ _ _ _ _ hr (by decide)]
  simp only [Option.some_bind]
  rw [Parser.skipWhiteSpace_append _ _ _ _ _ hws hen]
  simp only [Parser.currentToken_mk, ne_eq, hes, not_false_eq_true, if_true, hx,
    Option.some_bind]
  rw [Parser.expect_mk _ _ _ _ _ _ _ _ hs (by decide)]
  simp

/-- Witness of C3 on the tokens of `return x;`. -/
theorem C3_return_drops_expression_witness :
    Parser.parseReturnStatement 4
        ⟨⟨"return x;",
          [⟨"return", .Return, 0, 1, 1⟩, ⟨" ", .WhiteSpace, 6, 1, 7⟩,
           ⟨"x", .Identifier, 7, 1, 8⟩, ⟨";", .SemiColon, 8, 1, 9⟩,
           ⟨"", .EndOfFile, 9, 1, 10⟩], true⟩, []⟩
      = some (some (Statement.Return none none),
          ⟨⟨"return x;", [⟨"", .EndOfFile, 9, 1, 10⟩], true⟩, []⟩) :=
  C3_return_drops_expression "return x;" [] ⟨"return", .Return, 0, 1, 1⟩
    ⟨"x", .Identifier, 7, 1, 8⟩ ⟨";", .SemiColon, 8, 1, 9⟩ [⟨" ", .WhiteSpace, 6, 1, 7⟩]
    [⟨"", .EndOfFile, 9, 1, 10⟩] rfl (by decide) (by decide) rfl 4 (Nat.le_refl 4)
/-- C4: on the tokens of the empty block `{}` followed by the end of file,
`parseBlockStatement` never returns, whatever the fuel: its loop calls
`parseStatement` before it tests for `}`, so `parseAssignStatement` runs `expect`
for an identifier at `}`, which skips to the end of file and stays there. -/
theorem C4_empty_block_never_returns : ∀ fuel : Nat,
    Parser.parseBlockStatement fuel
        ⟨⟨"\x7b\x7d",
          [⟨"\x7b", .LeftCurly, 0, 1, 1⟩, ⟨"\x7d", .RightCurly, 1, 1, 2⟩,
           ⟨"", .EndOfFile, 2, 1, 3⟩], true⟩, []⟩ = none := by
  intro fuel
  rcases fuel with _|_|_|_|fuel
  iterate 4 rfl
  rw [Parser.parseBlockStatement]
  repeat (first
    | rw [Parser.skipWhiteSpace_mk _ _ _ _ _ (by decide)]
    | rw [Parser.expect_mk _ _ _ _ _ _ _ _ (by decide) (by decide)]
    | rw [Parser.expect_recover _ _ _ _ _ _ _ _ _ (by decide) (by decide) (by decide) (by decide)]
    | rw [Parser.nextToken_mk _ _ _ _ (by decide)]
    | rw [Parser.expect_eq_none _ _ _ _ _ (by decide)]
    | simp only [Parser.currentToken_mk, Parser.nextToken_start, Parser.parseLiteralExpression,
      Option.bind_eq_bind, Option.pure_def, Option.some_bind, Option.none_bind, reduceCtorEq,
      if_false, if_true, false_and, and_false, true_and, and_true, Bool.false_eq_true,
      not_false_eq_true, not_true_eq_false, ne_eq, List.nil_append, List.cons_append,
      Option.isNone_some, Option.isNone_none])
  rw [Parser.parseBlockStatementLoop]
  repeat (first
    | rw [Parser.skipWhiteSpace_mk _ _ _ _ _ (by decide)]
    | rw [Parser.expect_mk _ _ _ _ _ _ _ _ (by decide) (by decide)]
    | rw [Parser.expect_recover _ _ _ _ _ _ _ _ _ (by decide) (by decide) (by decide) (by decide)]
    | rw [Parser.nextToken_mk _ _ _ _ (by decide)]
    | rw [Parser.expect_eq_none _ _ _ _ _ (by decide)]
    | simp only [Parser.currentToken_mk, Parser.nextToken_start, Parser.parseLiteralExpression,
      Option.bind_eq_bind, Option.pure_def, Option.some_bind, Option.none_bind, reduceCtorEq,
      if_false, if_true, false_and, and_false, true_and, and_true, Bool.false_eq_true,
      not_false_eq_true, not_true_eq_false, ne_eq, List.nil_append, List.cons_append,
      Option.isNone_some, Option.isNone_none])
  rw [Parser.parseStatement]
  repeat (first
    | rw [Parser.skipWhiteSpace_mk _ _ _ _ _ (by decide)]
    | rw [Parser.expect_mk _ _ _ _ _ _ _ _ (by decide) (by decide)]
    | rw [Parser.expect_recover _ _ _ _ _ _ _ _ _ (by decide) (by decide) (by decide) (by decide)]
    | rw [Parser.nextToken_mk _ _ _ _ (by decide)]
    | rw [Parser.expect_eq_none _ _ _ _ _ (by decide)]
    | simp only [Parser.currentToken_mk, Parser.nextToken_start, Parser.parseLiteralExpression,
      Option.bind_eq_bind, Option.pure_def, Option.some_bind, Option.none_bind, reduceCtorEq,
      if_false, if_true, false_and, and_false, true_and, and_true, Bool.false_eq_true,
      not_false_eq_true, not_true_eq_false, ne_eq, List.nil_append, List.cons_append,
      Option.isNone_some, Option.isNone_none])
  rw [Parser.parseAssignStatement]
  repeat (first
    | rw [Parser.skipWhiteSpace_mk _ _ _ _ _ (by decide)]
    | rw [Parser.expect_mk _ _ _ _ _ _ _ _ (by decide) (by decide)]
    | rw [Parser.expect_recover _ _ _ _ _ _ _ _ _ (by decide) (by decide) (by decide) (by decide)]
    | rw [Parser.nextToken_mk _ _ _ _ (by decide)]
    | rw [Parser.expect_eq_none _ _ _ _ _ (by decide)]
    | simp only [Parser.currentToken_mk, Parser.nextToken_start, Parser.parseLiteralExpression,
      Option.bind_eq_bind, Option.pure_def, Option.some_bind, Option.none_bind, reduceCtorEq,
      if_false, if_true, false_and, and_false, true_and, and_true, Bool.false_eq_true,
      not_false_eq_true, not_true_eq_false, ne_eq, List.nil_append, List.cons_append,
      Option.isNone_some, Option.isNone_none])

theorem Parser.parseScript_unclosed_invocation : ∀ fuel : Nat,
    Parser.parseScript fuel
        ⟨⟨"x=f(a",
          [⟨"x", .Identifier, 0, 1, 1⟩, ⟨"=", .Assign, 1, 1, 2⟩,
           ⟨"f", .Identifier, 2, 1, 3⟩, ⟨"(", .LeftParen, 3, 1, 4⟩,
           ⟨"a", .Identifier, 4, 1, 5⟩, ⟨"", .EndOfFile, 5, 1, 6⟩], false⟩, []⟩ = none := by
  intro fuel
  rcases fuel with _|_|_|_|_|_|_|_|_|_|_|fuel
  iterate 11 rfl
  rw [Parser.parseScript]
  repeat (first
    | rw [Parser.skipWhiteSpace_mk _ _ _ _ _ (by decide)]
    | rw [Parser.expect_mk _ _ _ _ _ _ _ _ (by decide) (by decide)]
    | rw [Parser.expect_recover _ _ _ _ _ _ _ _ _ (by decide) (by decide) (by decide) (by decide)]
    | rw [Parser.nextToken_mk _ _ _ _ (by decide)]
    | rw [Parser.expect_eq_none _ _ _ _ _ (by decide)]
    | simp only [Parser.currentToken_mk, Parser.nextToken_start, Parser.parseLiteralExpression,
      Option.bind_eq_bind, Option.pure_def, Option.some_bind, Option.none_bind, reduceCtorEq,
      if_false, if_true, false_and, and_false, true_and, and_true, Bool.false_eq_true,
      not_false_eq_true, not_true_eq_false, ne_eq, List.nil_append, List.cons_append,
      Option.isNone_some, Option.isNone_none])
  rw [Parser.parseScriptLoop]
  repeat (first
    | rw [Parser.skipWhiteSpace_mk _ _ _ _ _ (by decide)]
    | rw [Parser.expect_mk _ _ _ _ _ _ _ _ (by decide) (by decide)]
    | rw [Parser.expect_recover _ _ _ _ _ _ _ _ _ (by decide) (by decide) (by decide) (by decide)]
    | rw [Parser.nextToken_mk _ _ _ _ (by decide)]
    | rw [Parser.expect_eq_none _ _ _ _ _ (by decide)]
    | simp only [Parser.currentToken_mk, Parser.nextToken_start, Parser.parseLiteralExpression,
      Option.bind_eq_bind, Option.pure_def, Option.some_bind, Option.none_bind, reduceCtorEq,
      if_false, if_true, false_and, and_false, true_and, and_true, Bool.false_eq_true,
      not_false_eq_true, not_true_eq_false, ne_eq, List.nil_append, List.cons_append,
      Option.isNone_some, Option.isNone_none])
  rw [Parser.parseStatement]
  repeat (first
    | rw [Parser.skipWhiteSpace_mk _ _ _ _ _ (by decide)]
    | rw [Parser.expect_mk _ _ _ _ _ _ _ _ (by decide) (by decide)]
    | rw [Parser.expect_recover _ _ _ _ _ _ _ _ _ (by decide) (by decide) (by decide) (by decide)]
    | rw [Parser.nextToken_mk _ _ _ _ (by decide)]
    | rw [Parser.expect_eq_none _ _ _ _ _ (by decide)]
    | simp only [Parser.currentToken_mk, Parser.nextToken_start, Parser.parseLiteralExpression,
      Option.bind_eq_bind, Option.pure_def, Option.some_bind, Option.none_bind, reduceCtorEq,
      if_false, if_true, false_and, and_false, true_and, and_true, Bool.false_eq_true,
      not_false_eq_true, not_true_eq_false, ne_eq, List.nil_append, List.cons_append,
      Option.isNone_some, Option.isNone_none])
  rw [Parser.parseAssignStatement]
  repeat (first
    | rw [Parser.skipWhiteSpace_mk _ _ _ _ _ (by decide)]
    | rw [Parser.expect_mk _ _ _ _ _ _ _ _ (by decide) (by decide)]
    | rw [Parser.expect_recover _ _ _ _ _ _ _ _ _ (by decide) (by decide) (by decide) (by decide)]
    | rw [Parser.nextToken_mk _ _ _ _ (by decide)]
    | rw [Parser.expect_eq_none _ _ _ _ _ (by decide)]
    | simp only [Parser.currentToken_mk, Parser.nextToken_start, Parser.parseLiteralExpression,
      Option.bind_eq_bind, Option.pure_def, Option.some_bind, Option.none_bind, reduceCtorEq,
      if_false, if_true, false_and, and_false, true_and, and_true, Bool.false_eq_true,
      not_false_eq_true, not_true_eq_false, ne_eq, List.nil_append, List.cons_append,
      Option.isNone_some, Option.isNone_none])
  rw [Parser.parseExpression]
  repeat (first
    | rw [Parser.skipWhiteSpace_mk _ _ _ _ _ (by decide)]
    | rw [Parser.expect_mk _ _ _ _ _ _ _ _ (by decide) (by decide)]
    | rw [Parser.expect_recover _ _ _ _ _ _ _ _ _ (by decide) (by decide) (by decide) (by decide)]
    | rw [Parser.nextToken_mk _ _ _ _ (by decide)]
    | rw [Parser.expect_eq_none _ _ _ _ _ (by decide)]
    | simp only [Parser.currentToken_mk, Parser.nextToken_start, Parser.parseLiteralExpression,
      Option.bind_eq_bind, Option.pure_def, Option.some_bind, Option.none_bind, reduceCtorEq,
      if_false, if_true, false_and, and_false, true_and, and_true, Bool.false_eq_true,
      not_false_eq_true, not_true_eq_false, ne_eq, List.nil_append, List.cons_append,
      Option.isNone_some, Option.isNone_none])
  rw [Parser.parseIdentifierOrFunctionInvocationExpression]
  repeat (first
    | rw [Parser.skipWhiteSpace_mk _ _ _ _ _ (by decide)]
    | rw [Parser.expect_mk _ _ _ _ _ _ _ _ (by decide) (by decide)]
    | rw [Parser.expect_recover _ _ _ _ _ _ _ _ _ (by decide) (by decide) (by decide) (by decide)]
    | rw [Parser.nextToken_mk _ _ _ _ (by decide)]
    | rw [Parser.expect_eq_none _ _ _ _ _ (by decide)]
    | simp only [Parser.currentToken_mk, Parser.nextToken_start, Parser.parseLiteralExpression,
      Option.bind_eq_bind, Option.pure_def, Option.some_bind, Option.none_bind, reduceCtorEq,
      if_false, if_true, false_and, and_false, true_and, and_true, Bool.false_eq_true,
      not_false_eq_true, not_true_eq_false, ne_eq, List.nil_append, List.cons_append,
      Option.isNone_some, Option.isNone_none])
  rw [Parser.parseFunctionInvocationExpression]
  repeat (first
    | rw [Parser.skipWhiteSpace_mk _ _ _ _ _ (by decide)]
    | rw [Parser.expect_mk _ _ _ _ _ _ _ _ (by decide) (by decide)]
    | rw [Parser.expect_recover _ _ _ _ _ _ _ _ _ (by decide) (by decide) (by decide) (by decide)]
    | rw [Parser.nextToken_mk _ _ _ _ (by decide)]
    | rw [Parser.expect_eq_none _ _ _ _ _ (by decide)]
    | simp only [Parser.currentToken_mk, Parser.nextToken_start, Parser.parseLiteralExpression,
      Option.bind_eq_bind, Option.pure_def, Option.some_bind, Option.none_bind, reduceCtorEq,
      if_false, if_true, false_and, and_false, true_and, and_true, Bool.false_eq_true,
      not_false_eq_true, not_true_eq_false, ne_eq, List.nil_append, List.cons_append,
      Option.isNone_some, Option.isNone_none])
  rw [Parser.parseFunctionInvocationExpressionLoop]
  repeat (first
    | rw [Parser.skipWhiteSpace_mk _ _ _ _ _ (by decide)]
    | rw [Parser.expect_mk _ _ _ _ _ _ _ _ (by decide) (by decide)]
    | rw [Parser.expect_recover _ _ _ _ _ _ _ _ _ (by decide) (by decide) (by decide) (by decide)]
    | rw [Parser.nextToken_mk _ _ _ _ (by decide)]
    | rw [Parser.expect_eq_none _ _ _ _ _ (by decide)]
    | simp only [Parser.currentToken_mk, Parser.nextToken_start, Parser.parseLiteralExpression,
      Option.bind_eq_bind, Option.pure_def, Option.some_bind, Option.none_bind, reduceCtorEq,
      if_false, if_true, false_and, and_false, true_and, and_true, Bool.false_eq_true,
      not_false_eq_true, not_true_eq_false, ne_eq, List.nil_append, List.cons_append,
      Option.isNone_some, Option.isNone_none])
  rw [Parser.parseExpression]
  repeat (first
    | rw [Parser.skipWhiteSpace_mk _ _ _ _ _ (by decide)]
    | rw [Parser.expect_mk _ _ _ _ _ _ _ _ (by decide) (by decide)]
    | rw [Parser.expect_recover _ _ _ _ _ _ _ _ _ (by decide) (by decide) (by decide) (by decide)]
    | rw [Parser.nextToken_mk _ _ _ _ (by decide)]
    | rw [Parser.expect_eq_none _ _ _ _ _ (by decide)]
    | simp only [Parser.currentToken_mk, Parser.nextToken_start, Parser.parseLiteralExpression,
      Option.bind_eq_bind, Option.pure_def, Option.some_bind, Option.none_bind, reduceCtorEq,
      if_false, if_true, false_and, and_false, true_and, and_true, Bool.false_eq_true,
      not_false_eq_true, not_true_eq_false, ne_eq, List.nil_append, List.cons_append,
      Option.isNone_some, Option.isNone_none])
  rw [Parser.parseIdentifierOrFunctionInvocationExpression]
  repeat (first
    | rw [Parser.skipWhiteSpace_mk _ _ _ _ _ (by decide)]
    | rw [Parser.expect_mk _ _ _ _ _ _ _ _ (by decide) (by decide)]
    | rw [Parser.expect_recover _ _ _ _ _ _ _ _ _ (by decide) (by decide) (by decide) (by decide)]
    | rw [Parser.nextToken_mk _ _ _ _ (by decide)]
    | rw [Parser.expect_eq_none _ _ _ _ _ (by decide)]
    | simp only [Parser.currentToken_mk, Parser.nextToken_start, Parser.parseLiteralExpression,
      Option.bind_eq_bind, Option.pure_def, Option.some_bind, Option.none_bind, reduceCtorEq,
      if_false, if_true, false_and, and_false, true_and, and_true, Bool.false_eq_true,
      not_false_eq_true, not_true_eq_false, ne_eq, List.nil_append, List.cons_append,
      Option.isNone_some, Option.isNone_none])
  rw [Parser.parseFunctionInvocationExpressionLoop]
  repeat (first
    | rw [Parser.skipWhiteSpace_mk _ _ _ _ _ (by decide)]
    | rw [Parser.expect_mk _ _ _ _ _ _ _ _ (by decide) (by decide)]
    | rw [Parser.expect_recover _ _ _ _ _ _ _ _ _ (by decide) (by decide) (by decide) (by decide)]
    | rw [Parser.nextToken_mk _ _ _ _ (by decide)]
    | rw [Parser.expect_eq_none _ _ _ _ _ (by decide)]
    | simp only [Parser.currentToken_mk, Parser.nextToken_start, Parser.parseLiteralExpression,
      Option.bind_eq_bind, Option.pure_def, Option.some_bind, Option.none_bind, reduceCtorEq,
      if_false, if_true, false_and, and_false, true_and, and_true, Bool.false_eq_true,
      not_false_eq_true, not_true_eq_false, ne_eq, List.nil_append, List.cons_append,
      Option.isNone_some, Option.isNone_none])

set_option maxHeartbeats 1000000 in
theorem Parser.parseScript_dangling_comma : ∀ fuel : Nat,
    Parser.parseScript fuel
        ⟨⟨"x=f(a,);",
          [⟨"x", .Identifier, 0, 1, 1⟩, ⟨"=", .Assign, 1, 1, 2⟩,
           ⟨"f", .Identifier, 2, 1, 3⟩, ⟨"(", .LeftParen, 3, 1, 4⟩,
           ⟨"a", .Identifier, 4, 1, 5⟩, ⟨",", .Comma, 5, 1, 6⟩,
           ⟨")", .RightParen, 6, 1, 7⟩, ⟨";", .SemiColon, 7, 1, 8⟩,
           ⟨"", .EndOfFile, 8, 1, 9⟩], false⟩, []⟩ = none := by
  intro fuel
  rcases fuel with _|_|_|_|_|_|_|_|_|_|_|_|_|fuel
  iterate 13 rfl
  rw [Parser.parseScript]
  repeat (first
    | rw [Parser.skipWhiteSpace_mk _ _ _ _ _ (by decide)]
    | rw [Parser.expect_mk _ _ _ _ _ _ _ _ (by decide) (by decide)]
    | rw [Parser.expect_recover _ _ _ _ _ _ _ _ _ (by decide) (by decide) (by decide) (by decide)]
    | rw [Parser.nextToken_mk _ _ _ _ (by decide)]
    | rw [Parser.expect_eq_none _ _ _ _ _ (by decide)]
    | simp only [Parser.currentToken_mk, Parser.nextToken_start, Parser.parseLiteralExpression,
      Option.bind_eq_bind, Option.pure_def, Option.some_bind, Option.none_bind, reduceCtorEq,
      if_false, if_true, false_and, and_false, true_and, and_true, Bool.false_eq_true,
      not_false_eq_true, not_true_eq_false, ne_eq, List.nil_append, List.cons_append,
      Option.isNone_some, Option.isNone_none])
  rw [Parser.parseScriptLoop]
  repeat (first
    | rw [Parser.skipWhiteSpace_mk _ _ _ _ _ (by decide)]
    | rw [Parser.expect_mk _ _ _ _ _ _ _ _ (by decide) (by decide)]
    | rw [Parser.expect_recover _ _ _ _ _ _ _ _ _ (by decide) (by decide) (by decide) (by decide)]
    | rw [Parser.nextToken_mk _ _ _ _ (by decide)]
    | rw [Parser.expect_eq_none _ _ _ _ _ (by decide)]
    | simp only [Parser.currentToken_mk, Parser.nextToken_start, Parser.parseLiteralExpression,
      Option.bind_eq_bind, Option.pure_def, Option.some_bind, Option.none_bind, reduceCtorEq,
      if_false, if_true, false_and, and_false, true_and, and_true, Bool.false_eq_true,
      not_false_eq_true, not_true_eq_false, ne_eq, List.nil_append, List.cons_append,
      Option.isNone_some, Option.isNone_none])
  rw [Parser.parseStatement]
  repeat (first
    | rw [Parser.skipWhiteSpace_mk _ _ _ _ _ (by decide)]
    | rw [Parser.expect_mk _ _ _ _ _ _ _ _ (by decide) (by decide)]
    | rw [Parser.expect_recover _ _ _ _ _ _ _ _ _ (by decide) (by decide) (by decide) (by decide)]
    | rw [Parser.nextToken_mk _ _ _ _ (by decide)]
    | rw [Parser.expect_eq_none _ _ _ _ _ (by decide)]
    | simp only [Parser.currentToken_mk, Parser.nextToken_start, Parser.parseLiteralExpression,
      Option.bind_eq_bind, Option.pure_def, Option.some_bind, Option.none_bind, reduceCtorEq,
      if_false, if_true, false_and, and_false, true_and, and_true, Bool.false_eq_true,
      not_false_eq_true, not_true_eq_false, ne_eq, List.nil_append, List.cons_append,
      Option.isNone_some, Option.isNone_none])
  rw [Parser.parseAssignStatement]
  repeat (first
    | rw [Parser.skipWhiteSpace_mk _ _ _ _ _ (by decide)]
    | rw [Parser.expect_mk _ _ _ _ _ _ _ _ (by decide) (by decide)]
    | rw [Parser.expect_recover _ _ _ _ _ _ _ _ _ (by decide) (by decide) (by decide) (by decide)]
    | rw [Parser.nextToken_mk _ _ _ _ (by decide)]
    | rw [Parser.expect_eq_none _ _ _ _ _ (by decide)]
    | simp only [Parser.currentToken_mk, Parser.nextToken_start, Parser.parseLiteralExpression,
      Option.bind_eq_bind, Option.pure_def, Option.some_bind, Option.none_bind, reduceCtorEq,
      if_false, if_true, false_and, and_false, true_and, and_true, Bool.false_eq_true,
      not_false_eq_true, not_true_eq_false, ne_eq, List.nil_append, List.cons_append,
      Option.isNone_some, Option.isNone_none])
  rw [Parser.parseExpression]
  repeat (first
    | rw [Parser.skipWhiteSpace_mk _ _ _ _ _ (by decide)]
    | rw [Parser.expect_mk _ _ _ _ _ _ _ _ (by decide) (by decide)]
    | rw [Parser.expect_recover _ _ _ _ _ _ _ _ _ (by decide) (by decide) (by decide) (by decide)]
    | rw [Parser.nextToken_mk _ _ _ _ (by decide)]
    | rw [Parser.expect_eq_none _ _ _ _ _ (by decide)]
    | simp only [Parser.currentToken_mk, Parser.nextToken_start, Parser.parseLiteralExpression,
      Option.bind_eq_bind, Option.pure_def, Option.some_bind, Option.none_bind, reduceCtorEq,
      if_false, if_true, false_and, and_false, true_and, and_true, Bool.false_eq_true,
      not_false_eq_true, not_true_eq_false, ne_eq, List.nil_append, List.cons_append,
      Option.isNone_some, Option.isNone_none])
  rw [Parser.parseIdentifierOrFunctionInvocationExpression]
  repeat (first
    | rw [Parser.skipWhiteSpace_mk _ _ _ _ _ (by decide)]
    | rw [Parser.expect_mk _ _ _ _ _ _ _ _ (by decide) (by decide)]
    | rw [Parser.expect_recover _ _ _ _ _ _ _ _ _ (by decide) (by decide) (by decide) (by decide)]
    | rw [Parser.nextToken_mk _ _ _ _ (by decide)]
    | rw [Parser.expect_eq_none _ _ _ _ _ (by decide)]
    | simp only [Parser.currentToken_mk, Parser.nextToken_start, Parser.parseLiteralExpression,
      Option.bind_eq_bind, Option.pure_def, Option.some_bind, Option.none_bind, reduceCtorEq,
      if_false, if_true, false_and, and_false, true_and, and_true, Bool.false_eq_true,
      not_false_eq_true, not_true_eq_false, ne_eq, List.nil_append, List.cons_append,
      Option.isNone_some, Option.isNone_none])
  rw [Parser.parseFunctionInvocationExpression]
  repeat (first
    | rw [Parser.skipWhiteSpace_mk _ _ _ _ _ (by decide)]
    | rw [Parser.expect_mk _ _ _ _ _ _ _ _ (by decide) (by decide)]
    | rw [Parser.expect_recover _ _ _ _ _ _ _ _ _ (by decide) (by decide) (by decide) (by decide)]
    | rw [Parser.nextToken_mk _ _ _ _ (by decide)]
    | rw [Parser.expect_eq_none _ _ _ _ _ (by decide)]
    | simp only [Parser.currentToken_mk, Parser.nextToken_start, Parser.parseLiteralExpression,
      Option.bind_eq_bind, Option.pure_def, Option.some_bind, Option.none_bind, reduceCtorEq,
      if_false, if_true, false_and, and_false, true_and, and_true, Bool.false_eq_true,
      not_false_eq_true, not_true_eq_false, ne_eq, List.nil_append, List.cons_append,
      Option.isNone_some, Option.isNone_none])
  rw [Parser.parseFunctionInvocationExpressionLoop]
  repeat (first
    | rw [Parser.skipWhiteSpace_mk _ _ _ _ _ (by decide)]
    | rw [Parser.expect_mk _ _ _ _ _ _ _ _ (by decide) (by decide)]
    | rw [Parser.expect_recover _ _ _ _ _ _ _ _ _ (by decide) (by decide) (by decide) (by decide)]
    | rw [Parser.nextToken_mk _ _ _ _ (by decide)]
    | rw [Parser.expect_eq_none _ _ _ _ _ (by decide)]
    | simp only [Parser.currentToken_mk, Parser.nextToken_start, Parser.parseLiteralExpression,
      Option.bind_eq_bind, Option.pure_def, Option.some_bind, Option.none_bind, reduceCtorEq,
      if_false, if_true, false_and, and_false, true_and, and_true, Bool.false_eq_true,
      not_false_eq_true, not_true_eq_false, ne_eq, List.nil_append, List.cons_append,
      Option.isNone_some, Option.isNone_none])
  rw [Parser.parseExpression]
  repeat (first
    | rw [Parser.skipWhiteSpace_mk _ _ _ _ _ (by decide)]
    | rw [Parser.expect_mk _ _ _ _ _ _ _ _ (by decide) (by decide)]
    | rw [Parser.expect_recover _ _ _ _ _ _ _ _ _ (by decide) (by decide) (by decide) (by decide)]
    | rw [Parser.nextToken_mk _ _ _ _ (by decide)]
    | rw [Parser.expect_eq_none _ _ _ _ _ (by decide)]
    | simp only [Parser.currentToken_mk, Parser.nextToken_start, Parser.parseLiteralExpression,
      Option.bind_eq_bind, Option.pure_def, Option.some_bind, Option.none_bind, reduceCtorEq,
      if_false, if_true, false_and, and_false, true_and, and_true, Bool.false_eq_true,
      not_false_eq_true, not_true_eq_false, ne_eq, List.nil_append, List.cons_append,
      Option.isNone_some, Option.isNone_none])
  rw [Parser.parseIdentifierOrFunctionInvocationExpression]
  repeat (first
    | rw [Parser.skipWhiteSpace_mk _ _ _ _ _ (by decide)]
    | rw [Parser.expect_mk _ _ _ _ _ _ _ _ (by decide) (by decide)]
    | rw [Parser.expect_recover _ _ _ _ _ _ _ _ _ (by decide) (by decide) (by decide) (by decide)]
    | rw [Parser.nextToken_mk _ _ _ _ (by decide)]
    | rw [Parser.expect_eq_none _ _ _ _ _ (by decide)]
    | simp only [Parser.currentToken_mk, Parser.nextToken_start, Parser.parseLiteralExpression,
      Option.bind_eq_bind, Option.pure_def, Option.some_bind, Option.none_bind, reduceCtorEq,
      if_false, if_true, false_and, and_false, true_and, and_true, Bool.false_eq_true,
      not_false_eq_true, not_true_eq_false, ne_eq, List.nil_append, List.cons_append,
      Option.isNone_some, Option.isNone_none])
  rw [Parser.parseFunctionInvocationExpressionLoop]
  repeat (first
    | rw [Parser.skipWhiteSpace_mk _ _ _ _ _ (by decide)]
    | rw [Parser.expect_mk _ _ _ _ _ _ _ _ (by decide) (by decide)]
    | rw [Parser.expect_recover _ _ _ _ _ _ _ _ _ (by decide) (by decide) (by decide) (by decide)]
    | rw [Parser.nextToken_mk _ _ _ _ (by decide)]
    | rw [Parser.expect_eq_none _ _ _ _ _ (by decide)]
    | simp only [Parser.currentToken_mk, Parser.nextToken_start, Parser.parseLiteralExpression,
      Option.bind_eq_bind, Option.pure_def, Option.some_bind, Option.none_bind, reduceCtorEq,
      if_false, if_true, false_and, and_false, true_and, and_true, Bool.false_eq_true,
      not_false_eq_true, not_true_eq_false, ne_eq, List.nil_append, List.cons_append,
      Option.isNone_some, Option.isNone_none])
  rw [Parser.parseExpression]
  repeat (first
    | rw [Parser.skipWhiteSpace_mk _ _ _ _ _ (by decide)]
    | rw [Parser.expect_mk _ _ _ _ _ _ _ _ (by decide) (by decide)]
    | rw [Parser.expect_recover _ _ _ _ _ _ _ _ _ (by decide) (by decide) (by decide) (by decide)]
    | rw [Parser.nextToken_mk _ _ _ _ (by decide)]
    | rw [Parser.expect_eq_none _ _ _ _ _ (by decide)]
    | simp only [Parser.currentToken_mk, Parser.nextToken_start, Parser.parseLiteralExpression,
      Option.bind_eq_bind, Option.pure_def, Option.some_bind, Option.none_bind, reduceCtorEq,
      if_false, if_true, false_and, and_false, true_and, and_true, Bool.false_eq_true,
      not_false_eq_true, not_true_eq_false, ne_eq, List.nil_append, List.cons_append,
      Option.isNone_some, Option.isNone_none])
  rw [Parser.parseIdentifierOrFunctionInvocationExpression]
  repeat (first
    | rw [Parser.skipWhiteSpace_mk _ _ _ _ _ (by decide)]
    | rw [Parser.expect_mk _ _ _ _ _ _ _ _ (by decide) (by decide)]
    | rw [Parser.expect_recover _ _ _ _ _ _ _ _ _ (by decide) (by decide) (by decide) (by decide)]
    | rw [Parser.nextToken_mk _ _ _ _ (by decide)]
    | rw [Parser.expect_eq_none _ _ _ _ _ (by decide)]
    | simp only [Parser.currentToken_mk, Parser.nextToken_start, Parser.parseLiteralExpression,
      Option.bind_eq_bind, Option.pure_def, Option.some_bind, Option.none_bind, reduceCtorEq,
      if_false, if_true, false_and, and_false, true_and, and_true, Bool.false_eq_true,
      not_false_eq_true, not_true_eq_false, ne_eq, List.nil_append, List.cons_append,
      Option.isNone_some, Option.isNone_none])

/-- C5: `parseScript` never returns, whatever the fuel, on the tokens of `x=f(a`
(end of input before the closing parenthesis) and on the tokens of `x=f(a,);`
(a comma right before the closing parenthesis): `expect` does not leave its loop
once the current token is the end of file. -/
theorem C5_parseScript_never_returns :
    (∀ fuel : Nat,
      Parser.parseScript fuel
        ⟨⟨"x=f(a",
          [⟨"x", .Identifier, 0, 1, 1⟩, ⟨"=", .Assign, 1, 1, 2⟩,
           ⟨"f", .Identifier, 2, 1, 3⟩, ⟨"(", .LeftParen, 3, 1, 4⟩,
           ⟨"a", .Identifier, 4, 1, 5⟩, ⟨"", .EndOfFile, 5, 1, 6⟩], false⟩, []⟩ = none) ∧
    (∀ fuel : Nat,
      Parser.parseScript fuel
        ⟨⟨"x=f(a,);",
          [⟨"x", .Identifier, 0, 1, 1⟩, ⟨"=", .Assign, 1, 1, 2⟩,
           ⟨"f", .Identifier, 2, 1, 3⟩, ⟨"(", .LeftParen, 3, 1, 4⟩,
           ⟨"a", .Identifier, 4, 1, 5⟩, ⟨",", .Comma, 5, 1, 6⟩,
           ⟨")", .RightParen, 6, 1, 7⟩, ⟨";", .SemiColon, 7, 1, 8⟩,
           ⟨"", .EndOfFile, 8, 1, 9⟩], false⟩, []⟩ = none) := by
  exact ⟨Parser.parseScript_unclosed_invocation, Parser.parseScript_dangling_comma⟩

/-- C6: on the tokens of `{a:1,b:2}` followed by the end of file,
`parseObjectDeclarationExpression` never returns, whatever the fuel: the comma
after the first pair is met by `expect` for an identifier (one diagnostic), and
after the second pair the loop tests for `RightBracket` instead of `RightCurly`,
so `expect` for a comma runs at `}`, skips to the end of file and stays there. -/
theorem C6_object_two_pairs_never_returns : ∀ fuel : Nat,
    Parser.parseObjectDeclarationExpression fuel
        ⟨⟨"\x7ba:1,b:2\x7d",
          [⟨"\x7b", .LeftCurly, 0, 1, 1⟩, ⟨"a", .Identifier, 1, 1, 2⟩,
           ⟨":", .Colon, 2, 1, 3⟩, ⟨"1", .IntegerLiteral, 3, 1, 4⟩,
           ⟨",", .Comma, 4, 1, 5⟩, ⟨"b", .Identifier, 5, 1, 6⟩,
           ⟨":", .Colon, 6, 1, 7⟩, ⟨"2", .IntegerLiteral, 7, 1, 8⟩,
           ⟨"\x7d", .RightCurly, 8, 1, 9⟩, ⟨"", .EndOfFile, 9, 1, 10⟩], true⟩, []⟩ = none := by
  intro fuel
  rcases fuel with _|_|_|_|_|fuel
  iterate 5 rfl
  rw [Parser.parseObjectDeclarationExpression]
  repeat (first
    | rw [Parser.skipWhiteSpace_mk _ _ _ _ _ (by decide)]
    | rw [Parser.expect_mk _ _ _ _ _ _ _ _ (by decide) (by decide)]
    | rw [Parser.expect_recover _ _ _ _ _ _ _ _ _ (by decide) (by decide) (by decide) (by decide)]
    | rw [Parser.nextToken_mk _ _ _ _ (by decide)]
    | rw [Parser.expect_eq_none _ _ _ _ _ (by decide)]
    | simp only [Parser.currentToken_mk, Parser.nextToken_start, Parser.parseLiteralExpression,
      Option.bind_eq_bind, Option.pure_def, Option.some_bind, Option.none_bind, reduceCtorEq,
      if_false, if_true, false_and, and_false, true_and, and_true, Bool.false_eq_true,
      not_false_eq_true, not_true_eq_false, ne_eq, List.nil_append, List.cons_append,
      Option.isNone_some, Option.isNone_none])
  rw [Parser.parseObjectDeclarationExpressionLoop]
  repeat (first
    | rw [Parser.skipWhiteSpace_mk _ _ _ _ _ (by decide)]
    | rw [Parser.expect_mk _ _ _ _ _ _ _ _ (by decide) (by decide)]
    | rw [Parser.expect_recover _ _ _ _ _ _ _ _ _ (by decide) (by decide) (by decide) (by decide)]
    | rw [Parser.nextToken_mk _ _ _ _ (by decide)]
    | rw [Parser.expect_eq_none _ _ _ _ _ (by decide)]
    | simp only [Parser.currentToken_mk, Parser.nextToken_start, Parser.parseLiteralExpression,
      Option.bind_eq_bind, Option.pure_def, Option.some_bind, Option.none_bind, reduceCtorEq,
      if_false, if_true, false_and, and_false, true_and, and_true, Bool.false_eq_true,
      not_false_eq_true, not_true_eq_false, ne_eq, List.nil_append, List.cons_append,
      Option.isNone_some, Option.isNone_none])
  rw [Parser.parseExpression]
  repeat (first
    | rw [Parser.skipWhiteSpace_mk _ _ _ _ _ (by decide)]
    | rw [Parser.expect_mk _ _ _ _ _ _ _ _ (by decide) (by decide)]
    | rw [Parser.expect_recover _ _ _ _ _ _ _ _ _ (by decide) (by decide) (by decide) (by decide)]
    | rw [Parser.nextToken_mk _ _ _ _ (by decide)]
    | rw [Parser.expect_eq_none _ _ _ _ _ (by decide)]
    | simp only [Parser.currentToken_mk, Parser.nextToken_start, Parser.parseLiteralExpression,
      Option.bind_eq_bind, Option.pure_def, Option.some_bind, Option.none_bind, reduceCtorEq,
      if_false, if_true, false_and, and_false, true_and, and_true, Bool.false_eq_true,
      not_false_eq_true, not_true_eq_false, ne_eq, List.nil_append, List.cons_append,
      Option.isNone_some, Option.isNone_none])
  rw [Parser.parseObjectDeclarationExpressionLoop]
  repeat (first
    | rw [Parser.skipWhiteSpace_mk _ _ _ _ _ (by decide)]
    | rw [Parser.expect_mk _ _ _ _ _ _ _ _ (by decide) (by decide)]
    | rw [Parser.expect_recover _ _ _ _ _ _ _ _ _ (by decide) (by decide) (by decide) (by decide)]
    | rw [Parser.nextToken_mk _ _ _ _ (by decide)]
    | rw [Parser.expect_eq_none _ _ _ _ _ (by decide)]
    | simp only [Parser.currentToken_mk, Parser.nextToken_start, Parser.parseLiteralExpression,
      Option.bind_eq_bind, Option.pure_def, Option.some_bind, Option.none_bind, reduceCtorEq,
      if_false, if_true, false_and, and_false, true_and, and_true, Bool.false_eq_true,
      not_false_eq_true, not_true_eq_false, ne_eq, List.nil_append, List.cons_append,
      Option.isNone_some, Option.isNone_none])
  rw [Parser.parseExpression]
  repeat (first
    | rw [Parser.skipWhiteSpace_mk _ _ _ _ _ (by decide)]
    | rw [Parser.expect_mk _ _ _ _ _ _ _ _ (by decide) (by decide)]
    | rw [Parser.expect_recover _ _ _ _ _ _ _ _ _ (by decide) (by decide) (by decide) (by decide)]
    | rw [Parser.nextToken_mk _ _ _ _ (by decide)]
    | rw [Parser.expect_eq_none _ _ _ _ _ (by decide)]
    | simp only [Parser.currentToken_mk, Parser.nextToken_start, Parser.parseLiteralExpression,
      Option.bind_eq_bind, Option.pure_def, Option.some_bind, Option.none_bind, reduceCtorEq,
      if_false, if_true, false_and, and_false, true_and, and_true, Bool.false_eq_true,
      not_false_eq_true, not_true_eq_false, ne_eq, List.nil_append, List.cons_append,
      Option.isNone_some, Option.isNone_none])

/-- C7: on the tokens of `function(a,b)return;` the function declaration parser
returns, for every fuel of at least 5, no node (`std::nullopt`) and writes one
diagnostic, reported at the comma between the two parameters. -/
theorem C7_declaration_two_parameters : ∀ fuel : Nat,
    Parser.parseFunctionDeclarationExpression (fuel + 5)
        ⟨⟨"function(a,b)return;",
          [⟨"function", .Function, 0, 1, 1⟩, ⟨"(", .LeftParen, 8, 1, 9⟩,
           ⟨"a", .Identifier, 9, 1, 10⟩, ⟨",", .Comma, 10, 1, 11⟩,
           ⟨"b", .Identifier, 11, 1, 12⟩, ⟨")", .RightParen, 12, 1, 13⟩,
           ⟨"return", .Return, 13, 1, 14⟩, ⟨";", .SemiColon, 19, 1, 20⟩,
           ⟨"", .EndOfFile, 20, 1, 21⟩], true⟩, []⟩
      = some (none,
          ⟨⟨"function(a,b)return;", [⟨"", .EndOfFile, 20, 1, 21⟩], true⟩,
           [reportErrorText "function(a,b)return;" ⟨",", .Comma, 10, 1, 11⟩
              ("Expected identifier as parameter of function definition"
                ++ ", but was type Commawith value ','.")]⟩) := by
  intro fuel
  rw [Parser.parseFunctionDeclarationExpression]
  repeat (first
    | rw [Parser.skipWhiteSpace_mk _ _ _ _ _ (by decide)]
    | rw [Parser.expect_mk _ _ _ _ _ _ _ _ (by decide) (by decide)]
    | rw [Parser.expect_recover _ _ _ _ _ _ _ _ _ (by decide) (by decide) (by decide) (by decide)]
    | rw [Parser.nextToken_mk _ _ _ _ (by decide)]
    | rw [Parser.expect_eq_none _ _ _ _ _ (by decide)]
    | simp only [Parser.currentToken_mk, Parser.nextToken_start, Parser.parseLiteralExpression,
      Option.bind_eq_bind, Option.pure_def, Option.some_bind, Option.none_bind, reduceCtorEq,
      if_false, if_true, false_and, and_false, true_and, and_true, Bool.false_eq_true,
      not_false_eq_true, not_true_eq_false, ne_eq, List.nil_append, List.cons_append,
      Option.isNone_some, Option.isNone_none])
  rw [Parser.parseFunctionDeclarationExpressionLoop]
  repeat (first
    | rw [Parser.skipWhiteSpace_mk _ _ _ _ _ (by decide)]
    | rw [Parser.expect_mk _ _ _ _ _ _ _ _ (by decide) (by decide)]
    | rw [Parser.expect_recover _ _ _ _ _ _ _ _ _ (by decide) (by decide) (by decide) (by decide)]
    | rw [Parser.nextToken_mk _ _ _ _ (by decide)]
    | rw [Parser.expect_eq_none _ _ _ _ _ (by decide)]
    | simp only [Parser.currentToken_mk, Parser.nextToken_start, Parser.parseLiteralExpression,
      Option.bind_eq_bind, Option.pure_def, Option.some_bind, Option.none_bind, reduceCtorEq,
      if_false, if_true, false_and, and_false, true_and, and_true, Bool.false_eq_true,
      not_false_eq_true, not_true_eq_false, ne_eq, List.nil_append, List.cons_append,
      Option.isNone_some, Option.isNone_none])
  rw [Parser.parseFunctionDeclarationExpressionLoop]
  repeat (first
    | rw [Parser.skipWhiteSpace_mk _ _ _ _ _ (by decide)]
    | rw [Parser.expect_mk _ _ _ _ _ _ _ _ (by decide) (by decide)]
    | rw [Parser.expect_recover _ _ _ _ _ _ _ _ _ (by decide) (by decide) (by decide) (by decide)]
    | rw [Parser.nextToken_mk _ _ _ _ (by decide)]
    | rw [Parser.expect_eq_none _ _ _ _ _ (by decide)]
    | simp only [Parser.currentToken_mk, Parser.nextToken_start, Parser.parseLiteralExpression,
      Option.bind_eq_bind, Option.pure_def, Option.some_bind, Option.none_bind, reduceCtorEq,
      if_false, if_true, false_and, and_false, true_and, and_true, Bool.false_eq_true,
      not_false_eq_true, not_true_eq_false, ne_eq, List.nil_append, List.cons_append,
      Option.isNone_some, Option.isNone_none])
  rw [Parser.parseStatement]
  repeat (first
    | rw [Parser.skipWhiteSpace_mk _ _ _ _ _ (by decide)]
    | rw [Parser.expect_mk _ _ _ _ _ _ _ _ (by decide) (by decide)]
    | rw [Parser.expect_recover _ _ _ _ _ _ _ _ _ (by decide) (by decide) (by decide) (by decide)]
    | rw [Parser.nextToken_mk _ _ _ _ (by decide)]
    | rw [Parser.expect_eq_none _ _ _ _ _ (by decide)]
    | simp only [Parser.currentToken_mk, Parser.nextToken_start, Parser.parseLiteralExpression,
      Option.bind_eq_bind, Option.pure_def, Option.some_bind, Option.none_bind, reduceCtorEq,
      if_false, if_true, false_and, and_false, true_and, and_true, Bool.false_eq_true,
      not_false_eq_true, not_true_eq_false, ne_eq, List.nil_append, List.cons_append,
      Option.isNone_some, Option.isNone_none])
  rw [Parser.parseReturnStatement]
  repeat (first
    | rw [Parser.skipWhiteSpace_mk _ _ _ _ _ (by decide)]
    | rw [Parser.expect_mk _ _ _ _ _ _ _ _ (by decide) (by decide)]
    | rw [Parser.expect_recover _ _ _ _ _ _ _ _ _ (by decide) (by decide) (by decide) (by decide)]
    | rw [Parser.nextToken_mk _ _ _ _ (by decide)]
    | rw [Parser.expect_eq_none _ _ _ _ _ (by decide)]
    | simp only [Parser.currentToken_mk, Parser.nextToken_start, Parser.parseLiteralExpression,
      Option.bind_eq_bind, Option.pure_def, Option.some_bind, Option.none_bind, reduceCtorEq,
      if_false, if_true, false_and, and_false, true_and, and_true, Bool.false_eq_true,
      not_false_eq_true, not_true_eq_false, ne_eq, List.nil_append, List.cons_append,
      Option.isNone_some, Option.isNone_none])
  rfl

/-- C8: for every identifier token `i` and literal token `l`, `parseScript` on the
stream `[Var, WhiteSpace, i, Assign, l, SemiColon, EndOfFile]` returns, for every
fuel of at least 4, the script with the single statement `Declare i (Literal l)`,
leaves the cursor on the end-of-file token and writes no diagnostic. -/
theorem C8_parseScript_declare (reader : String) (out : List String)
    (v w i a l s e : Token)
    (hv : v.tokenType = TokenType.Var) (hw : w.tokenType = TokenType.WhiteSpace)
    (hi : i.tokenType = TokenType.Identifier) (ha : a.tokenType = TokenType.Assign)
    (hl : l.tokenType = TokenType.BooleanLiteral ∨ l.tokenType = TokenType.StringLiteral ∨
      l.tokenType = TokenType.IntegerLiteral ∨ l.tokenType = TokenType.FloatLiteral ∨
      l.tokenType = TokenType.UndefinedLiteral)
    (hs : s.tokenType = TokenType.SemiColon) (he : e.tokenType = TokenType.EndOfFile)
    (fuel : Nat) (hfuel : 4 ≤ fuel) :
    Parser.parseScript fuel ⟨⟨reader, [v, w, i, a, l, s, e], false⟩, out⟩
      = some (some ⟨[Statement.Declare i (Expression.Literal l)]⟩,
          ⟨⟨reader, [e], true⟩, out⟩) := by
  obtain ⟨m, rfl⟩ : ∃ m, fuel = m + 4 := ⟨fuel - 4, by omega⟩
  have hen : e.isNewLine = false := by simp [Token.isNewLine, he]
  have hstart : Parser.nextToken ⟨⟨reader, [v, w, i, a, l, s, e], false⟩, out⟩
      = ⟨⟨reader, [v, w, i, a, l, s, e], true⟩, out⟩ := rfl
  rw [Parser.parseScript, hstart]
  simp only [Option.bind_eq_bind, Option.pure_def]
  rw [Parser.parseScriptLoop,
    Parser.skipWhiteSpace_of_not_isNewLine _ (by simp [Token.isNewLine, hv])]
  simp only [Parser.currentToken_mk, hv, Option.bind_eq_bind, Option.pure_def]
  rw [if_neg (by decide),
    Parser.parseStatement_declare_literal _ _ _ _ _ _ _ _ _ _ _ hv hw hi ha hl hs hen]
  simp only [Option.some_bind]
  rw [Parser.parseScriptLoop, Parser.skipWhiteSpace_of_not_isNewLine _ (by simpa using hen)]
  simp [he]

/-- Witness of C8 on the tokens of `var x=1;`. -/
theorem C8_parseScript_declare_witness :
    Parser.parseScript 4
        ⟨⟨"var x=1;",
          [⟨"var", TokenType.Var, 0, 1, 1⟩, ⟨" ", TokenType.WhiteSpace, 3, 1, 4⟩,
           ⟨"x", TokenType.Identifier, 4, 1, 5⟩, ⟨"=", TokenType.Assign, 5, 1, 6⟩,
           ⟨"1", TokenType.IntegerLiteral, 6, 1, 7⟩, ⟨";", TokenType.SemiColon, 7, 1, 8⟩,
           ⟨"", TokenType.EndOfFile, 8, 1, 9⟩], false⟩, []⟩
      = some (some ⟨[Statement.Declare ⟨"x", TokenType.Identifier, 4, 1, 5⟩
            (Expression.Literal ⟨"1", TokenType.IntegerLiteral, 6, 1, 7⟩)]⟩,
          ⟨⟨"var x=1;", [⟨"", TokenType.EndOfFile, 8, 1, 9⟩], true⟩, []⟩) :=
  C8_parseScript_declare _ _ _ _ _ _ _ _ _ rfl rfl rfl rfl (Or.inr (Or.inr (Or.inl rfl))) rfl
    rfl 4 (Nat.le_refl 4)

theorem reportErrorArrowLoop_data (n : Nat) :
    ∀ (i : Nat) (arrow : String), 3 ≤ i →
      (reportErrorArrowLoop n i arrow).data = arrow.data ++ List.replicate n '~' := by
  induction n with
  | zero => intro i arrow _; simp [reportErrorArrowLoop]
  | succ n ih =>
    intro i arrow hi
    have h2 : i ≠ 2 := by omega
    rw [reportErrorArrowLoop, if_neg h2, ih (i + 1) _ (by omega)]
    simp [List.replicate_succ]

/-- C9: for every column `c`, the caret line built by `Parser::reportError` starts
with `^`; for `c > 2` the caret is followed by one space and `c - 3` tildes, and
for `c ≤ 2` by nothing.  The caret is at position 0 whatever the column is, and
the padding comes after it. -/
theorem C9_caret_is_first (c : Nat) :
    (reportErrorArrow c).data
      = '^' :: (if c ≤ 2 then [] else ' ' :: List.replicate (c - 3) '~') := by
  unfold reportErrorArrow
  by_cases hc : c ≤ 2
  · have h0 : c - 2 = 0 := by omega
    rw [h0, if_pos hc]
    rfl
  · obtain ⟨k, rfl⟩ : ∃ k, c = k + 3 := ⟨c - 3, by omega⟩
    have h1 : k + 3 - 2 = k + 1 := by omega
    rw [h1, if_neg hc, reportErrorArrowLoop, if_pos rfl, reportErrorArrowLoop_data k 3 _ (by omega)]
    simp

theorem SemanticAnalyzerRun.onEnterLiteralExpressionAstNode_of_valid
    (stollThrows stodThrows : String → Bool) (run : SemanticAnalyzerRun) (l : Token)
    (h : (l.tokenType = TokenType.IntegerLiteral →
        stollThrows l.value = false ∧ stodThrows l.value = false) ∧
      (l.tokenType = TokenType.FloatLiteral → stodThrows l.value = false)) :
    run.onEnterLiteralExpressionAstNode stollThrows stodThrows l = run := by
  unfold SemanticAnalyzerRun.onEnterLiteralExpressionAstNode
  split
  · next hi => simp [(h.1 hi).1, (h.1 hi).2]
  · next hf => simp [h.2 hf]
  · rfl

/-- C10: when two declarations of the same name with valid literal initialisers
make up the script (`var x = 1; var x = 2;`), the analyzer calls `reportError`
exactly once, with the identifier token of the second declaration and the
duplicate-declaration message, and `isValid` returns false. -/
theorem C10_duplicate_declaration (stollThrows stodThrows : String → Bool)
    (x1 x2 l1 l2 : Token) (hname : x1.value = x2.value)
    (h1 : (l1.tokenType = TokenType.IntegerLiteral →
        stollThrows l1.value = false ∧ stodThrows l1.value = false) ∧
      (l1.tokenType = TokenType.FloatLiteral → stodThrows l1.value = false))
    (h2 : (l2.tokenType = TokenType.IntegerLiteral →
        stollThrows l2.value = false ∧ stodThrows l2.value = false) ∧
      (l2.tokenType = TokenType.FloatLiteral → stodThrows l2.value = false)) :
    (visitScriptAstNode stollThrows stodThrows
        ⟨[Statement.Declare x1 (Expression.Literal l1),
          Statement.Declare x2 (Expression.Literal l2)]⟩ SemanticAnalyzerRun.new).map
        (fun run => (run.out, run.error))
      = some ([(some x2, "Duplicate identifier found within same scope.")], true) ∧
    SemanticAnalyzer.isValid stollThrows stodThrows
        ⟨[Statement.Declare x1 (Expression.Literal l1),
          Statement.Declare x2 (Expression.Literal l2)]⟩ = some false := by
  have hv : visitScriptAstNode stollThrows stodThrows
      ⟨[Statement.Declare x1 (Expression.Literal l1),
        Statement.Declare x2 (Expression.Literal l2)]⟩ SemanticAnalyzerRun.new
      = some
        { out := [(some x2, "Duplicate identifier found within same scope.")],
          error := true, functionDept := 0, inLoop := false, inLoopState := [],
          currentScope := Scope.mk none [(x1.value, ⟨x2, true⟩)] true } := by
    simp only [visitScriptAstNode, visitStatementAstNodes, visitStatementAstNode,
      visitExpressionAstNode, Option.pure_def, Option.bind_eq_bind, Option.some_bind,
      SemanticAnalyzerRun.onEnterLiteralExpressionAstNode_of_valid _ _ _ _ h1,
      SemanticAnalyzerRun.onEnterLiteralExpressionAstNode_of_valid _ _ _ _ h2]
    simp [SemanticAnalyzerRun.onEnterDeclareStatementAstNode,
      SemanticAnalyzerRun.onExitDeclareStatementAstNode, SemanticAnalyzerRun.new,
      SemanticAnalyzerRun.reportError, Scope.new, Scope.findLocally, Scope.define,
      Scope.localScope, Scope.outerScope, Scope.outerScopeCrossesFunctionBarrier,
      List.lookup, hname]
  constructor
  · rw [hv]; rfl
  · simp only [SemanticAnalyzer.isValid, hv, Option.bind_eq_bind, Option.some_bind]
    rfl

/-- Witness of C10 on `var x = 1; var x = 2;`, with conversions that never throw. -/
theorem C10_duplicate_declaration_witness :
    (visitScriptAstNode (fun _ => false) (fun _ => false)
        ⟨[Statement.Declare ⟨"x", TokenType.Identifier, 4, 1, 5⟩
            (Expression.Literal ⟨"1", TokenType.IntegerLiteral, 8, 1, 9⟩),
          Statement.Declare ⟨"x", TokenType.Identifier, 15, 1, 16⟩
            (Expression.Literal ⟨"2", TokenType.IntegerLiteral, 19, 1, 20⟩)]⟩
        SemanticAnalyzerRun.new).map (fun run => (run.out, run.error))
      = some ([(some ⟨"x", TokenType.Identifier, 15, 1, 16⟩,
          "Duplicate identifier found within same scope.")], true) ∧
    SemanticAnalyzer.isValid (fun _ => false) (fun _ => false)
        ⟨[Statement.Declare ⟨"x", TokenType.Identifier, 4, 1, 5⟩
            (Expression.Literal ⟨"1", TokenType.IntegerLiteral, 8, 1, 9⟩),
          Statement.Declare ⟨"x", TokenType.Identifier, 15, 1, 16⟩
            (Expression.Literal ⟨"2", TokenType.IntegerLiteral, 19, 1, 20⟩)]⟩ = some false :=
  C10_duplicate_declaration _ _ _ _ _ _ rfl ⟨fun _ => ⟨rfl, rfl⟩, fun _ => rfl⟩
    ⟨fun _ => ⟨rfl, rfl⟩, fun _ => rfl⟩

/-! ## Claims on the analyzer and on `expect` -/

/-- C11: for a name `x` declared nowhere else, analysing `var x = x;` reports one
undefined-reference error (on the reference) and `isValid` is false, whereas
analysing `var x = function() { return x; };` reports nothing and `isValid` is
true: the reference inside the function literal reaches the partially bound `x`
after crossing the function barrier. -/
theorem C11_self_reference (stollThrows stodThrows : String → Bool) (x r : Token)
    (returnToken : Option Token) (hname : r.value = x.value) :
    ((visitScriptAstNode stollThrows stodThrows
          ⟨[Statement.Declare x (Expression.Identifier r)]⟩ SemanticAnalyzerRun.new).map
        (fun run => (run.out, run.error))
      = some ([(some r, "Undefined reference in identifier evaluation.")], true) ∧
    SemanticAnalyzer.isValid stollThrows stodThrows
        ⟨[Statement.Declare x (Expression.Identifier r)]⟩ = some false) ∧
    ((visitScriptAstNode stollThrows stodThrows
          ⟨[Statement.Declare x (Expression.FunctionDeclaration []
              (Statement.Block [Statement.Return (some (Expression.Identifier r))
                returnToken]))]⟩ SemanticAnalyzerRun.new).map
        (fun run => (run.out, run.error))
      = some ([], false) ∧
    SemanticAnalyzer.isValid stollThrows stodThrows
        ⟨[Statement.Declare x (Expression.FunctionDeclaration []
            (Statement.Block [Statement.Return (some (Expression.Identifier r))
              returnToken]))]⟩ = some true) := by
  simp [SemanticAnalyzer.isValid, visitScriptAstNode, visitStatementAstNodes,
    visitStatementAstNode, visitExpressionAstNode,
    SemanticAnalyzerRun.onEnterDeclareStatementAstNode,
    SemanticAnalyzerRun.onExitDeclareStatementAstNode,
    SemanticAnalyzerRun.onEnterIdentifierExpressionAstNode,
    SemanticAnalyzerRun.onEnterFunctionDeclarationExpressionAstNode,
    SemanticAnalyzerRun.onExitFunctionDeclarationExpressionAstNode,
    SemanticAnalyzerRun.onEnterBlockStatementAstNode,
    SemanticAnalyzerRun.onExitBlockStatementAstNode,
    SemanticAnalyzerRun.onEnterReturnStatementAstNode,
    SemanticAnalyzerRun.pushScope, SemanticAnalyzerRun.pushScopeLoop,
    SemanticAnalyzerRun.popScope, SemanticAnalyzerRun.hasErrors,
    SemanticAnalyzerRun.new, SemanticAnalyzerRun.reportError, Scope.new, Scope.find,
    Scope.findLoop, Scope.findLocally, Scope.define, Scope.getOuterScope, Scope.localScope,
    Scope.outerScope, Scope.outerScopeCrossesFunctionBarrier, List.lookup, hname]

/-- Witness of C11 on the name `x`. -/
theorem C11_self_reference_witness :
    ((visitScriptAstNode (fun _ => false) (fun _ => false)
          ⟨[Statement.Declare ⟨"x", .Identifier, 4, 1, 5⟩
              (Expression.Identifier ⟨"x", .Identifier, 8, 1, 9⟩)]⟩
          SemanticAnalyzerRun.new).map (fun run => (run.out, run.error))
      = some ([(some ⟨"x", .Identifier, 8, 1, 9⟩,
          "Undefined reference in identifier evaluation.")], true) ∧
    SemanticAnalyzer.isValid (fun _ => false) (fun _ => false)
        ⟨[Statement.Declare ⟨"x", .Identifier, 4, 1, 5⟩
            (Expression.Identifier ⟨"x", .Identifier, 8, 1, 9⟩)]⟩ = some false) ∧
    ((visitScriptAstNode (fun _ => false) (fun _ => false)
          ⟨[Statement.Declare ⟨"x", .Identifier, 4, 1, 5⟩ (Expression.FunctionDeclaration []
              (Statement.Block [Statement.Return
                (some (Expression.Identifier ⟨"x", .Identifier, 8, 1, 9⟩)) none]))]⟩
          SemanticAnalyzerRun.new).map (fun run => (run.out, run.error))
      = some ([], false) ∧
    SemanticAnalyzer.isValid (fun _ => false) (fun _ => false)
        ⟨[Statement.Declare ⟨"x", .Identifier, 4, 1, 5⟩ (Expression.FunctionDeclaration []
            (Statement.Block [Statement.Return
              (some (Expression.Identifier ⟨"x", .Identifier, 8, 1, 9⟩)) none]))]⟩
      = some true) :=
  C11_self_reference _ _ _ _ _ rfl

/-- C13: leaving a `While` node sets the inside-loop flag to false, whatever it
was before the node was entered; so on `while (true) { while (true) { } break; }`
the `break` that follows the inner loop in the body of the outer loop is reported
as an error, and the run ends with the error flag set. -/
theorem C13_break_after_inner_while :
    (∀ run : SemanticAnalyzerRun, run.onExitWhileStatementAstNode.inLoop = false) ∧
    (visitScriptAstNode (fun _ => false) (fun _ => false)
        ⟨[Statement.While (Expression.Literal ⟨"true", .BooleanLiteral, 7, 1, 8⟩)
            (Statement.Block
              [Statement.While (Expression.Literal ⟨"true", .BooleanLiteral, 22, 1, 23⟩)
                (Statement.Block []),
               Statement.Break (some ⟨"break", .Break, 32, 1, 33⟩)])]⟩
        SemanticAnalyzerRun.new).map (fun run => (run.out, run.error))
      = some ([(some ⟨"break", .Break, 32, 1, 33⟩,
          "Break statements can only be used from within loops.")], true) := by
  constructor
  · intro run; rfl
  · rfl

theorem builtInFunctionArgumentCounts_lookup :
    ∀ entry ∈ builtInFunctionArgumentCounts,
      builtInFunctionArgumentCounts.lookup entry.1 = some entry.2 := by
  decide

/-- C15: the table holds exactly the 24 names of the claim with their counts, no
name twice; and for every entry `(b, count)` of the table and every argument list
(of a length that a `std::size_t` holds), the hook for a built-in invocation of
`b` reports one error on the identifier, citing `count`, when the number of
arguments differs from `count`, and reports nothing when it is `count`. -/
theorem C15_builtin_arity (run : SemanticAnalyzerRun) (identifier : Token)
    (expressions : List Expression) (count : Nat)
    (hb : (identifier.value, count) ∈ builtInFunctionArgumentCounts)
    (hlen : expressions.length < 2 ^ 64) :
    (builtInFunctionArgumentCounts.Perm
        ((["add", "subtract", "multiply", "divide", "equal", "notEqual", "and", "or",
            "greater", "less", "greaterOrEqual", "lessOrEqual", "get", "append",
            "charAt"].map fun name => (name, 2))
          ++ [("set", 3)]
          ++ (["not", "print", "env", "type", "int", "float", "length"].map
              fun name => (name, 1))
          ++ [("read", 0)]) ∧
      (builtInFunctionArgumentCounts.map Prod.fst).Nodup ∧
      builtInFunctionArgumentCounts.length = 24) ∧
    run.onEnterBuiltInFunctionInvocationExpressionAstNode identifier expressions
      = some (if expressions.length = count then run
          else run.reportError (some identifier)
            ("Argument size for built in function did not match expected count of "
              ++ toString count)) := by
  refine ⟨by decide, ?_⟩
  have hl := builtInFunctionArgumentCounts_lookup _ hb
  simp only at hl
  unfold SemanticAnalyzerRun.onEnterBuiltInFunctionInvocationExpressionAstNode
  rw [hl, Nat.mod_eq_of_lt hlen]
  by_cases h : expressions.length = count
  · simp [h]
  · have h' : count ≠ expressions.length := fun e => h e.symm
    simp [h, h']

/-- Witness of C15: `add(1)` is reported with the expected count 2. -/
theorem C15_builtin_arity_witness :
    (builtInFunctionArgumentCounts.Perm
        ((["add", "subtract", "multiply", "divide", "equal", "notEqual", "and", "or",
            "greater", "less", "greaterOrEqual", "lessOrEqual", "get", "append",
            "charAt"].map fun name => (name, 2))
          ++ [("set", 3)]
          ++ (["not", "print", "env", "type", "int", "float", "length"].map
              fun name => (name, 1))
          ++ [("read", 0)]) ∧
      (builtInFunctionArgumentCounts.map Prod.fst).Nodup ∧
      builtInFunctionArgumentCounts.length = 24) ∧
    SemanticAnalyzerRun.new.onEnterBuiltInFunctionInvocationExpressionAstNode
        ⟨"add", .Identifier, 0, 1, 1⟩ [Expression.Literal ⟨"1", .IntegerLiteral, 4, 1, 5⟩]
      = some (if [Expression.Literal ⟨"1", .IntegerLiteral, 4, 1, 5⟩].length = 2
          then SemanticAnalyzerRun.new
          else SemanticAnalyzerRun.new.reportError (some ⟨"add", .Identifier, 0, 1, 1⟩)
            ("Argument size for built in function did not match expected count of "
              ++ toString 2)) :=
  C15_builtin_arity _ _ _ 2 (by decide) (by decide)

/-- C17: let `std::stoll` throw on a string of decimal digits exactly when its
value exceeds `2^63 - 1`, and let `std::stod` not throw on one whose value is at
most the largest double, `2^1024 - 2^971`.  Then analysing in isolation an integer
literal whose text is a non-empty string of decimal digits sets the error flag if
and only if the value exceeds `2^63 - 1`, and reports nothing when the value
fits. -/
theorem C17_integer_literal (stollThrows stodThrows : String → Bool) (node : NodeId)
    (token : Token)
    (hstoll : ∀ text, isDecimalDigits text = true →
      (stollThrows text = true ↔ 2 ^ 63 - 1 < decimalValue text))
    (hstod : ∀ text, isDecimalDigits text = true →
      decimalValue text ≤ 2 ^ 1024 - 2 ^ 971 → stodThrows text = false)
    (htype : token.tokenType = TokenType.IntegerLiteral)
    (hdigits : isDecimalDigits token.value = true) :
    ∃ run, visitExpressionAstNode stollThrows stodThrows node (Expression.Literal token)
        SemanticAnalyzerRun.new = some run ∧
      (run.error = true ↔ 2 ^ 63 - 1 < decimalValue token.value) ∧
      (decimalValue token.value ≤ 2 ^ 63 - 1 → run.out = []) := by
  refine ⟨_, rfl, ?_, ?_⟩
  · unfold SemanticAnalyzerRun.onEnterLiteralExpressionAstNode
    simp only [htype]
    by_cases hv : 2 ^ 63 - 1 < decimalValue token.value
    · have h1 : stollThrows token.value = true := (hstoll _ hdigits).2 hv
      simp only [h1, if_true, hv, iff_true]
      split <;> rfl
    · have h1 : stollThrows token.value = false := by
        cases h : stollThrows token.value
        · rfl
        · exact absurd ((hstoll _ hdigits).1 h) hv
      have h2 : stodThrows token.value = false := by
        apply hstod _ hdigits
        have : (2 : Nat) ^ 63 - 1 ≤ 2 ^ 1024 - 2 ^ 971 := by norm_num
        omega
      simp [h1, h2, SemanticAnalyzerRun.new]
      exact Nat.le_of_not_lt hv
  · intro hv
    have h1 : stollThrows token.value = false := by
      cases h : stollThrows token.value
      · rfl
      · have := (hstoll _ hdigits).1 h
        omega
    have h2 : stodThrows token.value = false := by
      apply hstod _ hdigits
      have : (2 : Nat) ^ 63 - 1 ≤ 2 ^ 1024 - 2 ^ 971 := by norm_num
      omega
    simp [SemanticAnalyzerRun.onEnterLiteralExpressionAstNode, htype, h1, h2,
      SemanticAnalyzerRun.new]

/-- Witness of C17 on the literal `42`. -/
theorem C17_integer_literal_witness :
    ∃ run, visitExpressionAstNode (fun text => decide (2 ^ 63 - 1 < decimalValue text))
        (fun _ => false) []
        (Expression.Literal ⟨"42", .IntegerLiteral, 0, 1, 1⟩)
        SemanticAnalyzerRun.new = some run ∧
      (run.error = true ↔ 2 ^ 63 - 1 < decimalValue "42") ∧
      (decimalValue "42" ≤ 2 ^ 63 - 1 → run.out = []) :=
  C17_integer_literal _ _ [] ⟨"42", .IntegerLiteral, 0, 1, 1⟩
    (fun _ _ => by simp) (fun _ _ _ => rfl) rfl (by decide)

/-- C20: with the cursor on the end-of-file token, `Parser::expect` never returns,
whatever token type is expected and whatever the fuel: its loop treats the end of
file as one more token to skip, and the tokenizer keeps returning it. -/
theorem C20_expect_at_end_of_file (p : Parser) (type : TokenType) (error : Bool)
    (errorMessage : String) (h : p.currentToken.tokenType = TokenType.EndOfFile) :
    ∀ fuel : Nat, Parser.expect fuel p type error errorMessage = none := by
  have key : ∀ (fuel : Nat) (foundWrongToken error : Bool) (q : Parser),
      q.currentToken.tokenType = TokenType.EndOfFile →
      Parser.expectLoop type errorMessage fuel foundWrongToken error q = none := by
    intro fuel
    induction fuel with
    | zero => intros; rfl
    | succ n ih =>
      intro foundWrongToken error q hq
      rw [Parser.expectLoop, if_pos (Or.inl hq)]
      apply ih
      have hnext : ∀ r : Parser, r.currentToken.tokenType = TokenType.EndOfFile →
          r.nextToken.currentToken.tokenType = TokenType.EndOfFile := by
        intro r hr
        unfold Parser.nextToken Tokenizer.nextToken
        split
        · exact hr
        · split
          · exact hr
          · rename_i h2
            exact absurd hr h2
      split
      · exact hnext _ hq
      · exact hnext _ hq
  intro fuel
  exact key fuel false error p h

/-- Witness of C20: the tape holds the end-of-file token only, a semicolon is
expected, and a fuel of 1000 is not enough. -/
theorem C20_expect_at_end_of_file_witness :
    (Parser.currentToken ⟨⟨"", [⟨"", .EndOfFile, 0, 1, 1⟩], true⟩, []⟩).tokenType
        = TokenType.EndOfFile ∧
      Parser.expect 1000 ⟨⟨"", [⟨"", .EndOfFile, 0, 1, 1⟩], true⟩, []⟩ TokenType.SemiColon false
        "Expected a semicolon after break" = none :=
  ⟨rfl, C20_expect_at_end_of_file ⟨⟨"", [⟨"", .EndOfFile, 0, 1, 1⟩], true⟩, []⟩
    TokenType.SemiColon false "Expected a semicolon after break" rfl 1000⟩

/-! ## Declarations in one scope -/

theorem lookup_eq_none_of_not_mem {β : Type} (name : String) :
    ∀ (l : List (String × β)), name ∉ l.map Prod.fst → l.lookup name = none := by
  intro l
  induction l with
  | nil => intro _; rfl
  | cons kv l ih =>
    intro h
    obtain ⟨k, v⟩ := kv
    simp only [List.map_cons, List.mem_cons, not_or] at h
    have hk : (name == k) = false := by simpa using h.1
    simp only [List.lookup, hk]
    exact ih h.2

theorem map_update_of_not_mem (name : String) (vd : VariableDefinition) :
    ∀ (l : List (String × VariableDefinition)), name ∉ l.map Prod.fst →
      l.map (fun kv => if kv.1 = name then (kv.1, vd) else kv) = l := by
  intro l
  induction l with
  | nil => intro _; rfl
  | cons kv l ih =>
    intro h
    simp only [List.map_cons, List.mem_cons, not_or] at h
    have hk : ¬ kv.1 = name := fun e => h.1 e.symm
    simp only [List.map_cons, hk, if_false, ih h.2]

/-- A declaration of a name that the current scope does not hold, with a valid
literal as initialiser, adds the name as fully bound and changes nothing else. -/
theorem visitStatementAstNode_declare_fresh (stollThrows stodThrows : String → Bool)
    (node : NodeId) (x l : Token) (run : SemanticAnalyzerRun) (outer : Option Scope)
    (locals : List (String × VariableDefinition)) (barrier : Bool)
    (hscope : run.currentScope = Scope.mk outer locals barrier)
    (hfresh : x.value ∉ locals.map Prod.fst)
    (hl : (l.tokenType = TokenType.IntegerLiteral →
        stollThrows l.value = false ∧ stodThrows l.value = false) ∧
      (l.tokenType = TokenType.FloatLiteral → stodThrows l.value = false)) :
    visitStatementAstNode stollThrows stodThrows node
        (Statement.Declare x (Expression.Literal l)) run
      = some { run with
          currentScope := Scope.mk outer ((x.value, ⟨x, true⟩) :: locals) barrier } := by
  have hlook : locals.lookup x.value = none := lookup_eq_none_of_not_mem _ _ hfresh
  simp only [visitStatementAstNode, visitExpressionAstNode, Option.pure_def,
    Option.bind_eq_bind, Option.some_bind,
    SemanticAnalyzerRun.onEnterLiteralExpressionAstNode_of_valid _ _ _ _ hl]
  simp [SemanticAnalyzerRun.onEnterDeclareStatementAstNode,
    SemanticAnalyzerRun.onExitDeclareStatementAstNode, Scope.findLocally, Scope.define,
    Scope.localScope, Scope.outerScope, Scope.outerScopeCrossesFunctionBarrier, hscope,
    hlook, List.lookup, map_update_of_not_mem _ _ _ hfresh]

theorem visitStatementAstNodes_declares (stollThrows stodThrows : String → Bool)
    (node : NodeId) :
    ∀ (decls : List (Token × Token)) (i : Nat) (run : SemanticAnalyzerRun)
      (outer : Option Scope) (locals : List (String × VariableDefinition)) (barrier : Bool),
      run.currentScope = Scope.mk outer locals barrier →
      (decls.map fun d => d.1.value).Nodup →
      (∀ d ∈ decls, d.1.value ∉ locals.map Prod.fst) →
      (∀ d ∈ decls, (d.2.tokenType = TokenType.IntegerLiteral →
          stollThrows d.2.value = false ∧ stodThrows d.2.value = false) ∧
        (d.2.tokenType = TokenType.FloatLiteral → stodThrows d.2.value = false)) →
      ∃ run', visitStatementAstNodes stollThrows stodThrows node i
          (decls.map fun d => Statement.Declare d.1 (Expression.Literal d.2)) run = some run' ∧
        run'.out = run.out ∧ run'.error = run.error := by
  intro decls
  induction decls with
  | nil =>
    intro i run _ _ _ _ _ _ _
    exact ⟨run, rfl, rfl, rfl⟩
  | cons d decls ih =>
    intro i run outer locals barrier hscope hnodup hfresh hvalid
    simp only [List.map_cons, List.nodup_cons] at hnodup
    simp only [List.map_cons, visitStatementAstNodes, Option.bind_eq_bind]
    rw [visitStatementAstNode_declare_fresh stollThrows stodThrows _ d.1 d.2 run outer locals
      barrier hscope (hfresh d (List.mem_cons_self _ _)) (hvalid d (List.mem_cons_self _ _))]
    simp only [Option.some_bind]
    obtain ⟨run', h1, h2, h3⟩ := ih (i + 1)
      { run with currentScope := Scope.mk outer ((d.1.value, ⟨d.1, true⟩) :: locals) barrier }
      outer ((d.1.value, ⟨d.1, true⟩) :: locals) barrier rfl hnodup.2
      (by
        intro e he
        simp only [List.map_cons, List.mem_cons, not_or]
        refine ⟨?_, hfresh e (List.mem_cons_of_mem _ he)⟩
        intro heq
        exact hnodup.1 (heq ▸ List.mem_map_of_mem (fun d => d.1.value) he))
      (fun e he => hvalid e (List.mem_cons_of_mem _ he))
    exact ⟨run', h1, h2, h3⟩

/-- C18: a script that is a sequence of declarations with pairwise distinct names,
each initialised with a valid literal, is analysed without any error report, and
`isValid` returns true. -/
theorem C18_distinct_declarations (stollThrows stodThrows : String → Bool)
    (decls : List (Token × Token))
    (hnodup : (decls.map fun d => d.1.value).Nodup)
    (hvalid : ∀ d ∈ decls, (d.2.tokenType = TokenType.IntegerLiteral →
        stollThrows d.2.value = false ∧ stodThrows d.2.value = false) ∧
      (d.2.tokenType = TokenType.FloatLiteral → stodThrows d.2.value = false)) :
    (visitScriptAstNode stollThrows stodThrows
        ⟨decls.map fun d => Statement.Declare d.1 (Expression.Literal d.2)⟩
        SemanticAnalyzerRun.new).map (fun run => (run.out, run.error)) = some ([], false) ∧
    SemanticAnalyzer.isValid stollThrows stodThrows
        ⟨decls.map fun d => Statement.Declare d.1 (Expression.Literal d.2)⟩ = some true := by
  obtain ⟨run', h1, h2, h3⟩ := visitStatementAstNodes_declares stollThrows stodThrows [] decls 0
    SemanticAnalyzerRun.new none [] true rfl hnodup (fun _ _ => by simp) hvalid
  have hv : visitScriptAstNode stollThrows stodThrows
      ⟨decls.map fun d => Statement.Declare d.1 (Expression.Literal d.2)⟩
      SemanticAnalyzerRun.new = some run' := h1
  have ho : run'.out = [] := h2
  have he : run'.error = false := h3
  constructor
  · rw [hv]; simp [ho, he]
  · simp [SemanticAnalyzer.isValid, hv, SemanticAnalyzerRun.hasErrors, he]

/-- Witness of C18 on `var a = true; var b = 1;`. -/
theorem C18_distinct_declarations_witness :
    (visitScriptAstNode (fun _ => false) (fun _ => false)
        ⟨[((⟨"a", .Identifier, 4, 1, 5⟩ : Token), (⟨"true", .BooleanLiteral, 8, 1, 9⟩ : Token)),
          (⟨"b", .Identifier, 18, 1, 19⟩, ⟨"1", .IntegerLiteral, 22, 1, 23⟩)].map
            fun d => Statement.Declare d.1 (Expression.Literal d.2)⟩
        SemanticAnalyzerRun.new).map (fun run => (run.out, run.error)) = some ([], false) ∧
    SemanticAnalyzer.isValid (fun _ => false) (fun _ => false)
        ⟨[((⟨"a", .Identifier, 4, 1, 5⟩ : Token), (⟨"true", .BooleanLiteral, 8, 1, 9⟩ : Token)),
          (⟨"b", .Identifier, 18, 1, 19⟩, ⟨"1", .IntegerLiteral, 22, 1, 23⟩)].map
            fun d => Statement.Declare d.1 (Expression.Literal d.2)⟩ = some true :=
  C18_distinct_declarations _ _ _ (by decide) (fun _ _ => ⟨fun _ => ⟨rfl, rfl⟩, fun _ => rfl⟩)

/-! ## Assignment across a function barrier -/

theorem SemanticAnalyzerRun.pushScopeLoop_fresh :
    ∀ (items : List Token) (run : SemanticAnalyzerRun) (outer : Option Scope)
      (locals : List (String × VariableDefinition)) (barrier : Bool),
      run.currentScope = Scope.mk outer locals barrier →
      (items.map fun t => t.value).Nodup →
      (∀ t ∈ items, t.value ∉ locals.map Prod.fst) →
      SemanticAnalyzerRun.pushScopeLoop items run
        = { run with
            currentScope := Scope.mk outer
              ((items.reverse.map fun t => (t.value, (⟨t, true⟩ : VariableDefinition)))
                ++ locals) barrier } := by
  intro items
  induction items with
  | nil =>
    intro run outer locals barrier hscope _ _
    simp [SemanticAnalyzerRun.pushScopeLoop, ← hscope]
  | cons t items ih =>
    intro run outer locals barrier hscope hnodup hfresh
    simp only [List.map_cons, List.nodup_cons] at hnodup
    have hlook : locals.lookup t.value = none :=
      lookup_eq_none_of_not_mem _ _ (hfresh t (List.mem_cons_self _ _))
    have hstep : SemanticAnalyzerRun.pushScopeLoop (t :: items) run
        = SemanticAnalyzerRun.pushScopeLoop items
            { run with currentScope := Scope.mk outer ((t.value, ⟨t, true⟩) :: locals) barrier } := by
      simp [SemanticAnalyzerRun.pushScopeLoop, Scope.findLocally, Scope.define,
        Scope.localScope, Scope.outerScope, Scope.outerScopeCrossesFunctionBarrier, hscope,
        hlook]
    rw [hstep, ih _ outer ((t.value, ⟨t, true⟩) :: locals) barrier rfl hnodup.2
      (by
        intro e he
        simp only [List.map_cons, List.mem_cons, not_or]
        refine ⟨?_, hfresh e (List.mem_cons_of_mem _ he)⟩
        intro heq
        exact hnodup.1 (heq ▸ List.mem_map_of_mem (fun t => t.value) he))]
    simp

theorem lookup_parameters_eq_none (name : String) (items : List Token)
    (h : name ∉ items.map fun t => t.value) :
    (items.reverse.map fun t => (t.value, (⟨t, true⟩ : VariableDefinition))).lookup name
      = none := by
  apply lookup_eq_none_of_not_mem
  simpa [List.map_map, Function.comp] using h

/-- A name that `Scope::find` finds without the partially bound declarations is
also found with them. -/
theorem Scope.findLoop_considerPartiallyBound (variableName : String)
    (canCrossFunctionBarrier : Bool) :
    ∀ (s : Scope) (considerPartiallyBound : Bool),
      Scope.findLoop variableName canCrossFunctionBarrier s considerPartiallyBound ≠ none →
      Scope.findLoop variableName canCrossFunctionBarrier s true ≠ none
  | Scope.mk none localScope barrier, b => by
    cases hl : localScope.lookup variableName with
    | none => simp [Scope.findLoop, Scope.findLocally, Scope.localScope, hl]
    | some vd =>
      cases vd.isFullyBound <;> cases b <;>
        simp [Scope.findLoop, Scope.findLocally, Scope.localScope, hl]
  | Scope.mk (some outer) localScope barrier, b => by
    have ih := Scope.findLoop_considerPartiallyBound variableName canCrossFunctionBarrier outer
    cases hl : localScope.lookup variableName with
    | none =>
      cases barrier <;> cases canCrossFunctionBarrier <;> cases b <;>
        simp [Scope.findLoop, Scope.findLocally, Scope.localScope, hl] <;>
        first
        | exact ih _
        | exact id
    | some vd =>
      cases hvd : vd.isFullyBound <;> cases b <;>
        simp [Scope.findLoop, Scope.findLocally, Scope.localScope, hl, hvd]

/-! ## The tree walk of the analyzer -/

theorem returnErrors_append (a b : List (Option Token × String)) :
    returnErrors (a ++ b) = returnErrors a ++ returnErrors b := by
  simp [returnErrors, List.filterMap_append]

theorem breakErrors_append (a b : List (Option Token × String)) :
    breakErrors (a ++ b) = breakErrors a ++ breakErrors b := by
  simp [breakErrors, List.filterMap_append]

theorem prefix_child_eq {node k : NodeId} {i j : Nat}
    (hi : (node ++ [i]) <+: k) (hj : (node ++ [j]) <+: k) : i = j := by
  have h := List.prefix_of_prefix_length_le hi hj (by simp)
  have h2 := List.IsPrefix.eq_of_length h (by simp)
  simpa using h2

theorem Scope.define_outerScope (s : Scope) (name : String) (token : Token) (bound : Bool) :
    (s.define name token bound).outerScope = s.outerScope := by
  unfold Scope.define
  split <;> rfl

theorem Scope.define_barrier (s : Scope) (name : String) (token : Token) (bound : Bool) :
    (s.define name token bound).outerScopeCrossesFunctionBarrier
      = s.outerScopeCrossesFunctionBarrier := by
  unfold Scope.define
  split <;> rfl

namespace Visited

theorem refl (node : NodeId) (run : SemanticAnalyzerRun) : Visited node true [] [] run run where
  depth := rfl
  outer := rfl
  barrier := rfl
  loop := id
  same := fun _ => ⟨rfl, rfl⟩
  keys := fun _ hk => Or.inl hk
  saved := fun _ _ h => h
  reports := ⟨[], by simp, by simp [returnErrors], by simp⟩

theorem trans {node : NodeId} {e1 e2 : Bool} {r1 r2 b1 b2 : List (Option Token)}
    {run run1 run2 : SemanticAnalyzerRun} (h1 : Visited node e1 r1 b1 run run1)
    (h2 : Visited node e2 r2 b2 run1 run2) :
    Visited node (e1 && e2) (r1 ++ r2) (b1 ++ b2) run run2 where
  depth := h2.depth.trans h1.depth
  outer := h2.outer.trans h1.outer
  barrier := h2.barrier.trans h1.barrier
  loop := fun h => h1.loop (h2.loop h)
  same := by
    intro h
    simp only [Bool.and_eq_true] at h
    exact ⟨(h2.same h.2).1.trans (h1.same h.1).1, (h2.same h.2).2.trans (h1.same h.1).2⟩
  keys := by
    intro k hk
    rcases h2.keys k hk with h | h
    · exact h1.keys k h
    · exact Or.inr h
  saved := fun k b h => h2.saved k b (h1.saved k b h)
  reports := by
    obtain ⟨a1, ho1, hr1, hb1⟩ := h1.reports
    obtain ⟨a2, ho2, hr2, hb2⟩ := h2.reports
    refine ⟨a1 ++ a2, by rw [ho2, ho1, List.append_assoc], ?_, ?_⟩
    · rw [returnErrors_append, hr1, hr2, h1.depth]
      split <;> simp
    · rw [breakErrors_append]
      exact List.Sublist.append hb1 hb2

/-- The same visit seen from a node on the way to the root, with less claimed. -/
theorem weaken {node : NodeId} (tail : List Nat) {e : Bool} (e' : Bool)
    {r b b' : List (Option Token)} {run run' : SemanticAnalyzerRun}
    (h : Visited (node ++ tail) e r b run run') (he : e' = true → e = true)
    (hb : List.Sublist b' b) : Visited node e' r b' run run' where
  depth := h.depth
  outer := h.outer
  barrier := h.barrier
  loop := h.loop
  same := fun h' => h.same (he h')
  keys := by
    intro k hk
    rcases h.keys k hk with h | h
    · exact Or.inl h
    · exact Or.inr ((List.prefix_append node tail).trans h)
  saved := h.saved
  reports := by
    obtain ⟨a, ho, hr, hs⟩ := h.reports
    exact ⟨a, ho, hr, hb.trans hs⟩

/-- A hook that only adds reports. -/
theorem of_reports (node : NodeId) (run : SemanticAnalyzerRun) (error : Bool)
    (added : List (Option Token × String)) (r b : List (Option Token))
    (hr : returnErrors added = (if run.functionDept = 0 then r else []))
    (hb : List.Sublist b (breakErrors added)) :
    Visited node true r b run { run with out := run.out ++ added, error := error } where
  depth := rfl
  outer := rfl
  barrier := rfl
  loop := id
  same := fun _ => ⟨rfl, rfl⟩
  keys := fun _ hk => Or.inl hk
  saved := fun _ _ h => h
  reports := ⟨added, rfl, hr, hb⟩

/-- A hook that only changes the bindings of the current scope. -/
theorem of_scope (node : NodeId) (run : SemanticAnalyzerRun) (scope : Scope)
    (ho : scope.outerScope = run.currentScope.outerScope)
    (hb : scope.outerScopeCrossesFunctionBarrier
      = run.currentScope.outerScopeCrossesFunctionBarrier) :
    Visited node false [] [] run { run with currentScope := scope } where
  depth := rfl
  outer := ho
  barrier := hb
  loop := id
  same := fun h => by simp at h
  keys := fun _ hk => Or.inl hk
  saved := fun _ _ h => h
  reports := ⟨[], by simp, by simp [returnErrors], by simp⟩

end Visited

namespace SemanticAnalyzerRun

theorem onEnterDeclareStatementAstNode_visited (node : NodeId) (run : SemanticAnalyzerRun)
    (identifier : Token) :
    Visited node false [] [] run (run.onEnterDeclareStatementAstNode identifier) := by
  unfold onEnterDeclareStatementAstNode
  dsimp only
  split
  · have h := Visited.of_reports node run true
      [(some identifier, "Duplicate identifier found within same scope.")] [] []
      (by simp [returnErrors]) (by simp)
    have h' := @Visited.weaken node [] _ false _ _ _ _ _ (by simpa using h) (by simp)
      (List.Sublist.refl _)
    exact h'
  · exact Visited.of_scope node run _ (Scope.define_outerScope _ _ _ _)
      (Scope.define_barrier _ _ _ _)

theorem onExitDeclareStatementAstNode_visited (node : NodeId) (run : SemanticAnalyzerRun)
    (identifier : Token) :
    Visited node false [] [] run (run.onExitDeclareStatementAstNode identifier) :=
  Visited.of_scope node run _ (Scope.define_outerScope _ _ _ _) (Scope.define_barrier _ _ _ _)

theorem onEnterAssignStatementAstNode_visited (node : NodeId) (run : SemanticAnalyzerRun)
    (identifier : Token) :
    Visited node true [] [] run (run.onEnterAssignStatementAstNode identifier) := by
  unfold onEnterAssignStatementAstNode
  dsimp only
  split
  · exact Visited.of_reports node run true _ [] [] (by simp [returnErrors]) (by simp)
  · exact Visited.refl node run

theorem onEnterIdentifierExpressionAstNode_visited (node : NodeId)
    (run : SemanticAnalyzerRun) (token : Token) :
    Visited node true [] [] run (run.onEnterIdentifierExpressionAstNode token) := by
  unfold onEnterIdentifierExpressionAstNode
  split
  · exact Visited.of_reports node run true _ [] [] (by simp [returnErrors]) (by simp)
  · exact Visited.refl node run

theorem onEnterFunctionInvocationExpressionAstNode_visited (node : NodeId)
    (run : SemanticAnalyzerRun) (identifier : Token) :
    Visited node true [] [] run (run.onEnterFunctionInvocationExpressionAstNode identifier) := by
  unfold onEnterFunctionInvocationExpressionAstNode
  split
  · exact Visited.of_reports node run true _ [] [] (by simp [returnErrors]) (by simp)
  · exact Visited.refl node run

theorem onEnterLiteralExpressionAstNode_visited (stollThrows stodThrows : String → Bool)
    (node : NodeId) (run : SemanticAnalyzerRun) (token : Token) :
    Visited node true [] [] run
      (run.onEnterLiteralExpressionAstNode stollThrows stodThrows token) := by
  have step : ∀ (r : SemanticAnalyzerRun) (c : Bool) (message : String),
      message ≠ "Return statements can only be used from within functions." →
      Visited node true [] [] r (if c = true then r.reportError (some token) message else r) := by
    intro r c message hm
    split
    · exact Visited.of_reports node r true _ [] [] (by simp [returnErrors, hm]) (by simp)
    · exact Visited.refl node r
  unfold onEnterLiteralExpressionAstNode
  split
  · exact (step run _ _ (by decide)).trans (step _ _ _ (by decide))
  · exact step run _ _ (by decide)
  · exact Visited.refl node run

theorem onEnterBreakStatementAstNode_visited (node : NodeId) (run : SemanticAnalyzerRun)
    (breakToken : Option Token) (insideWhile : Bool)
    (hw : run.inLoop = true → insideWhile = true) :
    Visited node true [] (if insideWhile then [] else [breakToken]) run
      (run.onEnterBreakStatementAstNode breakToken) := by
  unfold onEnterBreakStatementAstNode
  cases hin : run.inLoop
  · exact Visited.of_reports node run true _ [] _ (by simp [returnErrors])
      (by cases insideWhile <;> simp [breakErrors])
  · rw [hw hin]
    exact Visited.refl node run

theorem onEnterReturnStatementAstNode_visited (node : NodeId) (run : SemanticAnalyzerRun)
    (returnToken : Option Token) :
    Visited node true [returnToken] [] run (run.onEnterReturnStatementAstNode returnToken) := by
  unfold onEnterReturnStatementAstNode
  split
  · rename_i h
    exact Visited.of_reports node run true _ _ [] (by simp [returnErrors, h]) (by simp)
  · rename_i h
    have := Visited.of_reports node run run.error [] [returnToken] []
      (by simp [returnErrors, h]) (by simp)
    simpa using this

theorem onEnterBuiltInFunctionInvocationExpressionAstNode_visited (node : NodeId)
    (run : SemanticAnalyzerRun) (identifier : Token) (expressions : List Expression)
    (hk : (builtInFunctionArgumentCounts.lookup identifier.value).isSome = true) :
    ∃ run', run.onEnterBuiltInFunctionInvocationExpressionAstNode identifier expressions
        = some run' ∧ Visited node true [] [] run run' := by
  unfold onEnterBuiltInFunctionInvocationExpressionAstNode
  obtain ⟨count, hc⟩ := Option.isSome_iff_exists.1 hk
  rw [hc]
  simp only
  split
  · have hne : ∀ message : String, message.length < 68 →
        "Argument size for built in function did not match expected count of "
          ++ toString count ≠ message := by
      intro message hm e
      have hlen := congrArg String.length e
      rw [String.length_append] at hlen
      have h69 : ("Argument size for built in function did not match expected count of "
        ).length = 68 := by decide
      omega
    exact ⟨_, rfl, Visited.of_reports node run true _ [] []
      (by
        have h := hne "Return statements can only be used from within functions."
          (by decide)
        simp [returnErrors, h])
      (by
        have h := hne "Break statements can only be used from within loops." (by decide)
        simp [breakErrors, h])⟩
  · exact ⟨_, rfl, Visited.refl node run⟩

end SemanticAnalyzerRun

namespace SemanticAnalyzerRun

theorem pushScopeLoop_spec :
    ∀ (items : List Token) (run : SemanticAnalyzerRun),
      (pushScopeLoop items run).functionDept = run.functionDept ∧
      (pushScopeLoop items run).inLoop = run.inLoop ∧
      (pushScopeLoop items run).inLoopState = run.inLoopState ∧
      (pushScopeLoop items run).currentScope.outerScope = run.currentScope.outerScope ∧
      (pushScopeLoop items run).currentScope.outerScopeCrossesFunctionBarrier
        = run.currentScope.outerScopeCrossesFunctionBarrier ∧
      ∃ added, (pushScopeLoop items run).out = run.out ++ added ∧
        returnErrors added = [] ∧ breakErrors added = [] := by
  intro items
  induction items with
  | nil =>
    intro run
    exact ⟨rfl, rfl, rfl, rfl, rfl, [], by simp [pushScopeLoop], rfl, rfl⟩
  | cons item items ih =>
    intro run
    rw [pushScopeLoop]
    split
    · obtain ⟨h1, h2, h3, h4, h5, added, h6, h7, h8⟩ := ih
        (run.reportError (some item) "Duplicate identifier found within the same scope.")
      refine ⟨h1, h2, h3, h4, h5,
        (some item, "Duplicate identifier found within the same scope.") :: added, ?_, ?_, ?_⟩
      · rw [h6]; simp [reportError]
      · have := returnErrors_append
          [(some item, "Duplicate identifier found within the same scope.")] added
        simp only [List.singleton_append] at this
        rw [this, h7]
        simp [returnErrors]
      · have := breakErrors_append
          [(some item, "Duplicate identifier found within the same scope.")] added
        simp only [List.singleton_append] at this
        rw [this, h8]
        simp [breakErrors]
    · obtain ⟨h1, h2, h3, h4, h5, added, h6, h7, h8⟩ := ih
        { run with currentScope := run.currentScope.define item.value item true }
      exact ⟨h1, h2, h3, h4.trans (Scope.define_outerScope _ _ _ _),
        h5.trans (Scope.define_barrier _ _ _ _), added, h6, h7, h8⟩

theorem pushScope_spec (run : SemanticAnalyzerRun) (newFn : Bool) (items : List Token) :
    (run.pushScope newFn items).functionDept = run.functionDept ∧
    (run.pushScope newFn items).inLoop = run.inLoop ∧
    (run.pushScope newFn items).inLoopState = run.inLoopState ∧
    (run.pushScope newFn items).currentScope.outerScope = some run.currentScope ∧
    (run.pushScope newFn items).currentScope.outerScopeCrossesFunctionBarrier = newFn ∧
    ∃ added, (run.pushScope newFn items).out = run.out ++ added ∧
      returnErrors added = [] ∧ breakErrors added = [] :=
  pushScopeLoop_spec items { run with currentScope := Scope.mk (some run.currentScope) [] newFn }

end SemanticAnalyzerRun

namespace Visited

/-- The visit of a `While` node, from the visit of its children between the two
hooks. -/
theorem while_wrap {node : NodeId} {e : Bool} {r b : List (Option Token)}
    {run run2 : SemanticAnalyzerRun}
    (h : Visited node e r b run.onEnterWhileStatementAstNode run2) :
    Visited node false r b run run2.onExitWhileStatementAstNode where
  depth := h.depth
  outer := h.outer
  barrier := h.barrier
  loop := fun h' => by simp [SemanticAnalyzerRun.onExitWhileStatementAstNode] at h'
  same := fun h' => by simp at h'
  keys := h.keys
  saved := h.saved
  reports := h.reports

/-- The visit of a `Block` node, from the visit of its statements between the two
hooks. -/
theorem block_wrap {node : NodeId} {e : Bool} {r b : List (Option Token)}
    {run run2 : SemanticAnalyzerRun}
    (h : Visited node e r b run.onEnterBlockStatementAstNode run2) :
    ∃ run3, run2.onExitBlockStatementAstNode = some run3 ∧ Visited node false r b run run3 := by
  have ho : run2.currentScope.getOuterScope = some run.currentScope := h.outer
  refine ⟨{ run2 with currentScope := run.currentScope }, ?_, ?_⟩
  · simp [SemanticAnalyzerRun.onExitBlockStatementAstNode, SemanticAnalyzerRun.popScope, ho]
  · exact
      { depth := h.depth
        outer := rfl
        barrier := rfl
        loop := h.loop
        same := fun h' => by simp at h'
        keys := h.keys
        saved := h.saved
        reports := h.reports }

/-- The visit of a `FunctionDeclaration` node, from the visit of its body between
the two hooks. -/
theorem function_wrap {node : NodeId} {e : Bool} {r b : List (Option Token)}
    {run run2 : SemanticAnalyzerRun} (parameters : List Token)
    (hfresh : run.inLoopState.lookup node = none) (hdepth : run.functionDept + 1 < 2 ^ 64)
    (h : Visited (node ++ [0]) e r b
      (run.onEnterFunctionDeclarationExpressionAstNode node parameters) run2) :
    ∃ run3, run2.onExitFunctionDeclarationExpressionAstNode node = some run3 ∧
      Visited node true [] b run run3 := by
  obtain ⟨p1, p2, p3, p4, p5, dup, p6, p7, p8⟩ := SemanticAnalyzerRun.pushScope_spec
    { run with
      functionDept := run.functionDept + 1
      inLoopState := (node, run.inLoop) :: run.inLoopState
      inLoop := false } true parameters
  have henter : run.onEnterFunctionDeclarationExpressionAstNode node parameters
      = SemanticAnalyzerRun.pushScope
          { run with
            functionDept := run.functionDept + 1
            inLoopState := (node, run.inLoop) :: run.inLoopState
            inLoop := false } true parameters := by
    unfold SemanticAnalyzerRun.onEnterFunctionDeclarationExpressionAstNode
    simp only [hfresh, Nat.mod_eq_of_lt hdepth]
  rw [henter] at h
  have hd2 : run2.functionDept = run.functionDept + 1 := h.depth.trans p1
  have hl2 : run2.inLoopState.lookup node = some run.inLoop := by
    apply h.saved
    rw [p3]
    simp [List.lookup]
  have ho2 : run2.currentScope.getOuterScope = some run.currentScope := h.outer.trans p4
  refine ⟨{ run2 with functionDept := run.functionDept, inLoop := run.inLoop,
                      currentScope := run.currentScope }, ?_, ?_⟩
  · simp [SemanticAnalyzerRun.onExitFunctionDeclarationExpressionAstNode, hd2, hl2,
      SemanticAnalyzerRun.popScope, ho2]
  · refine
      { depth := rfl
        outer := rfl
        barrier := rfl
        loop := id
        same := fun _ => ⟨rfl, rfl⟩
        keys := ?_
        saved := ?_
        reports := ?_ }
    · intro k hk
      rcases h.keys k hk with hk' | hk'
      · rw [p3] at hk'
        simp only [List.map_cons, List.mem_cons] at hk'
        rcases hk' with hk' | hk'
        · exact Or.inr (hk' ▸ List.prefix_refl _)
        · exact Or.inl hk'
      · exact Or.inr ((List.prefix_append node [0]).trans hk')
    · intro k v hk
      apply h.saved
      rw [p3]
      have hne : (k == node) = false := by
        cases hkn : k == node
        · rfl
        · have : k = node := by simpa using hkn
          rw [this, hfresh] at hk
          simp at hk
      simp [List.lookup, hne, hk]
    · obtain ⟨a2, ha, hr, hb⟩ := h.reports
      refine ⟨dup ++ a2, ?_, ?_, ?_⟩
      · show run2.out = run.out ++ (dup ++ a2)
        rw [ha, p6, List.append_assoc]
      · rw [returnErrors_append, p7, hr, p1]
        simp
      · rw [breakErrors_append, p8]
        simpa using hb

end Visited

namespace Visited

theorem cast {node : NodeId} {e : Bool} (e' : Bool) {r b : List (Option Token)}
    (r' b' : List (Option Token)) {run run' : SemanticAnalyzerRun}
    (h : Visited node e r b run run') (he : e' = true → e = true) (hr : r = r')
    (hb : b = b') : Visited node e' r' b' run run' := by
  subst hr hb
  exact @Visited.weaken node [] _ e' _ _ _ _ _ (by simpa using h) he (List.Sublist.refl _)

/-- After the visit of the child `i`, no key lies in the subtree of another
child. -/
theorem keys_sibling {node : NodeId} {i j : Nat} {e : Bool} {r b : List (Option Token)}
    {run run' : SemanticAnalyzerRun} (h : Visited (node ++ [i]) e r b run run')
    (hkeys : ∀ k ∈ run.inLoopState.map Prod.fst, ¬ (node ++ [j]) <+: k) (hij : i ≠ j) :
    ∀ k ∈ run'.inLoopState.map Prod.fst, ¬ (node ++ [j]) <+: k := by
  intro k hk hj
  rcases h.keys k hk with h1 | h1
  · exact hkeys k h1 hj
  · exact hij (prefix_child_eq h1 hj)

end Visited

theorem keys_child {node : NodeId} (tail : List Nat) {run : SemanticAnalyzerRun}
    (hkeys : ∀ k ∈ run.inLoopState.map Prod.fst, ¬ node <+: k) :
    ∀ k ∈ run.inLoopState.map Prod.fst, ¬ (node ++ tail) <+: k :=
  fun k hk h => hkeys k hk ((List.prefix_append node tail).trans h)

namespace SemanticAnalyzerRun

theorem onEnterDeclareStatementAstNode_inLoopState (run : SemanticAnalyzerRun)
    (identifier : Token) :
    (run.onEnterDeclareStatementAstNode identifier).inLoopState = run.inLoopState := by
  unfold onEnterDeclareStatementAstNode
  dsimp only
  split <;> rfl

theorem onEnterAssignStatementAstNode_inLoopState (run : SemanticAnalyzerRun)
    (identifier : Token) :
    (run.onEnterAssignStatementAstNode identifier).inLoopState = run.inLoopState := by
  unfold onEnterAssignStatementAstNode
  dsimp only
  split <;> rfl

theorem onEnterReturnStatementAstNode_inLoopState (run : SemanticAnalyzerRun)
    (returnToken : Option Token) :
    (run.onEnterReturnStatementAstNode returnToken).inLoopState = run.inLoopState := by
  unfold onEnterReturnStatementAstNode
  split <;> rfl

theorem onEnterFunctionInvocationExpressionAstNode_inLoopState (run : SemanticAnalyzerRun)
    (identifier : Token) :
    (run.onEnterFunctionInvocationExpressionAstNode identifier).inLoopState
      = run.inLoopState := by
  unfold onEnterFunctionInvocationExpressionAstNode
  split <;> rfl

theorem onEnterBuiltInFunctionInvocationExpressionAstNode_inLoopState
    (run run' : SemanticAnalyzerRun) (identifier : Token) (expressions : List Expression)
    (h : run.onEnterBuiltInFunctionInvocationExpressionAstNode identifier expressions
      = some run') : run'.inLoopState = run.inLoopState := by
  unfold onEnterBuiltInFunctionInvocationExpressionAstNode at h
  split at h
  · simp at h
  · split at h <;> (simp at h; subst h; rfl)

theorem onEnterBlockStatementAstNode_inLoopState (run : SemanticAnalyzerRun) :
    run.onEnterBlockStatementAstNode.inLoopState = run.inLoopState := rfl

end SemanticAnalyzerRun

theorem mem_keys_of_lookup {β : Type} {k : NodeId} {v : β} :
    ∀ {entries : List (NodeId × β)}, entries.lookup k = some v →
      k ∈ entries.map Prod.fst
  | [], h => by simp at h
  | (k', v') :: rest, h => by
    simp only [List.lookup_cons] at h
    cases hkk : k == k' with
    | true =>
      have : k = k' := by simpa using hkk
      simp [this]
    | false =>
      rw [hkk] at h
      simp only [List.map_cons, List.mem_cons]
      exact Or.inr (mem_keys_of_lookup h)

mutual

/-- The visit of a statement whose built-in invocations are known and whose
function literals are nested less than `2^64` deep completes, and leaves the run
as `Visited` says. -/
theorem visitStatementAstNode_visited (stollThrows stodThrows : String → Bool) :
    ∀ (s : Statement) (node : NodeId) (insideWhile : Bool) (run : SemanticAnalyzerRun),
      s.builtInsKnown = true → run.functionDept + s.functionNesting < 2 ^ 64 →
      (run.inLoop = true → insideWhile = true) →
      (∀ k ∈ run.inLoopState.map Prod.fst, ¬ node <+: k) →
      ∃ run', visitStatementAstNode stollThrows stodThrows node s run = some run' ∧
        Visited node false s.returnsOutsideFunction (s.breaksOutsideLoop insideWhile) run run'
  | Statement.Declare x e, node, w, run, hk, hd, _, hkeys => by
    have V0 := SemanticAnalyzerRun.onEnterDeclareStatementAstNode_visited node run x
    simp only [Statement.builtInsKnown] at hk
    simp only [Statement.functionNesting] at hd
    obtain ⟨run1, h1, V1⟩ := visitExpressionAstNode_visited stollThrows stodThrows e
      (node ++ [0]) (run.onEnterDeclareStatementAstNode x) hk (by rw [V0.depth]; exact hd)
      (by rw [SemanticAnalyzerRun.onEnterDeclareStatementAstNode_inLoopState]
          exact keys_child [0] hkeys)
    have V2 := SemanticAnalyzerRun.onExitDeclareStatementAstNode_visited node run1 x
    refine ⟨run1.onExitDeclareStatementAstNode x, by simp only [visitStatementAstNode,
      Option.bind_eq_bind, Option.pure_def, h1, Option.some_bind], ?_⟩
    exact ((V0.trans (V1.weaken [0] true id (List.Sublist.refl _))).trans V2).cast false _ _
      (by simp) (by simp [Statement.returnsOutsideFunction])
      (by simp [Statement.breaksOutsideLoop])
  | Statement.Break breakToken, node, w, run, _, _, hw, _ => by
    refine ⟨_, rfl, ?_⟩
    exact (SemanticAnalyzerRun.onEnterBreakStatementAstNode_visited node run breakToken w
      hw).cast false _ _ (by simp) (by simp [Statement.returnsOutsideFunction])
      (by simp [Statement.breaksOutsideLoop])
  | Statement.If e s1 none, node, w, run, hk, hd, hw, hkeys => by
    simp only [Statement.builtInsKnown, Bool.and_eq_true, Bool.and_true] at hk
    simp only [Statement.functionNesting] at hd
    obtain ⟨run1, h1, V1⟩ := visitExpressionAstNode_visited stollThrows stodThrows e
      (node ++ [0]) run hk.1 (by omega) (keys_child [0] hkeys)
    obtain ⟨run2, h2, V2⟩ := visitStatementAstNode_visited stollThrows stodThrows s1
      (node ++ [1]) w run1 hk.2 (by rw [V1.depth]; omega) (fun h => hw (V1.loop h))
      (V1.keys_sibling (keys_child [1] hkeys) (by decide))
    refine ⟨run2, by simp only [visitStatementAstNode, Option.bind_eq_bind, Option.pure_def,
      h1, h2, Option.some_bind], ?_⟩
    exact ((V1.weaken [0] true id (List.Sublist.refl _)).trans
      (V2.weaken [1] false id (List.Sublist.refl _))).cast false _ _ (by simp)
      (by simp [Statement.returnsOutsideFunction]) (by simp [Statement.breaksOutsideLoop])
  | Statement.If e s1 (some s2), node, w, run, hk, hd, hw, hkeys => by
    simp only [Statement.builtInsKnown, Bool.and_eq_true] at hk
    simp only [Statement.functionNesting] at hd
    obtain ⟨run1, h1, V1⟩ := visitExpressionAstNode_visited stollThrows stodThrows e
      (node ++ [0]) run hk.1.1 (by omega) (keys_child [0] hkeys)
    obtain ⟨run2, h2, V2⟩ := visitStatementAstNode_visited stollThrows stodThrows s1
      (node ++ [1]) w run1 hk.1.2 (by rw [V1.depth]; omega) (fun h => hw (V1.loop h))
      (V1.keys_sibling (keys_child [1] hkeys) (by decide))
    obtain ⟨run3, h3, V3⟩ := visitStatementAstNode_visited stollThrows stodThrows s2
      (node ++ [2]) w run2 hk.2 (by rw [V2.depth, V1.depth]; omega)
      (fun h => hw (V1.loop (V2.loop h)))
      (V2.keys_sibling (V1.keys_sibling (keys_child [2] hkeys) (by decide)) (by decide))
    refine ⟨run3, by simp only [visitStatementAstNode, Option.bind_eq_bind, Option.pure_def,
      h1, h2, h3, Option.some_bind], ?_⟩
    exact (((V1.weaken [0] true id (List.Sublist.refl _)).trans
      (V2.weaken [1] false id (List.Sublist.refl _))).trans
      (V3.weaken [2] false id (List.Sublist.refl _))).cast false _ _ (by simp)
      (by simp [Statement.returnsOutsideFunction]) (by simp [Statement.breaksOutsideLoop])
  | Statement.While e s, node, w, run, hk, hd, _, hkeys => by
    simp only [Statement.builtInsKnown, Bool.and_eq_true] at hk
    simp only [Statement.functionNesting] at hd
    obtain ⟨run1, h1, V1⟩ := visitExpressionAstNode_visited stollThrows stodThrows e
      (node ++ [0]) run.onEnterWhileStatementAstNode hk.1
      (by show run.functionDept + _ < _; omega) (keys_child [0] hkeys)
    obtain ⟨run2, h2, V2⟩ := visitStatementAstNode_visited stollThrows stodThrows s
      (node ++ [1]) true run1 hk.2
      (by rw [V1.depth]; show run.functionDept + _ < _; omega) (fun _ => rfl)
      (V1.keys_sibling (keys_child [1] hkeys) (by decide))
    refine ⟨run2.onExitWhileStatementAstNode, by simp only [visitStatementAstNode,
      Option.bind_eq_bind, Option.pure_def, h1, h2, Option.some_bind], ?_⟩
    exact (Visited.while_wrap ((V1.weaken [0] true id (List.Sublist.refl _)).trans
      (V2.weaken [1] false id (List.Sublist.refl _)))).cast false _ _ (by simp)
      (by simp [Statement.returnsOutsideFunction]) (by simp [Statement.breaksOutsideLoop])
  | Statement.Return none returnToken, node, w, run, _, _, _, _ => by
    refine ⟨_, rfl, ?_⟩
    exact (SemanticAnalyzerRun.onEnterReturnStatementAstNode_visited node run
      returnToken).cast false _ _ (by simp) (by simp [Statement.returnsOutsideFunction])
      (by simp [Statement.breaksOutsideLoop])
  | Statement.Return (some e) returnToken, node, w, run, hk, hd, _, hkeys => by
    have V0 := SemanticAnalyzerRun.onEnterReturnStatementAstNode_visited node run returnToken
    simp only [Statement.builtInsKnown] at hk
    simp only [Statement.functionNesting] at hd
    obtain ⟨run1, h1, V1⟩ := visitExpressionAstNode_visited stollThrows stodThrows e
      (node ++ [0]) (run.onEnterReturnStatementAstNode returnToken) hk
      (by rw [V0.depth]; exact hd)
      (by rw [SemanticAnalyzerRun.onEnterReturnStatementAstNode_inLoopState]
          exact keys_child [0] hkeys)
    refine ⟨run1, by simp only [visitStatementAstNode, Option.bind_eq_bind, Option.pure_def,
      h1], ?_⟩
    exact (V0.trans (V1.weaken [0] true id (List.Sublist.refl _))).cast false _ _ (by simp)
      (by simp [Statement.returnsOutsideFunction]) (by simp [Statement.breaksOutsideLoop])
  | Statement.Assign x e, node, w, run, hk, hd, _, hkeys => by
    have V0 := SemanticAnalyzerRun.onEnterAssignStatementAstNode_visited node run x
    simp only [Statement.builtInsKnown] at hk
    simp only [Statement.functionNesting] at hd
    obtain ⟨run1, h1, V1⟩ := visitExpressionAstNode_visited stollThrows stodThrows e
      (node ++ [0]) (run.onEnterAssignStatementAstNode x) hk (by rw [V0.depth]; exact hd)
      (by rw [SemanticAnalyzerRun.onEnterAssignStatementAstNode_inLoopState]
          exact keys_child [0] hkeys)
    refine ⟨run1, by simp only [visitStatementAstNode, Option.bind_eq_bind, Option.pure_def,
      h1], ?_⟩
    exact (V0.trans (V1.weaken [0] true id (List.Sublist.refl _))).cast false _ _ (by simp)
      (by simp [Statement.returnsOutsideFunction]) (by simp [Statement.breaksOutsideLoop])
  | Statement.Block ss, node, w, run, hk, hd, hw, hkeys => by
    simp only [Statement.builtInsKnown] at hk
    simp only [Statement.functionNesting] at hd
    obtain ⟨run1, h1, V1⟩ := visitStatementAstNodes_visited stollThrows stodThrows ss node 0 w
      run.onEnterBlockStatementAstNode hk hd hw (fun k hk' j _ => keys_child [j] hkeys k hk')
    obtain ⟨run2, h2, V2⟩ := Visited.block_wrap V1
    refine ⟨run2, by simp only [visitStatementAstNode, Option.bind_eq_bind, Option.pure_def,
      h1, Option.some_bind, h2], ?_⟩
    exact V2.cast false _ _ (by simp) (by simp [Statement.returnsOutsideFunction])
      (by simp [Statement.breaksOutsideLoop])

/-- The same for the statements of a list, the children `i`, `i + 1`, ... of
`node`. -/
theorem visitStatementAstNodes_visited (stollThrows stodThrows : String → Bool) :
    ∀ (ss : List Statement) (node : NodeId) (i : Nat) (insideWhile : Bool)
      (run : SemanticAnalyzerRun),
      Statement.builtInsKnownList ss = true →
      run.functionDept + Statement.functionNestingList ss < 2 ^ 64 →
      (run.inLoop = true → insideWhile = true) →
      (∀ k ∈ run.inLoopState.map Prod.fst, ∀ j, i ≤ j → ¬ (node ++ [j]) <+: k) →
      ∃ run', visitStatementAstNodes stollThrows stodThrows node i ss run = some run' ∧
        Visited node false (Statement.returnsOutsideFunctionList ss)
          (Statement.breaksOutsideLoopList insideWhile ss) run run'
  | [], node, i, w, run, _, _, _, _ =>
    ⟨run, rfl, (Visited.refl node run).cast false _ _ (by simp)
      (by simp [Statement.returnsOutsideFunctionList])
      (by simp [Statement.breaksOutsideLoopList])⟩
  | s :: rest, node, i, w, run, hk, hd, hw, hkeys => by
    simp only [Statement.builtInsKnownList, Bool.and_eq_true] at hk
    simp only [Statement.functionNestingList] at hd
    obtain ⟨run1, h1, V1⟩ := visitStatementAstNode_visited stollThrows stodThrows s
      (node ++ [i]) w run hk.1 (by omega) hw (fun k hk' => hkeys k hk' i (Nat.le_refl i))
    obtain ⟨run2, h2, V2⟩ := visitStatementAstNodes_visited stollThrows stodThrows rest node
      (i + 1) w run1 hk.2 (by rw [V1.depth]; omega) (fun h => hw (V1.loop h))
      (fun k hk' j hj => V1.keys_sibling (fun k' hk'' => hkeys k' hk'' j (by omega))
        (by omega) k hk')
    refine ⟨run2, by simp only [visitStatementAstNodes, Option.bind_eq_bind, h1,
      Option.some_bind, h2], ?_⟩
    exact ((V1.weaken [i] false id (List.Sublist.refl _)).trans V2).cast false _ _ (by simp)
      (by simp [Statement.returnsOutsideFunctionList])
      (by simp [Statement.breaksOutsideLoopList])

/-- The visit of an expression whose built-in invocations are known and whose
function literals are nested less than `2^64` deep completes, and leaves the
current scope and the loop flag as they were. -/
theorem visitExpressionAstNode_visited (stollThrows stodThrows : String → Bool) :
    ∀ (e : Expression) (node : NodeId) (run : SemanticAnalyzerRun),
      e.builtInsKnown = true → run.functionDept + e.functionNesting < 2 ^ 64 →
      (∀ k ∈ run.inLoopState.map Prod.fst, ¬ node <+: k) →
      ∃ run', visitExpressionAstNode stollThrows stodThrows node e run = some run' ∧
        Visited node true [] e.breaksOutsideLoop run run'
  | Expression.Literal token, node, run, _, _, _ =>
    ⟨_, rfl, (SemanticAnalyzerRun.onEnterLiteralExpressionAstNode_visited stollThrows
      stodThrows node run token).cast true _ _ id rfl (by simp [Expression.breaksOutsideLoop])⟩
  | Expression.Identifier token, node, run, _, _, _ =>
    ⟨_, rfl, (SemanticAnalyzerRun.onEnterIdentifierExpressionAstNode_visited node run
      token).cast true _ _ id rfl (by simp [Expression.breaksOutsideLoop])⟩
  | Expression.FunctionInvocation identifier es, node, run, hk, hd, hkeys => by
    have V0 := SemanticAnalyzerRun.onEnterFunctionInvocationExpressionAstNode_visited node run
      identifier
    simp only [Expression.builtInsKnown] at hk
    simp only [Expression.functionNesting] at hd
    obtain ⟨run1, h1, V1⟩ := visitExpressionAstNodes_visited stollThrows stodThrows es node 0
      (run.onEnterFunctionInvocationExpressionAstNode identifier) hk
      (by rw [V0.depth]; exact hd)
      (by rw [SemanticAnalyzerRun.onEnterFunctionInvocationExpressionAstNode_inLoopState]
          exact fun k hk' j _ => keys_child [j] hkeys k hk')
    refine ⟨run1, by simp only [visitExpressionAstNode, Option.bind_eq_bind,
      Option.pure_def, h1], ?_⟩
    exact (V0.trans V1).cast true _ _ (by simp) (by simp)
      (by simp [Expression.breaksOutsideLoop])
  | Expression.BuiltInFunctionInvocation identifier es, node, run, hk, hd, hkeys => by
    simp only [Expression.builtInsKnown, Bool.and_eq_true] at hk
    simp only [Expression.functionNesting] at hd
    obtain ⟨run0, h0, V0⟩ :=
      SemanticAnalyzerRun.onEnterBuiltInFunctionInvocationExpressionAstNode_visited node run
        identifier es hk.1
    obtain ⟨run1, h1, V1⟩ := visitExpressionAstNodes_visited stollThrows stodThrows es node 0
      run0 hk.2 (by rw [V0.depth]; exact hd)
      (by rw [SemanticAnalyzerRun.onEnterBuiltInFunctionInvocationExpressionAstNode_inLoopState
            run run0 identifier es h0]
          exact fun k hk' j _ => keys_child [j] hkeys k hk')
    refine ⟨run1, by simp only [visitExpressionAstNode, Option.bind_eq_bind,
      Option.pure_def, h0, Option.some_bind, h1], ?_⟩
    exact (V0.trans V1).cast true _ _ (by simp) (by simp)
      (by simp [Expression.breaksOutsideLoop])
  | Expression.FunctionDeclaration parameters s, node, run, hk, hd, hkeys => by
    simp only [Expression.builtInsKnown] at hk
    simp only [Expression.functionNesting] at hd
    have hfresh : run.inLoopState.lookup node = none := by
      cases hl : run.inLoopState.lookup node with
      | none => rfl
      | some v =>
        exfalso
        apply hkeys node _ (List.prefix_refl _)
        exact mem_keys_of_lookup hl
    have hdepth : run.functionDept + 1 < 2 ^ 64 := by omega
    obtain ⟨p1, p2, p3, _, _, _⟩ := SemanticAnalyzerRun.pushScope_spec
      { run with
        functionDept := run.functionDept + 1
        inLoopState := (node, run.inLoop) :: run.inLoopState
        inLoop := false } true parameters
    have henter : run.onEnterFunctionDeclarationExpressionAstNode node parameters
        = SemanticAnalyzerRun.pushScope
            { run with
              functionDept := run.functionDept + 1
              inLoopState := (node, run.inLoop) :: run.inLoopState
              inLoop := false } true parameters := by
      unfold SemanticAnalyzerRun.onEnterFunctionDeclarationExpressionAstNode
      simp only [hfresh, Nat.mod_eq_of_lt hdepth]
    obtain ⟨run1, h1, V1⟩ := visitStatementAstNode_visited stollThrows stodThrows s
      (node ++ [0]) false (run.onEnterFunctionDeclarationExpressionAstNode node parameters) hk
      (by rw [henter, p1]; show run.functionDept + 1 + _ < _; omega)
      (by rw [henter, p2]; intro h; exact absurd h (by simp))
      (by
        rw [henter, p3]
        intro k hk' hpre
        simp only [List.map_cons, List.mem_cons] at hk'
        rcases hk' with hk' | hk'
        · subst hk'
          have := hpre.length_le
          simp at this
        · exact keys_child [0] hkeys k hk' hpre)
    obtain ⟨run2, h2, V2⟩ := Visited.function_wrap parameters hfresh hdepth V1
    refine ⟨run2, by simp only [visitExpressionAstNode, Option.bind_eq_bind,
      Option.pure_def, h1, Option.some_bind, h2], ?_⟩
    exact V2.cast true _ _ id rfl (by simp [Expression.breaksOutsideLoop])
  | Expression.ObjectDeclaration keyValues, node, run, hk, hd, hkeys => by
    simp only [Expression.builtInsKnown] at hk
    simp only [Expression.functionNesting] at hd
    obtain ⟨run1, h1, V1⟩ := visitKeyValues_visited stollThrows stodThrows keyValues node 0
      run hk hd (fun k hk' j _ => keys_child [j] hkeys k hk')
    refine ⟨run1, by simp only [visitExpressionAstNode, h1], ?_⟩
    exact V1.cast true _ _ id rfl (by simp [Expression.breaksOutsideLoop])

/-- The same for the expressions of a list. -/
theorem visitExpressionAstNodes_visited (stollThrows stodThrows : String → Bool) :
    ∀ (es : List Expression) (node : NodeId) (i : Nat) (run : SemanticAnalyzerRun),
      Expression.builtInsKnownList es = true →
      run.functionDept + Expression.functionNestingList es < 2 ^ 64 →
      (∀ k ∈ run.inLoopState.map Prod.fst, ∀ j, i ≤ j → ¬ (node ++ [j]) <+: k) →
      ∃ run', visitExpressionAstNodes stollThrows stodThrows node i es run = some run' ∧
        Visited node true [] (Expression.breaksOutsideLoopList es) run run'
  | [], node, i, run, _, _, _ =>
    ⟨run, rfl, (Visited.refl node run).cast true _ _ id rfl
      (by simp [Expression.breaksOutsideLoopList])⟩
  | e :: rest, node, i, run, hk, hd, hkeys => by
    simp only [Expression.builtInsKnownList, Bool.and_eq_true] at hk
    simp only [Expression.functionNestingList] at hd
    obtain ⟨run1, h1, V1⟩ := visitExpressionAstNode_visited stollThrows stodThrows e
      (node ++ [i]) run hk.1 (by omega) (fun k hk' => hkeys k hk' i (Nat.le_refl i))
    obtain ⟨run2, h2, V2⟩ := visitExpressionAstNodes_visited stollThrows stodThrows rest node
      (i + 1) run1 hk.2 (by rw [V1.depth]; omega)
      (fun k hk' j hj => V1.keys_sibling (fun k' hk'' => hkeys k' hk'' j (by omega))
        (by omega) k hk')
    refine ⟨run2, by simp only [visitExpressionAstNodes, Option.bind_eq_bind, h1,
      Option.some_bind, h2], ?_⟩
    exact ((V1.weaken [i] true id (List.Sublist.refl _)).trans V2).cast true _ _ (by simp)
      (by simp) (by simp [Expression.breaksOutsideLoopList])

/-- The same for the values of an object declaration. -/
theorem visitKeyValues_visited (stollThrows stodThrows : String → Bool) :
    ∀ (kvs : List (Token × Expression)) (node : NodeId) (i : Nat)
      (run : SemanticAnalyzerRun),
      Expression.builtInsKnownKeyValues kvs = true →
      run.functionDept + Expression.functionNestingKeyValues kvs < 2 ^ 64 →
      (∀ k ∈ run.inLoopState.map Prod.fst, ∀ j, i ≤ j → ¬ (node ++ [j]) <+: k) →
      ∃ run', visitKeyValues stollThrows stodThrows node i kvs run = some run' ∧
        Visited node true [] (Expression.breaksOutsideLoopKeyValues kvs) run run'
  | [], node, i, run, _, _, _ =>
    ⟨run, rfl, (Visited.refl node run).cast true _ _ id rfl
      (by simp [Expression.breaksOutsideLoopKeyValues])⟩
  | (key, e) :: rest, node, i, run, hk, hd, hkeys => by
    simp only [Expression.builtInsKnownKeyValues, Bool.and_eq_true] at hk
    simp only [Expression.functionNestingKeyValues] at hd
    obtain ⟨run1, h1, V1⟩ := visitExpressionAstNode_visited stollThrows stodThrows e
      (node ++ [i]) run hk.1 (by omega) (fun k hk' => hkeys k hk' i (Nat.le_refl i))
    obtain ⟨run2, h2, V2⟩ := visitKeyValues_visited stollThrows stodThrows rest node
      (i + 1) run1 hk.2 (by rw [V1.depth]; omega)
      (fun k hk' j hj => V1.keys_sibling (fun k' hk'' => hkeys k' hk'' j (by omega))
        (by omega) k hk')
    refine ⟨run2, by simp only [visitKeyValues, Option.bind_eq_bind, h1,
      Option.some_bind, h2], ?_⟩
    exact ((V1.weaken [i] true id (List.Sublist.refl _)).trans V2).cast true _ _ (by simp)
      (by simp) (by simp [Expression.breaksOutsideLoopKeyValues])

end

/-- The visit of a whole script from a fresh run completes when the built-in
invocations of the script are known and its function literals are nested less
than `2^64` deep. -/
theorem visitScriptAstNode_visited (stollThrows stodThrows : String → Bool) (script : Script)
    (hknown : Statement.builtInsKnownList script.statements = true)
    (hdepth : Statement.functionNestingList script.statements < 2 ^ 64) :
    ∃ run, visitScriptAstNode stollThrows stodThrows script SemanticAnalyzerRun.new = some run ∧
      Visited [] false (Statement.returnsOutsideFunctionList script.statements)
        (Statement.breaksOutsideLoopList false script.statements) SemanticAnalyzerRun.new run :=
  visitStatementAstNodes_visited stollThrows stodThrows script.statements [] 0 false
    SemanticAnalyzerRun.new hknown
    (by show 0 + _ < _; omega) (fun h => absurd h (by decide))
    (fun k hk => absurd hk (by simp [SemanticAnalyzerRun.new]))

/-- C12: the analysis of a script (built-in invocations naming table entries,
function literals nested less than `2^64` deep) completes, and every `Break`
with no enclosing `While` inside its own function, or inside the script when it
is in no function, gets a break-placement report: the break tokens of these
nodes, in source order, are a sublist of the tokens of the break-placement
reports.  In particular the `break` of
`while (true) { var f = function() { break; }; }` is reported. -/
theorem C12_break_outside_loop (stollThrows stodThrows : String → Bool) (script : Script)
    (hknown : Statement.builtInsKnownList script.statements = true)
    (hdepth : Statement.functionNestingList script.statements < 2 ^ 64) :
    (∃ run, visitScriptAstNode stollThrows stodThrows script SemanticAnalyzerRun.new = some run ∧
      List.Sublist (Statement.breaksOutsideLoopList false script.statements)
        (breakErrors run.out)) ∧
    (visitScriptAstNode stollThrows stodThrows
        ⟨[Statement.While (Expression.Literal ⟨"true", .BooleanLiteral, 7, 1, 8⟩)
            (Statement.Block
              [Statement.Declare ⟨"f", .Identifier, 20, 1, 21⟩
                (Expression.FunctionDeclaration []
                  (Statement.Block
                    [Statement.Break (some ⟨"break", .Break, 37, 1, 38⟩)]))])]⟩
        SemanticAnalyzerRun.new).map (fun run => (run.out, run.error))
      = some ([(some ⟨"break", .Break, 37, 1, 38⟩,
          "Break statements can only be used from within loops.")], true) := by
  constructor
  · obtain ⟨run, hrun, V⟩ := visitScriptAstNode_visited stollThrows stodThrows script hknown
      hdepth
    obtain ⟨added, hout, _, hbreaks⟩ := V.reports
    refine ⟨run, hrun, ?_⟩
    rw [hout]
    simpa [SemanticAnalyzerRun.new] using hbreaks
  · rfl

theorem C12_break_outside_loop_witness :
    Statement.builtInsKnownList
        [Statement.If (Expression.Literal ⟨"true", .BooleanLiteral, 4, 1, 5⟩)
          (Statement.Block [Statement.Break (some ⟨"break", .Break, 12, 1, 13⟩)]) none] = true ∧
    (∃ run, visitScriptAstNode (fun _ => false) (fun _ => false)
        ⟨[Statement.If (Expression.Literal ⟨"true", .BooleanLiteral, 4, 1, 5⟩)
          (Statement.Block [Statement.Break (some ⟨"break", .Break, 12, 1, 13⟩)]) none]⟩
        SemanticAnalyzerRun.new = some run ∧
      List.Sublist [some ⟨"break", .Break, 12, 1, 13⟩] (breakErrors run.out)) :=
  ⟨rfl, (C12_break_outside_loop (fun _ => false) (fun _ => false)
    ⟨[Statement.If (Expression.Literal ⟨"true", .BooleanLiteral, 4, 1, 5⟩)
      (Statement.Block [Statement.Break (some ⟨"break", .Break, 12, 1, 13⟩)]) none]⟩
    rfl (by decide)).1⟩

/-- C14: the analysis of a script (built-in invocations naming table entries,
function literals nested less than `2^64` deep) completes, and the tokens of its
return-placement reports are exactly the return tokens of the `Return` nodes
that have no enclosing `FunctionDeclaration`, in source order: such a node is
reported, with or without an expression, and a `Return` inside a function body
is not, at any depth. -/
theorem C14_return_outside_function (stollThrows stodThrows : String → Bool)
    (script : Script)
    (hknown : Statement.builtInsKnownList script.statements = true)
    (hdepth : Statement.functionNestingList script.statements < 2 ^ 64) :
    ∃ run, visitScriptAstNode stollThrows stodThrows script SemanticAnalyzerRun.new = some run ∧
      returnErrors run.out = Statement.returnsOutsideFunctionList script.statements := by
  obtain ⟨run, hrun, V⟩ := visitScriptAstNode_visited stollThrows stodThrows script hknown
    hdepth
  obtain ⟨added, hout, hreturns, _⟩ := V.reports
  refine ⟨run, hrun, ?_⟩
  rw [hout]
  simpa [SemanticAnalyzerRun.new, returnErrors] using hreturns

theorem C14_return_outside_function_witness :
    ∃ run, visitScriptAstNode (fun _ => false) (fun _ => false)
        ⟨[Statement.While (Expression.Literal ⟨"true", .BooleanLiteral, 7, 1, 8⟩)
            (Statement.Block [Statement.Return none (some ⟨"return", .Return, 15, 1, 16⟩)]),
          Statement.Declare ⟨"f", .Identifier, 30, 2, 5⟩
            (Expression.FunctionDeclaration []
              (Statement.Block
                [Statement.While (Expression.Literal ⟨"true", .BooleanLiteral, 55, 2, 30⟩)
                  (Statement.Block
                    [Statement.Return
                      (some (Expression.Literal ⟨"1", .IntegerLiteral, 70, 2, 45⟩))
                      (some ⟨"return", .Return, 63, 2, 38⟩)])]))]⟩
        SemanticAnalyzerRun.new = some run ∧
      returnErrors run.out = [some ⟨"return", .Return, 15, 1, 16⟩] :=
  C14_return_outside_function (fun _ => false) (fun _ => false)
    ⟨[Statement.While (Expression.Literal ⟨"true", .BooleanLiteral, 7, 1, 8⟩)
        (Statement.Block [Statement.Return none (some ⟨"return", .Return, 15, 1, 16⟩)]),
      Statement.Declare ⟨"f", .Identifier, 30, 2, 5⟩
        (Expression.FunctionDeclaration []
          (Statement.Block
            [Statement.While (Expression.Literal ⟨"true", .BooleanLiteral, 55, 2, 30⟩)
              (Statement.Block
                [Statement.Return
                  (some (Expression.Literal ⟨"1", .IntegerLiteral, 70, 2, 45⟩))
                  (some ⟨"return", .Return, 63, 2, 38⟩)])]))]⟩
    rfl (by decide)

/-- C19: when every `BuiltInFunctionInvocation` of a script names an entry of the
built-in table (and function literals are nested less than `2^64` deep, the
range of the depth counter), the analysis runs into no fatal assertion: the walk
of the whole script completes, and afterwards the current scope has no outer
scope and is on the same side of the function barrier as the root scope, the
function depth is 0, and `isValid` gives its verdict. -/
theorem C19_pass_completes (stollThrows stodThrows : String → Bool) (script : Script)
    (hknown : Statement.builtInsKnownList script.statements = true)
    (hdepth : Statement.functionNestingList script.statements < 2 ^ 64) :
    ∃ run, visitScriptAstNode stollThrows stodThrows script SemanticAnalyzerRun.new = some run ∧
      run.currentScope.outerScope = none ∧
      run.currentScope.outerScopeCrossesFunctionBarrier
        = Scope.new.outerScopeCrossesFunctionBarrier ∧
      run.functionDept = 0 ∧
      SemanticAnalyzer.isValid stollThrows stodThrows script = some (!run.hasErrors) := by
  obtain ⟨run, hrun, V⟩ := visitScriptAstNode_visited stollThrows stodThrows script hknown
    hdepth
  refine ⟨run, hrun, ?_, ?_, ?_, ?_⟩
  · rw [V.outer]; rfl
  · rw [V.barrier]; rfl
  · rw [V.depth]; rfl
  · simp only [SemanticAnalyzer.isValid, hrun, Option.bind_eq_bind, Option.some_bind,
      Option.pure_def]

theorem C19_pass_completes_witness :
    Statement.builtInsKnownList
      [Statement.Declare ⟨"f", .Identifier, 4, 1, 5⟩
        (Expression.FunctionDeclaration [⟨"a", .Identifier, 17, 1, 18⟩]
          (Statement.Block
            [Statement.Return
              (some (Expression.BuiltInFunctionInvocation ⟨"add", .Identifier, 29, 1, 30⟩
                [Expression.Identifier ⟨"a", .Identifier, 33, 1, 34⟩,
                 Expression.Literal ⟨"1", .IntegerLiteral, 36, 1, 37⟩]))
              (some ⟨"return", .Return, 22, 1, 23⟩)]))] = true ∧
    ∃ run, visitScriptAstNode (fun _ => false) (fun _ => false)
      ⟨[Statement.Declare ⟨"f", .Identifier, 4, 1, 5⟩
        (Expression.FunctionDeclaration [⟨"a", .Identifier, 17, 1, 18⟩]
          (Statement.Block
            [Statement.Return
              (some (Expression.BuiltInFunctionInvocation ⟨"add", .Identifier, 29, 1, 30⟩
                [Expression.Identifier ⟨"a", .Identifier, 33, 1, 34⟩,
                 Expression.Literal ⟨"1", .IntegerLiteral, 36, 1, 37⟩]))
              (some ⟨"return", .Return, 22, 1, 23⟩)]))]⟩ SemanticAnalyzerRun.new = some run ∧
      run.currentScope.outerScope = none ∧
      run.currentScope.outerScopeCrossesFunctionBarrier
        = Scope.new.outerScopeCrossesFunctionBarrier ∧
      run.functionDept = 0 ∧
      SemanticAnalyzer.isValid (fun _ => false) (fun _ => false)
      ⟨[Statement.Declare ⟨"f", .Identifier, 4, 1, 5⟩
        (Expression.FunctionDeclaration [⟨"a", .Identifier, 17, 1, 18⟩]
          (Statement.Block
            [Statement.Return
              (some (Expression.BuiltInFunctionInvocation ⟨"add", .Identifier, 29, 1, 30⟩
                [Expression.Identifier ⟨"a", .Identifier, 33, 1, 34⟩,
                 Expression.Literal ⟨"1", .IntegerLiteral, 36, 1, 37⟩]))
              (some ⟨"return", .Return, 22, 1, 23⟩)]))]⟩ = some (!run.hasErrors) :=
  ⟨by decide, C19_pass_completes (fun _ => false) (fun _ => false)
      ⟨[Statement.Declare ⟨"f", .Identifier, 4, 1, 5⟩
        (Expression.FunctionDeclaration [⟨"a", .Identifier, 17, 1, 18⟩]
          (Statement.Block
            [Statement.Return
              (some (Expression.BuiltInFunctionInvocation ⟨"add", .Identifier, 29, 1, 30⟩
                [Expression.Identifier ⟨"a", .Identifier, 33, 1, 34⟩,
                 Expression.Literal ⟨"1", .IntegerLiteral, 36, 1, 37⟩]))
              (some ⟨"return", .Return, 22, 1, 23⟩)]))]⟩ (by decide) (by decide)⟩

/-! ## Resynchronisation in `expect` -/

theorem Parser.expectLoop_skip (reader : String) (out : List String) (type : TokenType)
    (errorMessage : String) (t : Token) (rest : List Token) (ht : t.tokenType = type)
    (hne : type ≠ TokenType.EndOfFile) :
    ∀ (skipped : List Token) (fuel : Nat) (error : Bool),
      (∀ s ∈ skipped, s.tokenType ≠ type ∧ s.tokenType ≠ TokenType.EndOfFile) →
      skipped.length + 1 ≤ fuel →
      Parser.expectLoop type errorMessage fuel true error
          ⟨⟨reader, skipped ++ t :: rest, true⟩, out⟩
        = some (t, if skipped.isEmpty then error else true, ⟨⟨reader, rest, true⟩, out⟩) := by
  have hte : t.tokenType ≠ TokenType.EndOfFile := by rw [ht]; exact hne
  intro skipped
  induction skipped with
  | nil =>
    intro fuel error _ hfuel
    cases fuel with
    | zero => simp at hfuel
    | succ fuel =>
      simp [Parser.expectLoop, ht, hne, Parser.nextToken, Tokenizer.nextToken,
        Tokenizer.currentToken, Parser.currentToken, hte]
  | cons s skipped ih =>
    intro fuel error hs hfuel
    cases fuel with
    | zero => simp at hfuel
    | succ fuel =>
      have h1 := hs s (List.mem_cons_self _ _)
      have hrest := ih fuel true (fun s' hs' => hs s' (List.mem_cons_of_mem _ hs'))
        (by simpa using hfuel)
      have hstep : Parser.expectLoop type errorMessage (fuel + 1) true error
          ⟨⟨reader, s :: skipped ++ t :: rest, true⟩, out⟩
          = Parser.expectLoop type errorMessage fuel true true
              ⟨⟨reader, skipped ++ t :: rest, true⟩, out⟩ := by
        simp [Parser.expectLoop, h1.1, h1.2, Parser.nextToken, Tokenizer.nextToken,
          Tokenizer.currentToken, Parser.currentToken]
      rw [hstep, hrest]
      simp

/-- C21: let the expected type not be the end-of-file type.  When the current
token has the expected type, `Parser::expect` writes no diagnostic, leaves the
error flag as it is, returns the current token and advances the tokenizer once.
When the current token `t1` and the tokens `skipped` after it are not of the
expected type (and not the end of file) and the next token `t` is, `expect`
writes exactly one diagnostic, about `t1`, sets the error flag, returns `t` and
leaves the cursor right after `t`; a fuel of two more than the number of skipped
tokens is enough. -/
theorem C21_expect_resynchronises (reader : String) (out : List String) (type : TokenType)
    (error : Bool) (errorMessage : String) (hne : type ≠ TokenType.EndOfFile) :
    (∀ (p : Parser) (fuel : Nat), p.currentToken.tokenType = type →
      Parser.expect (fuel + 1) p type error errorMessage
          = some (p.currentToken, error, p.nextToken) ∧
        p.nextToken.out = p.out) ∧
    (∀ (t : Token) (rest : List Token) (fuel : Nat), t.tokenType = type →
      Parser.expect (fuel + 1) ⟨⟨reader, t :: rest, true⟩, out⟩ type error errorMessage
        = some (t, error, ⟨⟨reader, rest, true⟩, out⟩)) ∧
    (∀ (t1 : Token) (skipped : List Token) (t : Token) (rest : List Token) (fuel : Nat),
      (∀ s ∈ t1 :: skipped, s.tokenType ≠ type ∧ s.tokenType ≠ TokenType.EndOfFile) →
      t.tokenType = type → skipped.length + 2 ≤ fuel →
      Parser.expect fuel ⟨⟨reader, t1 :: skipped ++ t :: rest, true⟩, out⟩ type error
          errorMessage
        = some (t, true,
            ⟨⟨reader, rest, true⟩,
             out ++ [reportErrorText reader t1
                (errorMessage ++ ", but was type " ++ Token.typeToString t1.tokenType
                  ++ "with value '" ++ t1.value ++ "'.")]⟩)) := by
  refine ⟨fun p fuel h => ⟨Parser.expect_of_match fuel p type error errorMessage h hne, rfl⟩,
    fun t rest fuel h => Parser.expect_mk fuel reader t rest out type error errorMessage h hne,
    ?_⟩
  intro t1 skipped t rest fuel hs ht hfuel
  have h1 := hs t1 (List.mem_cons_self _ _)
  obtain ⟨fuel, rfl⟩ : ∃ n, fuel = n + 1 := ⟨fuel - 1, by omega⟩
  have hstep : Parser.expect (fuel + 1) ⟨⟨reader, t1 :: skipped ++ t :: rest, true⟩, out⟩ type
      error errorMessage
      = Parser.expectLoop type errorMessage fuel true true
          ⟨⟨reader, skipped ++ t :: rest, true⟩,
           out ++ [reportErrorText reader t1
              (errorMessage ++ ", but was type " ++ Token.typeToString t1.tokenType
                ++ "with value '" ++ t1.value ++ "'.")]⟩ := by
    simp [Parser.expect, Parser.expectLoop, h1.1, h1.2, Parser.nextToken, Tokenizer.nextToken,
      Tokenizer.currentToken, Parser.currentToken, Parser.reportError]
  rw [hstep, Parser.expectLoop_skip reader _ type errorMessage t rest ht hne skipped fuel true
    (fun s hs' => hs s (List.mem_cons_of_mem _ hs')) (by omega)]
  simp

/-- Witness of C21: a `)` is expected on `a b ) ;`. -/
theorem C21_expect_resynchronises_witness :
    Parser.expect 3
        ⟨⟨"a b );", [⟨"a", .Identifier, 0, 1, 1⟩, ⟨"b", .Identifier, 2, 1, 3⟩,
          ⟨")", .RightParen, 4, 1, 5⟩, ⟨";", .SemiColon, 5, 1, 6⟩], true⟩, []⟩
        TokenType.RightParen false "Expected a right paren"
      = some (⟨")", .RightParen, 4, 1, 5⟩, true,
          ⟨⟨"a b );", [⟨";", .SemiColon, 5, 1, 6⟩], true⟩,
           [] ++ [reportErrorText "a b );" ⟨"a", .Identifier, 0, 1, 1⟩
              ("Expected a right paren" ++ ", but was type "
                ++ Token.typeToString TokenType.Identifier
                ++ "with value '" ++ "a" ++ "'.")]⟩) :=
  (C21_expect_resynchronises "a b );" [] TokenType.RightParen false "Expected a right paren"
    (by decide)).2.2 ⟨"a", .Identifier, 0, 1, 1⟩ [⟨"b", .Identifier, 2, 1, 3⟩]
    ⟨")", .RightParen, 4, 1, 5⟩ [⟨";", .SemiColon, 5, 1, 6⟩] 3 (by decide) rfl (by decide)

/-! ## The lookups of `Scope` -/

theorem Scope.findLoop_eq_findSome (name : String) :
    ∀ (s : Scope) (crossed : Nat),
      Scope.findLoop name true s (decide (0 < crossed))
        = (s.outwardWalk crossed).findSome? (visibleBinding name)
  | Scope.mk none localScope barrier, crossed => by
    cases hl : localScope.lookup name with
    | none =>
      simp [Scope.findLoop, Scope.findLocally, Scope.localScope, Scope.outwardWalk,
        visibleBinding, hl]
    | some vd =>
      cases hb : vd.isFullyBound <;> by_cases hc : 0 < crossed <;>
        simp [Scope.findLoop, Scope.findLocally, Scope.localScope, Scope.outwardWalk,
          visibleBinding, VariableDefinition.visible, hl, hb, hc]
  | Scope.mk (some outer) localScope barrier, crossed => by
    have ih1 := Scope.findLoop_eq_findSome name outer (crossed + 1)
    have ih0 := Scope.findLoop_eq_findSome name outer crossed
    simp only [Nat.zero_lt_succ, decide_True] at ih1
    cases hl : localScope.lookup name with
    | none =>
      cases barrier
      · simpa [Scope.findLoop, Scope.findLocally, Scope.localScope, Scope.outwardWalk,
          visibleBinding, hl] using ih0
      · simpa [Scope.findLoop, Scope.findLocally, Scope.localScope, Scope.outwardWalk,
          visibleBinding, hl] using ih1
    | some vd =>
      cases hb : vd.isFullyBound <;> by_cases hc : 0 < crossed <;> cases barrier <;>
        simp only [hc, decide_True, decide_False] at ih0 <;>
        simp [Scope.findLoop, Scope.findLocally, Scope.localScope, Scope.outwardWalk,
          visibleBinding, VariableDefinition.visible, hl, hb, hc] <;>
        first
        | exact ih0
        | exact ih1

theorem Scope.find_eq_innermostVisible (s : Scope) (name : String) :
    s.find name true = s.innermostVisible name :=
  Scope.findLoop_eq_findSome name s 0

theorem Scope.findLoop_of_barrier_closed (name : String) :
    ∀ (s : Scope) (vd : VariableDefinition),
      Scope.findLoop name false s false = some vd →
      Scope.findLoop name true s false = some vd ∧ vd.isFullyBound = true
  | Scope.mk none localScope barrier, vd => by
    cases hl : localScope.lookup name with
    | none => simp [Scope.findLoop, Scope.findLocally, Scope.localScope, hl]
    | some vd' =>
      cases hb : vd'.isFullyBound <;>
        simp [Scope.findLoop, Scope.findLocally, Scope.localScope, hl, hb]
      intro h
      subst h
      exact ⟨rfl, hb⟩
  | Scope.mk (some outer) localScope barrier, vd => by
    have ih := Scope.findLoop_of_barrier_closed name outer vd
    cases hl : localScope.lookup name with
    | none =>
      cases barrier
      · simpa [Scope.findLoop, Scope.findLocally, Scope.localScope, hl] using ih
      · simp [Scope.findLoop, Scope.findLocally, Scope.localScope, hl]
    | some vd' =>
      cases hb : vd'.isFullyBound
      · cases barrier
        · simpa [Scope.findLoop, Scope.findLocally, Scope.localScope, hl, hb] using ih
        · simp [Scope.findLoop, Scope.findLocally, Scope.localScope, hl, hb]
      · simp [Scope.findLoop, Scope.findLocally, Scope.localScope, hl, hb]
        intro h
        subst h
        exact ⟨rfl, hb⟩

/-- C22: `Scope::find` with `canCrossFunctionBarrier = true` returns the binding of
the innermost scope on the outward walk that holds the name with a visible
binding (fully bound, or at least one function-barrier link between the starting
scope and the holding scope); it returns nothing exactly when no scope of the
chain holds a visible binding; and a partially bound binding that it returns
comes from a scope behind at least one function-barrier link. -/
theorem C22_find_innermost_visible (s : Scope) (name : String) :
    s.find name true = s.innermostVisible name ∧
    (s.find name true = none ↔
      ∀ entry ∈ s.outwardWalk 0, ∀ vd, entry.2.lookup name = some vd →
        vd.visible entry.1 = false) ∧
    (∀ vd, s.find name true = some vd → vd.isFullyBound = false →
      ∃ entry ∈ s.outwardWalk 0, 0 < entry.1 ∧ entry.2.lookup name = some vd) := by
  refine ⟨Scope.find_eq_innermostVisible s name, ?_, ?_⟩
  · rw [Scope.find_eq_innermostVisible, Scope.innermostVisible, List.findSome?_eq_none_iff]
    constructor
    · intro h entry he vd hvd
      have := h entry he
      simp only [visibleBinding, hvd] at this
      cases hv : vd.visible entry.1
      · rfl
      · simp [hv] at this
    · intro h entry he
      cases hl : entry.2.lookup name with
      | none => simp [visibleBinding, hl]
      | some vd => simp [visibleBinding, hl, h entry he vd hl]
  · intro vd hfind hpartial
    rw [Scope.find_eq_innermostVisible, Scope.innermostVisible] at hfind
    obtain ⟨entry, he, hentry⟩ := List.exists_of_findSome?_eq_some hfind
    refine ⟨entry, he, ?_⟩
    cases hl : entry.2.lookup name with
    | none => simp [visibleBinding, hl] at hentry
    | some vd' =>
      simp only [visibleBinding, hl] at hentry
      cases hv : vd'.visible entry.1
      · simp [hv] at hentry
      · simp only [hv, if_true, Option.some.injEq] at hentry
        subst hentry
        simp only [VariableDefinition.visible, hpartial, Bool.false_or,
          decide_eq_true_eq] at hv
        exact ⟨hv, rfl⟩

/-- C26: a binding that `Scope::find` returns when it may not cross a function
barrier is also what it returns when it may, and that binding is fully bound. -/
theorem C26_find_without_crossing (s : Scope) (name : String) (vd : VariableDefinition)
    (h : s.find name false = some vd) :
    s.find name true = some vd ∧ vd.isFullyBound = true :=
  Scope.findLoop_of_barrier_closed name s vd h

theorem C26_find_without_crossing_witness :
    (Scope.mk (some (Scope.mk none [("x", ⟨⟨"x", .Identifier, 4, 1, 5⟩, true⟩)] true))
        [("y", ⟨⟨"y", .Identifier, 20, 2, 5⟩, false⟩)] false).find "x" false
      = some ⟨⟨"x", .Identifier, 4, 1, 5⟩, true⟩ ∧
    (Scope.mk (some (Scope.mk none [("x", ⟨⟨"x", .Identifier, 4, 1, 5⟩, true⟩)] true))
        [("y", ⟨⟨"y", .Identifier, 20, 2, 5⟩, false⟩)] false).find "x" true
      = some ⟨⟨"x", .Identifier, 4, 1, 5⟩, true⟩ ∧
    (⟨⟨"x", .Identifier, 4, 1, 5⟩, true⟩ : VariableDefinition).isFullyBound = true :=
  ⟨by decide, C26_find_without_crossing _ "x" _ (by decide)⟩

/-! ## Parameters of a function literal -/

theorem SemanticAnalyzerRun.pushScopeLoop_parameters :
    ∀ (items : List Token) (run : SemanticAnalyzerRun) (outer : Option Scope)
      (locals : List (String × VariableDefinition)) (barrier : Bool) (seen : List String),
      run.currentScope = Scope.mk outer locals barrier →
      (∀ name vd, locals.lookup name = some vd → vd.isFullyBound = true) →
      (∀ name, name ∈ seen ↔ locals.lookup name ≠ none) →
      (SemanticAnalyzerRun.pushScopeLoop items run).out
          = run.out ++ (repeatedParameters seen items).map
              (fun p => (some p, "Duplicate identifier found within the same scope.")) ∧
        ∃ locals', (SemanticAnalyzerRun.pushScopeLoop items run).currentScope
            = Scope.mk outer locals' barrier ∧
          ∀ name, locals'.lookup name
            = match locals.lookup name with
              | some vd => some vd
              | none => (items.find? fun p => p.value == name).map fun p => ⟨p, true⟩ := by
  intro items
  induction items with
  | nil =>
    intro run outer locals barrier seen hscope _ _
    refine ⟨by simp [SemanticAnalyzerRun.pushScopeLoop, repeatedParameters], locals, hscope, ?_⟩
    intro name
    cases locals.lookup name <;> simp
  | cons item items ih =>
    intro run outer locals barrier seen hscope hbound hseen
    cases hl : locals.lookup item.value with
    | some vd =>
      have hvd := hbound _ _ hl
      have hmem : item.value ∈ seen := (hseen _).2 (by simp [hl])
      have hstep : SemanticAnalyzerRun.pushScopeLoop (item :: items) run
          = SemanticAnalyzerRun.pushScopeLoop items
              (run.reportError (some item)
                "Duplicate identifier found within the same scope.") := by
        simp [SemanticAnalyzerRun.pushScopeLoop, Scope.findLocally, Scope.localScope, hscope,
          hl, hvd]
      obtain ⟨hout, locals', hscope', hlook⟩ := ih
        (run.reportError (some item) "Duplicate identifier found within the same scope.")
        outer locals barrier (seen ++ [item.value]) hscope hbound
        (by
          intro name
          rw [← hseen name]
          simp only [List.mem_append, List.mem_singleton]
          constructor
          · rintro (h | h)
            · exact h
            · rw [h]; exact hmem
          · exact Or.inl)
      rw [hstep]
      refine ⟨?_, locals', hscope', ?_⟩
      · rw [hout]
        simp [repeatedParameters, hmem, SemanticAnalyzerRun.reportError]
      · intro name
        rw [hlook name]
        cases hn : locals.lookup name with
        | some vd' => rfl
        | none =>
          have hne : (item.value == name) = false := by
            cases h : item.value == name
            · rfl
            · have heq : item.value = name := by simpa using h
              rw [heq, hn] at hl
              cases hl
          simp [List.find?, hne]
    | none =>
      have hnot : item.value ∉ seen := fun h => (hseen _).1 h hl
      have hstep : SemanticAnalyzerRun.pushScopeLoop (item :: items) run
          = SemanticAnalyzerRun.pushScopeLoop items
              { run with
                currentScope := Scope.mk outer ((item.value, ⟨item, true⟩) :: locals) barrier } := by
        simp [SemanticAnalyzerRun.pushScopeLoop, Scope.findLocally, Scope.define,
          Scope.localScope, Scope.outerScope, Scope.outerScopeCrossesFunctionBarrier, hscope, hl]
      obtain ⟨hout, locals', hscope', hlook⟩ := ih
        { run with
          currentScope := Scope.mk outer ((item.value, ⟨item, true⟩) :: locals) barrier }
        outer ((item.value, ⟨item, true⟩) :: locals) barrier (seen ++ [item.value]) rfl
        (by
          intro name vd h
          simp only [List.lookup_cons] at h
          cases hn : name == item.value
          · rw [hn] at h
            exact hbound _ _ h
          · rw [hn] at h
            cases h
            rfl)
        (by
          intro name
          simp only [List.mem_append, List.mem_singleton, List.lookup_cons]
          cases hn : name == item.value
          · have hne : name ≠ item.value := by simpa using hn
            simp [hne, hseen name]
          · have heq : name = item.value := by simpa using hn
            simp [heq])
      rw [hstep]
      refine ⟨?_, locals', hscope', ?_⟩
      · rw [hout]
        simp [repeatedParameters, hnot]
      · intro name
        rw [hlook name]
        simp only [List.lookup_cons]
        cases hn : name == item.value
        · have hne : (item.value == name) = false := by
            have : name ≠ item.value := by simpa using hn
            simpa using fun h : item.value = name => this h.symm
          simp [List.find?, hne]
        · have heq : name = item.value := by simpa using hn
          subst heq
          simp [List.find?, hl]

theorem SemanticAnalyzerRun.onEnterFunctionDeclarationExpressionAstNode_parameters
    (run : SemanticAnalyzerRun) (node : NodeId) (parameters : List Token) :
    (run.onEnterFunctionDeclarationExpressionAstNode node parameters).out
        = run.out ++ (repeatedParameters [] parameters).map
            (fun p => (some p, "Duplicate identifier found within the same scope.")) ∧
      ∃ locals', (run.onEnterFunctionDeclarationExpressionAstNode node parameters).currentScope
          = Scope.mk (some run.currentScope) locals' true ∧
        ∀ name, locals'.lookup name
          = (parameters.find? fun p => p.value == name).map fun p => ⟨p, true⟩ := by
  unfold SemanticAnalyzerRun.onEnterFunctionDeclarationExpressionAstNode
    SemanticAnalyzerRun.pushScope
  dsimp only
  split
  · exact SemanticAnalyzerRun.pushScopeLoop_parameters parameters _ (some run.currentScope) []
      true [] rfl (by simp) (by simp)
  · exact SemanticAnalyzerRun.pushScopeLoop_parameters parameters _ (some run.currentScope) []
      true [] rfl (by simp) (by simp)

/-- C23: entering a `FunctionDeclaration` node adds to the reports exactly one
duplicate-identifier report for each parameter whose name already occurs among
the parameters before it, on that parameter and in source order; the scope it
pushes lies behind a function barrier on the scope that was current, and holds
exactly the parameter names, each fully bound (to its first token).  After the
whole node is visited (body with known built-ins, function literals nested less
than `2^64` deep, a node not entered before), the current scope is the one
from before the node. -/
theorem C23_function_parameters (stollThrows stodThrows : String → Bool)
    (run : SemanticAnalyzerRun) (node : NodeId) (parameters : List Token)
    (statement : Statement)
    (hknown : (Expression.FunctionDeclaration parameters statement).builtInsKnown = true)
    (hdepth : run.functionDept
      + (Expression.FunctionDeclaration parameters statement).functionNesting < 2 ^ 64)
    (hkeys : ∀ k ∈ run.inLoopState.map Prod.fst, ¬ node <+: k) :
    ((run.onEnterFunctionDeclarationExpressionAstNode node parameters).out
        = run.out ++ (repeatedParameters [] parameters).map
            (fun p => (some p, "Duplicate identifier found within the same scope.")) ∧
      ∃ locals, (run.onEnterFunctionDeclarationExpressionAstNode node parameters).currentScope
          = Scope.mk (some run.currentScope) locals true ∧
        ∀ name, locals.lookup name
          = (parameters.find? fun p => p.value == name).map fun p => ⟨p, true⟩) ∧
    ∃ run', visitExpressionAstNode stollThrows stodThrows node
        (Expression.FunctionDeclaration parameters statement) run = some run' ∧
      run'.currentScope = run.currentScope := by
  refine ⟨SemanticAnalyzerRun.onEnterFunctionDeclarationExpressionAstNode_parameters run node
    parameters, ?_⟩
  obtain ⟨run', hrun, V⟩ := visitExpressionAstNode_visited stollThrows stodThrows
    (Expression.FunctionDeclaration parameters statement) node run hknown hdepth hkeys
  exact ⟨run', hrun, (V.same rfl).1⟩

/-- Witness of C23 on `function(a, b, a) { }`. -/
theorem C23_function_parameters_witness :
    ((SemanticAnalyzerRun.new.onEnterFunctionDeclarationExpressionAstNode [0, 0]
          [⟨"a", .Identifier, 17, 1, 18⟩, ⟨"b", .Identifier, 20, 1, 21⟩,
           ⟨"a", .Identifier, 23, 1, 24⟩]).out
        = SemanticAnalyzerRun.new.out ++ (repeatedParameters []
            [⟨"a", .Identifier, 17, 1, 18⟩, ⟨"b", .Identifier, 20, 1, 21⟩,
             ⟨"a", .Identifier, 23, 1, 24⟩]).map
            (fun p => (some p, "Duplicate identifier found within the same scope.")) ∧
      ∃ locals, (SemanticAnalyzerRun.new.onEnterFunctionDeclarationExpressionAstNode [0, 0]
          [⟨"a", .Identifier, 17, 1, 18⟩, ⟨"b", .Identifier, 20, 1, 21⟩,
           ⟨"a", .Identifier, 23, 1, 24⟩]).currentScope
          = Scope.mk (some SemanticAnalyzerRun.new.currentScope) locals true ∧
        ∀ name, locals.lookup name
          = (List.find? (fun p => p.value == name)
              [⟨"a", .Identifier, 17, 1, 18⟩, ⟨"b", .Identifier, 20, 1, 21⟩,
               ⟨"a", .Identifier, 23, 1, 24⟩]).map fun p => ⟨p, true⟩) ∧
    ∃ run', visitExpressionAstNode (fun _ => false) (fun _ => false) [0, 0]
        (Expression.FunctionDeclaration
          [⟨"a", .Identifier, 17, 1, 18⟩, ⟨"b", .Identifier, 20, 1, 21⟩,
           ⟨"a", .Identifier, 23, 1, 24⟩] (Statement.Block [])) SemanticAnalyzerRun.new
        = some run' ∧
      run'.currentScope = SemanticAnalyzerRun.new.currentScope :=
  C23_function_parameters (fun _ => false) (fun _ => false) SemanticAnalyzerRun.new [0, 0]
    [⟨"a", .Identifier, 17, 1, 18⟩, ⟨"b", .Identifier, 20, 1, 21⟩,
     ⟨"a", .Identifier, 23, 1, 24⟩] (Statement.Block []) (by decide) (by decide)
    (fun k hk => absurd hk (by simp [SemanticAnalyzerRun.new]))

/-- C24: after a `FunctionDeclaration` node is visited (enter hook, body, exit
hook) the inside-loop flag is what it was before the node was entered, whatever
the body holds (built-ins known, function literals nested less than `2^64` deep,
a node not entered before).  So in
`while (true) { var f = function() { }; break; }` the `break` is not reported,
and in `var f = function() { while (true) { } }; break;` it is. -/
theorem C24_function_restores_loop_flag (stollThrows stodThrows : String → Bool)
    (run : SemanticAnalyzerRun) (node : NodeId) (parameters : List Token)
    (statement : Statement)
    (hknown : (Expression.FunctionDeclaration parameters statement).builtInsKnown = true)
    (hdepth : run.functionDept
      + (Expression.FunctionDeclaration parameters statement).functionNesting < 2 ^ 64)
    (hkeys : ∀ k ∈ run.inLoopState.map Prod.fst, ¬ node <+: k) :
    (∃ run', visitExpressionAstNode stollThrows stodThrows node
        (Expression.FunctionDeclaration parameters statement) run = some run' ∧
      run'.inLoop = run.inLoop) ∧
    (visitScriptAstNode stollThrows stodThrows
        ⟨[Statement.While (Expression.Literal ⟨"true", .BooleanLiteral, 7, 1, 8⟩)
            (Statement.Block
              [Statement.Declare ⟨"f", .Identifier, 20, 1, 21⟩
                (Expression.FunctionDeclaration [] (Statement.Block [])),
               Statement.Break (some ⟨"break", .Break, 42, 1, 43⟩)])]⟩
        SemanticAnalyzerRun.new).map (fun run => (run.out, run.error))
      = some ([], false) ∧
    (visitScriptAstNode stollThrows stodThrows
        ⟨[Statement.Declare ⟨"f", .Identifier, 4, 1, 5⟩
            (Expression.FunctionDeclaration []
              (Statement.Block
                [Statement.While (Expression.Literal ⟨"true", .BooleanLiteral, 28, 1, 29⟩)
                  (Statement.Block [])])),
          Statement.Break (some ⟨"break", .Break, 42, 1, 43⟩)]⟩
        SemanticAnalyzerRun.new).map (fun run => (run.out, run.error))
      = some ([(some ⟨"break", .Break, 42, 1, 43⟩,
          "Break statements can only be used from within loops.")], true) := by
  refine ⟨?_, rfl, rfl⟩
  obtain ⟨run', hrun, V⟩ := visitExpressionAstNode_visited stollThrows stodThrows
    (Expression.FunctionDeclaration parameters statement) node run hknown hdepth hkeys
  exact ⟨run', hrun, (V.same rfl).2⟩

/-- Witness of C24: the function literal of `function() { while (true) { } }`
visited inside a loop. -/
theorem C24_function_restores_loop_flag_witness :
    ∃ run', visitExpressionAstNode (fun _ => false) (fun _ => false) [0, 0]
        (Expression.FunctionDeclaration []
          (Statement.Block
            [Statement.While (Expression.Literal ⟨"true", .BooleanLiteral, 28, 1, 29⟩)
              (Statement.Block [])]))
        SemanticAnalyzerRun.new.onEnterWhileStatementAstNode = some run' ∧
      run'.inLoop = SemanticAnalyzerRun.new.onEnterWhileStatementAstNode.inLoop :=
  (C24_function_restores_loop_flag (fun _ => false) (fun _ => false)
    SemanticAnalyzerRun.new.onEnterWhileStatementAstNode [0, 0] []
    (Statement.Block
      [Statement.While (Expression.Literal ⟨"true", .BooleanLiteral, 28, 1, 29⟩)
        (Statement.Block [])]) (by decide) (by decide)
    (fun k hk => absurd hk (by
      simp [SemanticAnalyzerRun.new, SemanticAnalyzerRun.onEnterWhileStatementAstNode]))).1

/-! ## The scope of a block -/

/-- C25: let `x` be declared with a valid literal inside a block at top level.
An assignment to `x` after the block is reported (no local declaration) and so is
a read of `x` after the block (undefined reference), and `isValid` is false; the
same assignment and the same read inside the block, after the declaration, are
not reported and `isValid` is true. -/
theorem C25_block_scope_is_popped (stollThrows stodThrows : String → Bool)
    (x a r y l1 l2 : Token)
    (ha : a.value = x.value) (hr : r.value = x.value) (hy : y.value ≠ x.value)
    (h1 : (l1.tokenType = TokenType.IntegerLiteral →
        stollThrows l1.value = false ∧ stodThrows l1.value = false) ∧
      (l1.tokenType = TokenType.FloatLiteral → stodThrows l1.value = false))
    (h2 : (l2.tokenType = TokenType.IntegerLiteral →
        stollThrows l2.value = false ∧ stodThrows l2.value = false) ∧
      (l2.tokenType = TokenType.FloatLiteral → stodThrows l2.value = false)) :
    ((visitScriptAstNode stollThrows stodThrows
          ⟨[Statement.Block [Statement.Declare x (Expression.Literal l1)],
            Statement.Assign a (Expression.Literal l2)]⟩
          SemanticAnalyzerRun.new).map (fun run => (run.out, run.error))
        = some ([(some a, "No local declaration found for identifier.")], true) ∧
      SemanticAnalyzer.isValid stollThrows stodThrows
          ⟨[Statement.Block [Statement.Declare x (Expression.Literal l1)],
            Statement.Assign a (Expression.Literal l2)]⟩ = some false) ∧
    ((visitScriptAstNode stollThrows stodThrows
          ⟨[Statement.Block [Statement.Declare x (Expression.Literal l1)],
            Statement.Declare y (Expression.Identifier r)]⟩
          SemanticAnalyzerRun.new).map (fun run => (run.out, run.error))
        = some ([(some r, "Undefined reference in identifier evaluation.")], true) ∧
      SemanticAnalyzer.isValid stollThrows stodThrows
          ⟨[Statement.Block [Statement.Declare x (Expression.Literal l1)],
            Statement.Declare y (Expression.Identifier r)]⟩ = some false) ∧
    ((visitScriptAstNode stollThrows stodThrows
          ⟨[Statement.Block [Statement.Declare x (Expression.Literal l1),
            Statement.Assign a (Expression.Literal l2)]]⟩
          SemanticAnalyzerRun.new).map (fun run => (run.out, run.error))
        = some ([], false) ∧
      SemanticAnalyzer.isValid stollThrows stodThrows
          ⟨[Statement.Block [Statement.Declare x (Expression.Literal l1),
            Statement.Assign a (Expression.Literal l2)]]⟩ = some true) ∧
    ((visitScriptAstNode stollThrows stodThrows
          ⟨[Statement.Block [Statement.Declare x (Expression.Literal l1),
            Statement.Declare y (Expression.Identifier r)]]⟩
          SemanticAnalyzerRun.new).map (fun run => (run.out, run.error))
        = some ([], false) ∧
      SemanticAnalyzer.isValid stollThrows stodThrows
          ⟨[Statement.Block [Statement.Declare x (Expression.Literal l1),
            Statement.Declare y (Expression.Identifier r)]]⟩ = some true) := by
  have hyx : (y.value == x.value) = false := by simpa using hy
  have hxy : (x.value == y.value) = false := by
    simpa using fun e : x.value = y.value => hy e.symm
  simp [SemanticAnalyzer.isValid, visitScriptAstNode, visitStatementAstNodes,
    visitStatementAstNode, visitExpressionAstNode,
    SemanticAnalyzerRun.onEnterLiteralExpressionAstNode_of_valid _ _ _ _ h1,
    SemanticAnalyzerRun.onEnterLiteralExpressionAstNode_of_valid _ _ _ _ h2,
    SemanticAnalyzerRun.onEnterDeclareStatementAstNode,
    SemanticAnalyzerRun.onExitDeclareStatementAstNode,
    SemanticAnalyzerRun.onEnterAssignStatementAstNode,
    SemanticAnalyzerRun.onEnterIdentifierExpressionAstNode,
    SemanticAnalyzerRun.onEnterBlockStatementAstNode,
    SemanticAnalyzerRun.onExitBlockStatementAstNode,
    SemanticAnalyzerRun.pushScope, SemanticAnalyzerRun.pushScopeLoop,
    SemanticAnalyzerRun.popScope, SemanticAnalyzerRun.hasErrors,
    SemanticAnalyzerRun.new, SemanticAnalyzerRun.reportError, Scope.new, Scope.find,
    Scope.findLoop, Scope.findLocally, Scope.define, Scope.getOuterScope, Scope.localScope,
    Scope.outerScope, Scope.outerScopeCrossesFunctionBarrier, List.lookup, ha, hr, hy, hyx, hxy]

/-- Witness of C25 on `{ var x = 1; } x = 2;`. -/
theorem C25_block_scope_is_popped_witness :
    (visitScriptAstNode (fun _ => false) (fun _ => false)
          ⟨[Statement.Block
              [Statement.Declare ⟨"x", .Identifier, 6, 1, 7⟩
                (Expression.Literal ⟨"1", .IntegerLiteral, 10, 1, 11⟩)],
            Statement.Assign ⟨"x", .Identifier, 15, 1, 16⟩
              (Expression.Literal ⟨"2", .IntegerLiteral, 19, 1, 20⟩)]⟩
          SemanticAnalyzerRun.new).map (fun run => (run.out, run.error))
        = some ([(some ⟨"x", .Identifier, 15, 1, 16⟩,
            "No local declaration found for identifier.")], true) :=
  (C25_block_scope_is_popped (fun _ => false) (fun _ => false)
    ⟨"x", .Identifier, 6, 1, 7⟩ ⟨"x", .Identifier, 15, 1, 16⟩ ⟨"x", .Identifier, 30, 2, 9⟩
    ⟨"y", .Identifier, 26, 2, 5⟩ ⟨"1", .IntegerLiteral, 10, 1, 11⟩
    ⟨"2", .IntegerLiteral, 19, 1, 20⟩ rfl rfl (by decide)
    ⟨fun _ => ⟨rfl, rfl⟩, fun _ => rfl⟩ ⟨fun _ => ⟨rfl, rfl⟩, fun _ => rfl⟩).1.1

/-! ## Assignments and reads through the scope chain -/

theorem Scope.findLoop_eq_functionTables (name : String) :
    ∀ s : Scope, Scope.findLoop name false s false
      = s.functionTables.findSome? (fullyBoundBinding name)
  | Scope.mk none localScope barrier => by
    cases hl : localScope.lookup name with
    | none =>
      simp [Scope.findLoop, Scope.findLocally, Scope.localScope, Scope.functionTables,
        fullyBoundBinding, hl]
    | some vd =>
      cases hb : vd.isFullyBound <;>
        simp [Scope.findLoop, Scope.findLocally, Scope.localScope, Scope.functionTables,
          fullyBoundBinding, hl, hb]
  | Scope.mk (some outer) localScope barrier => by
    have ih := Scope.findLoop_eq_functionTables name outer
    cases hl : localScope.lookup name with
    | none =>
      cases barrier
      · simpa [Scope.findLoop, Scope.findLocally, Scope.localScope, Scope.functionTables,
          fullyBoundBinding, hl] using ih
      · simp [Scope.findLoop, Scope.findLocally, Scope.localScope, Scope.functionTables,
          fullyBoundBinding, hl]
    | some vd =>
      cases hb : vd.isFullyBound
      · cases barrier
        · simpa [Scope.findLoop, Scope.findLocally, Scope.localScope, Scope.functionTables,
            fullyBoundBinding, hl, hb] using ih
        · simp [Scope.findLoop, Scope.findLocally, Scope.localScope, Scope.functionTables,
            fullyBoundBinding, hl, hb]
      · cases barrier <;>
          simp [Scope.findLoop, Scope.findLocally, Scope.localScope, Scope.functionTables,
            fullyBoundBinding, hl, hb]

/-- Without crossing a function barrier, `Scope::find` finds nothing exactly when
no scope of the current function holds the name fully bound. -/
theorem Scope.find_eq_none_iff (s : Scope) (name : String) :
    s.find name false = none
      ↔ ∀ table ∈ s.functionTables, fullyBoundBinding name table = none := by
  unfold Scope.find
  rw [Scope.findLoop_eq_functionTables, List.findSome?_eq_none_iff]

/-- A name that some scope of the chain holds fully bound is found by
`Scope::find` when it may cross function barriers. -/
theorem Scope.find_ne_none_of_fullyBound (s : Scope) (name : String)
    (h : ∃ entry ∈ s.outwardWalk 0, fullyBoundBinding name entry.2 ≠ none) :
    s.find name true ≠ none := by
  obtain ⟨entry, he, hentry⟩ := h
  rw [Scope.find_eq_innermostVisible, Scope.innermostVisible]
  intro hnone
  rw [List.findSome?_eq_none_iff] at hnone
  have hv := hnone entry he
  cases hl : entry.2.lookup name with
  | none => simp [fullyBoundBinding, hl] at hentry
  | some vd =>
    cases hb : vd.isFullyBound
    · simp [fullyBoundBinding, hl, hb] at hentry
    · simp [visibleBinding, VariableDefinition.visible, hl, hb] at hv

theorem SemanticAnalyzerRun.onExitBlockStatementAstNode_onEnter (run : SemanticAnalyzerRun) :
    run.onEnterBlockStatementAstNode.onExitBlockStatementAstNode = some run := by
  cases run
  rfl

/-- A statement whose visit does the same inside a fresh block scope as outside
does so inside any number of nested blocks. -/
theorem visitStatementAstNode_nestedBlocks (stollThrows stodThrows : String → Bool)
    (s : Statement) (F : SemanticAnalyzerRun → SemanticAnalyzerRun)
    (hs : ∀ node run, visitStatementAstNode stollThrows stodThrows node s run = some (F run))
    (hF : ∀ run, F run.onEnterBlockStatementAstNode = (F run).onEnterBlockStatementAstNode) :
    ∀ (n : Nat) (node : NodeId) (run : SemanticAnalyzerRun),
      visitStatementAstNode stollThrows stodThrows node (nestedBlocks n s) run = some (F run)
  | 0, node, run => hs node run
  | n + 1, node, run => by
    have ih := visitStatementAstNode_nestedBlocks stollThrows stodThrows s F hs hF n
      (node ++ [0]) run.onEnterBlockStatementAstNode
    simp only [nestedBlocks, visitStatementAstNode, visitStatementAstNodes, Option.bind_eq_bind,
      Option.pure_def, ih, Option.some_bind, hF,
      SemanticAnalyzerRun.onExitBlockStatementAstNode_onEnter]

theorem SemanticAnalyzerRun.find_onEnterBlockStatementAstNode (run : SemanticAnalyzerRun)
    (name : String) (canCrossFunctionBarrier : Bool) :
    run.onEnterBlockStatementAstNode.currentScope.find name canCrossFunctionBarrier
      = run.currentScope.find name canCrossFunctionBarrier := by
  cases canCrossFunctionBarrier <;>
    simp [SemanticAnalyzerRun.onEnterBlockStatementAstNode, SemanticAnalyzerRun.pushScope,
      SemanticAnalyzerRun.pushScopeLoop, Scope.find, Scope.findLoop, Scope.findLocally,
      Scope.localScope]

/-- An assignment of a valid literal inside any number of nested blocks does what
the hook of the assignment does in the scope around the blocks. -/
theorem visitStatementAstNode_nestedBlocks_assign (stollThrows stodThrows : String → Bool)
    (a l : Token)
    (hl : (l.tokenType = TokenType.IntegerLiteral →
        stollThrows l.value = false ∧ stodThrows l.value = false) ∧
      (l.tokenType = TokenType.FloatLiteral → stodThrows l.value = false))
    (n : Nat) (node : NodeId) (run : SemanticAnalyzerRun) :
    visitStatementAstNode stollThrows stodThrows node
        (nestedBlocks n (Statement.Assign a (Expression.Literal l))) run
      = some (run.onEnterAssignStatementAstNode a) := by
  apply visitStatementAstNode_nestedBlocks stollThrows stodThrows _
    (fun run => run.onEnterAssignStatementAstNode a)
  · intro node run
    simp only [visitStatementAstNode, visitExpressionAstNode, Option.pure_def,
      SemanticAnalyzerRun.onEnterLiteralExpressionAstNode_of_valid _ _ _ _ hl]
  · intro run
    simp only [SemanticAnalyzerRun.onEnterAssignStatementAstNode,
      SemanticAnalyzerRun.find_onEnterBlockStatementAstNode]
    split <;> rfl

/-- A read of an identifier (in a `return`) inside any number of nested blocks does
what the hooks do in the scope around the blocks. -/
theorem visitStatementAstNode_nestedBlocks_read (stollThrows stodThrows : String → Bool)
    (r : Token) (returnToken : Option Token) (n : Nat) (node : NodeId)
    (run : SemanticAnalyzerRun) :
    visitStatementAstNode stollThrows stodThrows node
        (nestedBlocks n (Statement.Return (some (Expression.Identifier r)) returnToken)) run
      = some ((run.onEnterReturnStatementAstNode returnToken).onEnterIdentifierExpressionAstNode
          r) := by
  apply visitStatementAstNode_nestedBlocks stollThrows stodThrows _
    (fun run =>
      (run.onEnterReturnStatementAstNode returnToken).onEnterIdentifierExpressionAstNode r)
  · intro node run
    simp only [visitStatementAstNode, visitExpressionAstNode, Option.pure_def]
  · intro run
    have hret : run.onEnterBlockStatementAstNode.onEnterReturnStatementAstNode returnToken
        = (run.onEnterReturnStatementAstNode returnToken).onEnterBlockStatementAstNode := by
      simp only [SemanticAnalyzerRun.onEnterReturnStatementAstNode]
      have hd : run.onEnterBlockStatementAstNode.functionDept = run.functionDept := rfl
      rw [hd]
      split <;> rfl
    simp only [hret, SemanticAnalyzerRun.onEnterIdentifierExpressionAstNode,
      SemanticAnalyzerRun.find_onEnterBlockStatementAstNode]
    split <;> rfl

theorem Scope.outwardWalk_tables :
    ∀ (s : Scope) (j k : Nat),
      (s.outwardWalk j).map Prod.snd = (s.outwardWalk k).map Prod.snd
  | Scope.mk none localScope barrier, j, k => by simp [Scope.outwardWalk]
  | Scope.mk (some outer) localScope barrier, j, k => by
    simp only [Scope.outwardWalk, List.map_cons, List.cons.injEq, true_and]
    exact Scope.outwardWalk_tables outer _ _

/-- Inside a function literal whose parameters do not have the name, no scope of
the function holds it when the body is entered, and the names that the chain
around the literal holds fully bound are still on the outward walk. -/
theorem SemanticAnalyzerRun.onEnterFunctionDeclarationExpressionAstNode_tables
    (run : SemanticAnalyzerRun) (node : NodeId) (parameters : List Token) (name : String)
    (hname : name ∉ parameters.map fun t => t.value) :
    (∀ table ∈ (run.onEnterFunctionDeclarationExpressionAstNode node
        parameters).currentScope.functionTables, fullyBoundBinding name table = none) ∧
    ((∃ entry ∈ run.currentScope.outwardWalk 0, fullyBoundBinding name entry.2 ≠ none) →
      ∃ entry ∈ (run.onEnterFunctionDeclarationExpressionAstNode node
        parameters).currentScope.outwardWalk 0, fullyBoundBinding name entry.2 ≠ none) := by
  obtain ⟨_, locals, hscope, hlook⟩ :=
    SemanticAnalyzerRun.onEnterFunctionDeclarationExpressionAstNode_parameters run node
      parameters
  rw [hscope]
  constructor
  · intro table ht
    simp only [Scope.functionTables, if_true, List.mem_singleton] at ht
    subst ht
    have hfind : (parameters.find? fun p => p.value == name) = none := by
      rw [List.find?_eq_none]
      intro p hp heq
      exact hname (List.mem_map.2 ⟨p, hp, by simpa using heq⟩)
    simp [fullyBoundBinding, hlook name, hfind]
  · rintro ⟨entry, he, hentry⟩
    have hmem : entry.2 ∈ (run.currentScope.outwardWalk 1).map Prod.snd := by
      rw [Scope.outwardWalk_tables run.currentScope 1 0]
      exact List.mem_map_of_mem Prod.snd he
    obtain ⟨entry', he', heq⟩ := List.mem_map.1 hmem
    refine ⟨entry', ?_, by rw [heq]; exact hentry⟩
    simp only [Scope.outwardWalk, if_true, List.mem_cons]
    exact Or.inr he'

/-- The scripts of the assignment rule, the statement inside `n` nested blocks:
`x` is declared at top level with a valid literal; an assignment to `x` in the
body of a function literal whose parameters do not name `x` is reported once; a
read of `x` there is not; an assignment to `x` in nested blocks of the declaring
function is not. -/
theorem assignment_in_nested_blocks (stollThrows stodThrows : String → Bool)
    (x f a l1 l2 : Token) (parameters : List Token) (returnToken : Option Token) (n : Nat)
    (hname : a.value = x.value) (hf : f.value ≠ x.value)
    (hparams : (parameters.map fun t => t.value).Nodup)
    (hx : x.value ∉ parameters.map fun t => t.value)
    (h1 : (l1.tokenType = TokenType.IntegerLiteral →
        stollThrows l1.value = false ∧ stodThrows l1.value = false) ∧
      (l1.tokenType = TokenType.FloatLiteral → stodThrows l1.value = false))
    (h2 : (l2.tokenType = TokenType.IntegerLiteral →
        stollThrows l2.value = false ∧ stodThrows l2.value = false) ∧
      (l2.tokenType = TokenType.FloatLiteral → stodThrows l2.value = false)) :
    ((visitScriptAstNode stollThrows stodThrows
          ⟨[Statement.Declare x (Expression.Literal l1),
            Statement.Declare f (Expression.FunctionDeclaration parameters
              (nestedBlocks n (Statement.Assign a (Expression.Literal l2))))]⟩
          SemanticAnalyzerRun.new).map (fun run => (run.out, run.error))
        = some ([(some a, "No local declaration found for identifier.")], true) ∧
      SemanticAnalyzer.isValid stollThrows stodThrows
          ⟨[Statement.Declare x (Expression.Literal l1),
            Statement.Declare f (Expression.FunctionDeclaration parameters
              (nestedBlocks n (Statement.Assign a (Expression.Literal l2))))]⟩
        = some false) ∧
    ((visitScriptAstNode stollThrows stodThrows
          ⟨[Statement.Declare x (Expression.Literal l1),
            Statement.Declare f (Expression.FunctionDeclaration parameters
              (nestedBlocks n (Statement.Return (some (Expression.Identifier a))
                returnToken)))]⟩
          SemanticAnalyzerRun.new).map (fun run => (run.out, run.error))
        = some ([], false) ∧
      SemanticAnalyzer.isValid stollThrows stodThrows
          ⟨[Statement.Declare x (Expression.Literal l1),
            Statement.Declare f (Expression.FunctionDeclaration parameters
              (nestedBlocks n (Statement.Return (some (Expression.Identifier a))
                returnToken)))]⟩
        = some true) ∧
    ((visitScriptAstNode stollThrows stodThrows
          ⟨[Statement.Declare x (Expression.Literal l1),
            nestedBlocks n (Statement.Assign a (Expression.Literal l2))]⟩
          SemanticAnalyzerRun.new).map (fun run => (run.out, run.error))
        = some ([], false) ∧
      SemanticAnalyzer.isValid stollThrows stodThrows
          ⟨[Statement.Declare x (Expression.Literal l1),
            nestedBlocks n (Statement.Assign a (Expression.Literal l2))]⟩
        = some true) := by
  have hfx : (x.value == f.value) = false := by
    simpa using fun e : x.value = f.value => hf e.symm
  have hxf : (f.value == x.value) = false := by simpa using hf
  have hpush : ∀ (out : List (Option Token × String)) (error : Bool) (functionDept : Nat)
      (inLoop : Bool) (inLoopState : List (NodeId × Bool)) (scope : Scope),
      SemanticAnalyzerRun.pushScopeLoop parameters
          ⟨out, error, functionDept, inLoop, inLoopState, Scope.mk (some scope) [] true⟩
        = ⟨out, error, functionDept, inLoop, inLoopState,
            Scope.mk (some scope)
              (parameters.reverse.map fun t => (t.value, (⟨t, true⟩ : VariableDefinition)))
              true⟩ := by
    intro out error functionDept inLoop inLoopState scope
    rw [SemanticAnalyzerRun.pushScopeLoop_fresh parameters _ _ [] true rfl hparams
      (fun _ _ => by simp)]
    simp
  have hlook := lookup_parameters_eq_none x.value parameters hx
  rw [List.map_reverse] at hlook
  have hd := visitStatementAstNode_declare_fresh stollThrows stodThrows ([] ++ [0]) x l1
    SemanticAnalyzerRun.new none [] true rfl (by simp) h1
  simp only [SemanticAnalyzer.isValid, visitScriptAstNode, visitStatementAstNodes,
    Option.bind_eq_bind, Option.pure_def, hd, Option.some_bind,
    visitStatementAstNode_nestedBlocks_assign stollThrows stodThrows a l2 h2,
    visitStatementAstNode_nestedBlocks_read]
  simp [visitStatementAstNode, visitStatementAstNodes, visitExpressionAstNode,
    visitStatementAstNode_nestedBlocks_assign stollThrows stodThrows a l2 h2,
    visitStatementAstNode_nestedBlocks_read,
    SemanticAnalyzerRun.onEnterDeclareStatementAstNode,
    SemanticAnalyzerRun.onExitDeclareStatementAstNode,
    SemanticAnalyzerRun.onEnterAssignStatementAstNode,
    SemanticAnalyzerRun.onEnterIdentifierExpressionAstNode,
    SemanticAnalyzerRun.onEnterFunctionDeclarationExpressionAstNode,
    SemanticAnalyzerRun.onExitFunctionDeclarationExpressionAstNode,
    SemanticAnalyzerRun.onEnterReturnStatementAstNode,
    SemanticAnalyzerRun.pushScope, SemanticAnalyzerRun.pushScopeLoop, hpush,
    SemanticAnalyzerRun.popScope, SemanticAnalyzerRun.hasErrors,
    SemanticAnalyzerRun.new, SemanticAnalyzerRun.reportError, Scope.new, Scope.find,
    Scope.findLoop, Scope.findLocally, Scope.define, Scope.getOuterScope, Scope.localScope,
    Scope.outerScope, Scope.outerScopeCrossesFunctionBarrier, List.lookup, hname, hf, hfx, hxf,
    hlook]

/-- C16: in every analyzer state, visiting an assignment to `a` is reported (once,
on `a`) when no scope of the current function, from the current scope outward
through block links up to the function barrier, holds the name fully bound, and
is not reported when one of them does; visiting a read of `a` is not reported
when any scope of the whole chain holds the name fully bound.  So, in every
state, an assignment to `a` inside a function literal whose parameters do not
have the name (directly in the body or inside any number of nested blocks) is
reported, whatever the scopes around the literal declare, and a read of `a`
there is not reported when a scope around the literal holds the name fully
bound.  On the scripts,
with the statement inside any number `n` of nested blocks and any parameters that
do not name `x`: (1) `var x = 1; var f = function(..) { x = 2; };` has exactly
one report, on the assigned identifier, and `isValid` is false; (2) with a read of
`x` in the same position there is no report and `isValid` is true; (3)
`var x = 1; { x = 2; }` has no report. -/
theorem C16_assignment_across_function (stollThrows stodThrows : String → Bool)
    (x f a l1 l2 : Token) (parameters : List Token) (returnToken : Option Token) (n : Nat)
    (hname : a.value = x.value) (hf : f.value ≠ x.value)
    (hparams : (parameters.map fun t => t.value).Nodup)
    (hx : x.value ∉ parameters.map fun t => t.value)
    (h1 : (l1.tokenType = TokenType.IntegerLiteral →
        stollThrows l1.value = false ∧ stodThrows l1.value = false) ∧
      (l1.tokenType = TokenType.FloatLiteral → stodThrows l1.value = false))
    (h2 : (l2.tokenType = TokenType.IntegerLiteral →
        stollThrows l2.value = false ∧ stodThrows l2.value = false) ∧
      (l2.tokenType = TokenType.FloatLiteral → stodThrows l2.value = false)) :
    (∀ (run : SemanticAnalyzerRun) (node : NodeId),
      ((∀ table ∈ run.currentScope.functionTables, fullyBoundBinding a.value table = none) →
        visitStatementAstNode stollThrows stodThrows node
            (Statement.Assign a (Expression.Literal l2)) run
          = some (run.reportError (some a) "No local declaration found for identifier.")) ∧
      ((∃ table ∈ run.currentScope.functionTables, fullyBoundBinding a.value table ≠ none) →
        visitStatementAstNode stollThrows stodThrows node
            (Statement.Assign a (Expression.Literal l2)) run = some run) ∧
      ((∃ entry ∈ run.currentScope.outwardWalk 0, fullyBoundBinding a.value entry.2 ≠ none) →
        visitExpressionAstNode stollThrows stodThrows node (Expression.Identifier a) run
          = some run) ∧
      (∀ (bodyNode : NodeId) (m : Nat),
        visitStatementAstNode stollThrows stodThrows bodyNode
            (nestedBlocks m (Statement.Assign a (Expression.Literal l2)))
            (run.onEnterFunctionDeclarationExpressionAstNode node parameters)
          = some ((run.onEnterFunctionDeclarationExpressionAstNode node
              parameters).reportError (some a)
                "No local declaration found for identifier.")) ∧
      ((∃ entry ∈ run.currentScope.outwardWalk 0, fullyBoundBinding a.value entry.2 ≠ none) →
        ∀ bodyNode : NodeId,
          visitExpressionAstNode stollThrows stodThrows bodyNode (Expression.Identifier a)
              (run.onEnterFunctionDeclarationExpressionAstNode node parameters)
            = some (run.onEnterFunctionDeclarationExpressionAstNode node parameters))) ∧
    ((visitScriptAstNode stollThrows stodThrows
          ⟨[Statement.Declare x (Expression.Literal l1),
            Statement.Declare f (Expression.FunctionDeclaration parameters
              (nestedBlocks n (Statement.Assign a (Expression.Literal l2))))]⟩
          SemanticAnalyzerRun.new).map (fun run => (run.out, run.error))
        = some ([(some a, "No local declaration found for identifier.")], true) ∧
      SemanticAnalyzer.isValid stollThrows stodThrows
          ⟨[Statement.Declare x (Expression.Literal l1),
            Statement.Declare f (Expression.FunctionDeclaration parameters
              (nestedBlocks n (Statement.Assign a (Expression.Literal l2))))]⟩
        = some false) ∧
    ((visitScriptAstNode stollThrows stodThrows
          ⟨[Statement.Declare x (Expression.Literal l1),
            Statement.Declare f (Expression.FunctionDeclaration parameters
              (nestedBlocks n (Statement.Return (some (Expression.Identifier a))
                returnToken)))]⟩
          SemanticAnalyzerRun.new).map (fun run => (run.out, run.error))
        = some ([], false) ∧
      SemanticAnalyzer.isValid stollThrows stodThrows
          ⟨[Statement.Declare x (Expression.Literal l1),
            Statement.Declare f (Expression.FunctionDeclaration parameters
              (nestedBlocks n (Statement.Return (some (Expression.Identifier a))
                returnToken)))]⟩
        = some true) ∧
    ((visitScriptAstNode stollThrows stodThrows
          ⟨[Statement.Declare x (Expression.Literal l1),
            nestedBlocks n (Statement.Assign a (Expression.Literal l2))]⟩
          SemanticAnalyzerRun.new).map (fun run => (run.out, run.error))
        = some ([], false) ∧
      SemanticAnalyzer.isValid stollThrows stodThrows
          ⟨[Statement.Declare x (Expression.Literal l1),
            nestedBlocks n (Statement.Assign a (Expression.Literal l2))]⟩
        = some true) := by
  refine ⟨?_, assignment_in_nested_blocks stollThrows stodThrows x f a l1 l2 parameters
    returnToken n hname hf hparams hx h1 h2⟩
  intro run node
  have ha : a.value ∉ parameters.map fun t => t.value := by rw [hname]; exact hx
  have hassign : ∀ (run : SemanticAnalyzerRun) (m : Nat) (node : NodeId),
      (∀ table ∈ run.currentScope.functionTables, fullyBoundBinding a.value table = none) →
      visitStatementAstNode stollThrows stodThrows node
          (nestedBlocks m (Statement.Assign a (Expression.Literal l2))) run
        = some (run.reportError (some a) "No local declaration found for identifier.") := by
    intro run m node hnone
    rw [visitStatementAstNode_nestedBlocks_assign stollThrows stodThrows a l2 h2 m node run,
      SemanticAnalyzerRun.onEnterAssignStatementAstNode, (Scope.find_eq_none_iff _ _).2 hnone]
    rfl
  have hread : ∀ (run : SemanticAnalyzerRun) (node : NodeId),
      (∃ entry ∈ run.currentScope.outwardWalk 0, fullyBoundBinding a.value entry.2 ≠ none) →
      visitExpressionAstNode stollThrows stodThrows node (Expression.Identifier a) run
        = some run := by
    intro run node hsome
    have hfind := Scope.find_ne_none_of_fullyBound run.currentScope a.value hsome
    cases hf' : run.currentScope.find a.value true with
    | none => exact absurd hf' hfind
    | some vd =>
      simp [visitExpressionAstNode, SemanticAnalyzerRun.onEnterIdentifierExpressionAstNode,
        hf']
  have htables := SemanticAnalyzerRun.onEnterFunctionDeclarationExpressionAstNode_tables run
    node parameters a.value ha
  refine ⟨hassign run 0 node, fun hsome => ?_, hread run node,
    fun bodyNode m => hassign _ m bodyNode htables.1,
    fun hsome bodyNode => hread _ bodyNode (htables.2 hsome)⟩
  have hfind : run.currentScope.find a.value false ≠ none := by
    intro h
    obtain ⟨table, ht, hne⟩ := hsome
    exact hne ((Scope.find_eq_none_iff _ _).1 h table ht)
  have hvisit := visitStatementAstNode_nestedBlocks_assign stollThrows stodThrows a l2 h2 0
    node run
  simp only [nestedBlocks] at hvisit
  rw [hvisit, SemanticAnalyzerRun.onEnterAssignStatementAstNode]
  simp [hfind]

/-- Witness of C16 on `var x = 1; var f = function() { { x = 2; } };`. -/
theorem C16_assignment_across_function_witness :
    ("x" : String) = "x" ∧ ("f" : String) ≠ "x" ∧
    (visitScriptAstNode (fun _ => false) (fun _ => false)
          ⟨[Statement.Declare ⟨"x", .Identifier, 4, 1, 5⟩
              (Expression.Literal ⟨"1", .IntegerLiteral, 8, 1, 9⟩),
            Statement.Declare ⟨"f", .Identifier, 15, 1, 16⟩
              (Expression.FunctionDeclaration []
                (Statement.Block
                  [Statement.Block
                    [Statement.Assign ⟨"x", .Identifier, 34, 1, 35⟩
                      (Expression.Literal ⟨"2", .IntegerLiteral, 38, 1, 39⟩)]]))]⟩
          SemanticAnalyzerRun.new).map (fun run => (run.out, run.error))
        = some ([(some ⟨"x", .Identifier, 34, 1, 35⟩,
            "No local declaration found for identifier.")], true) :=
  ⟨rfl, by decide,
    (C16_assignment_across_function (fun _ => false) (fun _ => false)
      ⟨"x", .Identifier, 4, 1, 5⟩ ⟨"f", .Identifier, 15, 1, 16⟩ ⟨"x", .Identifier, 34, 1, 35⟩
      ⟨"1", .IntegerLiteral, 8, 1, 9⟩ ⟨"2", .IntegerLiteral, 38, 1, 39⟩ [] none 2 rfl
      (by decide) (by simp) (by simp) ⟨fun _ => ⟨rfl, rfl⟩, fun _ => rfl⟩
      ⟨fun _ => ⟨rfl, rfl⟩, fun _ => rfl⟩).2.1.1⟩

end Flang
